import Mathlib

/-!
# Chat backend: authorization gate, chat-creation transaction and auth service

A shallow embedding of `internal/service/chat.go`, `internal/service/message.go`,
`internal/service/user.go`, `internal/handler/chat.go`, `internal/handler/message.go`,
`internal/handler/user.go` and `internal/auth/auth.go`.

* The persistent store is a value `DB` (four tables).  Timestamps are left out of the rows.
* Every call to the storage collaborator may fail: an `Env` says, for each call index and
  each operation, whether that call fails with a storage error.  A `World` is the tables
  together with the number of storage calls made so far.
* A service method is a function `Env → World → ... → result × World`.
* A handler is a function to a `Response` (status code and body) and the resulting `World`.
* The auth service takes the clock reading and the random bytes as arguments; encrypted
  tokens and password hashes are kept symbolically.
-/

namespace ChatApp

/-! ## Data model -/

/-- A byte string (Go's `[]byte`). -/
abbrev Bytes := List UInt8

/-- The bytes of a Go string, `[]byte(s)`. -/
def bytesOf (s : String) : Bytes :=
  s.toUTF8.data.toList

/-- A stored password hash (a `string` in Go).  The bcrypt package is a dependency and not
among the sources; its hash of a password is kept symbolically as the cost, the salt and the
bytes that were hashed, so that two hashes are equal exactly when these are.  Any other
string is `other`. -/
inductive Hashed where
  | bcrypt (cost : Nat) (salt : Bytes) (key : Bytes)
  | other (s : String)
deriving DecidableEq, Repr

instance : Coe String Hashed := ⟨Hashed.other⟩

/-- A row of the user table; `password` is the stored hash. -/
structure User where
  id : Int
  username : String
  password : Hashed
  displayName : String
deriving DecidableEq, Repr

/-- A row of the chat table; `creatorID` is the creator edge. -/
structure Chat where
  id : Int
  name : String
  isGroup : Bool
  creatorID : Int
deriving DecidableEq, Repr

/-- A MembershipRecord: `chatID` and `userID` are the chat and user edges. -/
structure ChatMember where
  id : Int
  chatID : Int
  userID : Int
  isAdmin : Bool
deriving DecidableEq, Repr

/-- A row of the message table; `chatID` and `senderID` are the chat and sender edges. -/
structure Message where
  id : Int
  chatID : Int
  senderID : Int
  content : String
deriving DecidableEq, Repr

/-- The tables of the store. -/
structure DB where
  users : List User
  chats : List Chat
  members : List ChatMember
  messages : List Message
deriving DecidableEq, Repr

/-- A membership entity as a query returns it: the row and the loaded user edge
(`Edges.User`, nil when not loaded or absent). -/
structure MemberEnt where
  row : ChatMember
  user : Option User
deriving DecidableEq, Repr

/-- A chat entity (`*ent.Chat`): the row and the loaded edges `Edges.Creator` and
`Edges.Members`. -/
structure ChatEnt where
  row : Chat
  creator : Option User
  members : List MemberEnt
deriving DecidableEq, Repr

/-- A message entity (`*ent.Message`): the row and the loaded edges `Edges.Sender` and
`Edges.Chat`. -/
structure MessageEnt where
  row : Message
  sender : Option User
  chat : Option Chat
deriving DecidableEq, Repr

/-- The entity that `Save` returns for a chat row: no edge is loaded. -/
def Chat.ent (c : Chat) : ChatEnt :=
  { row := c, creator := none, members := [] }

/-- The entity that `Save` returns for a message row: no edge is loaded. -/
def Message.ent (m : Message) : MessageEnt :=
  { row := m, sender := none, chat := none }

/-- Errors of the entity client: `ent.IsNotFound` holds of `notFound` only. -/
inductive EntError where
  | notFound
  | notSingular
  | storage
deriving DecidableEq, Repr

/-- An error built by `fmt.Errorf`: the message and, with `%w`, the wrapped cause. -/
structure ServiceError where
  msg : String
  cause : Option EntError
deriving DecidableEq, Repr

/-- The storage operations a service issues, with the identifiers they are keyed by. -/
inductive Op where
  | chatCreate
  | chatGet (id : Int)
  | chatOnly (id : Int)
  | chatCreator (id : Int)
  | chatUpdate (id : Int)
  | chatDelete (id : Int)
  | memberCreate (chatID userID : Int)
  | memberExist (chatID userID : Int)
  | memberOnly (chatID userID : Int)
  | memberDelete (chatID userID : Int)
  | userExist (id : Int)
  | messageCreate (chatID senderID : Int)
  | messageOnly (id : Int)
  | messageExist (id senderID : Int)
  | messageUpdate (id : Int)
  | messageDelete (id : Int)
  | messageList (chatID : Int)
  | userUpdate (id : Int)
  | userDelete (id : Int)
  | userCreate
deriving DecidableEq, Repr

/-- The behaviour of the storage collaborator: `fails n op` says that the call number `n`,
when it is `op`, fails with a storage error. -/
structure Env where
  fails : Nat → Op → Bool

/-- The tables and the number of storage calls issued so far. -/
structure World where
  db : DB
  tick : Nat
deriving DecidableEq, Repr

/-- The world after one more storage call that left the tables as they were. -/
def World.next (w : World) : World :=
  { db := w.db, tick := w.tick + 1 }

/-- The world after one more storage call that replaced the tables by `db`. -/
def World.put (w : World) (db : DB) : World :=
  { db := db, tick := w.tick + 1 }

/-- The largest identifier of a list, 0 for the empty list. -/
def maxID : List Int → Int
  | [] => 0
  | x :: xs => max x (maxID xs)

/-- Modelled from the spec: the storage collaborator keys every record by an integer
identifier; the schema and its identifier generator are missing, so a new row gets an
identifier larger than every identifier of its table. -/
def freshID (ids : List Int) : Int :=
  maxID ids + 1

/-- Go's `v, _ := q.Exist(ctx)`: the error is dropped and `v` is `false` on failure. -/
def dropErr : Except EntError Bool → Bool
  | .ok b => b
  | .error _ => false

/-- Whether a user with identifier `id` is in the user table. -/
def DB.hasUser (db : DB) (id : Int) : Bool :=
  db.users.any (fun u => u.id = id)

/-- The membership records that relate user `userID` to chat `chatID`. -/
def DB.membersOf (db : DB) (chatID userID : Int) : List ChatMember :=
  db.members.filter (fun m => m.chatID = chatID ∧ m.userID = userID)

/-- The membership records of chat `chatID`. -/
def DB.chatMembers (db : DB) (chatID : Int) : List ChatMember :=
  db.members.filter (fun m => m.chatID = chatID)

/-- Ent's `Only`: the single row of a result, `notFound` for none, `notSingular` for more. -/
def only {α : Type} : List α → Except EntError α
  | [] => .error .notFound
  | [a] => .ok a
  | _ :: _ :: _ => .error .notSingular

/-! ## The storage collaborator -/

namespace Store

/-- Modelled from the spec: the chat row that `create` adds (the schema is missing): the
given fields and a fresh identifier. -/
def newChat (w : World) (name : String) (isGroup : Bool) (creatorID : Int) : Chat :=
  { id := freshID (w.db.chats.map (·.id)), name := name, isGroup := isGroup,
    creatorID := creatorID }

/-- Modelled from the spec: the membership record that `create` adds (the schema is
missing): the given fields and a fresh identifier. -/
def newMember (w : World) (chatID userID : Int) (isAdmin : Bool) : ChatMember :=
  { id := freshID (w.db.members.map (·.id)), chatID := chatID, userID := userID,
    isAdmin := isAdmin }

/-- Modelled from the spec: `create` of the entity client (generated code, missing) on the
chat table: fails with a storage error, or adds a chat with a fresh identifier. -/
def chatCreate (env : Env) (w : World) (name : String) (isGroup : Bool) (creatorID : Int) :
    Except EntError Chat × World :=
  if env.fails w.tick .chatCreate then (.error .storage, w.next)
  else
    (.ok (newChat w name isGroup creatorID),
      w.put { w.db with chats := w.db.chats ++ [newChat w name isGroup creatorID] })

/-- Modelled from the spec: `get-by-id` of the entity client (missing) on the chat table;
fails with `notFound` when no chat has the identifier. -/
def chatGet (env : Env) (w : World) (id : Int) : Except EntError Chat × World :=
  if env.fails w.tick (.chatGet id) then (.error .storage, w.next)
  else
    match w.db.chats.find? (fun c => c.id = id) with
    | some c => (.ok c, w.next)
    | none => (.error .notFound, w.next)

/-- Modelled from the spec: `query-by-predicate` of the entity client (missing) for the
creator edge of a chat, `chatEntity.QueryCreator().Only(ctx)`. -/
def chatCreator (env : Env) (w : World) (c : Chat) : Except EntError User × World :=
  if env.fails w.tick (.chatCreator c.id) then (.error .storage, w.next)
  else (only (w.db.users.filter (fun u => u.id = c.creatorID)), w.next)

/-- Modelled from the spec: `update-by-id` of the entity client (missing) on the chat
table, setting the name; fails with `notFound` when no chat has the identifier. -/
def chatUpdateName (env : Env) (w : World) (id : Int) (name : String) :
    Except EntError Chat × World :=
  if env.fails w.tick (.chatUpdate id) then (.error .storage, w.next)
  else
    match w.db.chats.find? (fun c => c.id = id) with
    | some c =>
      (.ok { c with name := name },
        w.put { w.db with
          chats := w.db.chats.map (fun x => if x.id = id then { x with name := name } else x) })
    | none => (.error .notFound, w.next)

/-- Modelled from the spec: `delete-by-id` of the entity client (missing) on the chat
table; fails with `notFound` when no chat has the identifier.  The membership records of
the chat are deleted with it (cascade). -/
def chatDelete (env : Env) (w : World) (id : Int) : Except EntError Unit × World :=
  if env.fails w.tick (.chatDelete id) then (.error .storage, w.next)
  else if w.db.chats.any (fun c => c.id = id) then
    (.ok (),
      w.put { w.db with
        chats := w.db.chats.filter (fun c => ¬ c.id = id)
        members := w.db.members.filter (fun m => ¬ m.chatID = id) })
  else (.error .notFound, w.next)

/-- Modelled from the spec: `create` of the entity client (missing) on the membership
table: fails with a storage error, or adds the record. -/
def memberCreate (env : Env) (w : World) (chatID userID : Int) (isAdmin : Bool) :
    Except EntError ChatMember × World :=
  if env.fails w.tick (.memberCreate chatID userID) then (.error .storage, w.next)
  else
    (.ok (newMember w chatID userID isAdmin),
      w.put { w.db with members := w.db.members ++ [newMember w chatID userID isAdmin] })

/-- Modelled from the spec: `exists(predicate)` of the entity client (missing) on the
membership table, for the records of chat `chatID` and user `userID`. -/
def memberExist (env : Env) (w : World) (chatID userID : Int) : Except EntError Bool × World :=
  if env.fails w.tick (.memberExist chatID userID) then (.error .storage, w.next)
  else (.ok (!(w.db.membersOf chatID userID).isEmpty), w.next)

/-- Modelled from the spec: `query-by-predicate` of the entity client (missing) on the
membership table, for the records of chat `chatID` and user `userID`, ended by `Only`. -/
def memberOnly (env : Env) (w : World) (chatID userID : Int) :
    Except EntError ChatMember × World :=
  if env.fails w.tick (.memberOnly chatID userID) then (.error .storage, w.next)
  else (only (w.db.membersOf chatID userID), w.next)

/-- Modelled from the spec: bulk delete by predicate of the entity client (missing) on the
membership table: removes every record of chat `chatID` and user `userID`, returns their
number. -/
def memberDelete (env : Env) (w : World) (chatID userID : Int) : Except EntError Nat × World :=
  if env.fails w.tick (.memberDelete chatID userID) then (.error .storage, w.next)
  else
    (.ok (w.db.membersOf chatID userID).length,
      w.put { w.db with
        members := w.db.members.filter (fun m => ¬ (m.chatID = chatID ∧ m.userID = userID)) })

/-- Modelled from the spec: `exists(predicate)` of the entity client (missing) on the user
table, for the identifier `id`. -/
def userExist (env : Env) (w : World) (id : Int) : Except EntError Bool × World :=
  if env.fails w.tick (.userExist id) then (.error .storage, w.next)
  else (.ok (w.db.hasUser id), w.next)

/-- Modelled from the spec: `query-by-predicate` of the entity client (missing) on the chat
table by identifier, ended by `Only`, loading the creator edge and the members edge with
the user of each member (`WithCreator`, `WithMembers`, `WithUser`). -/
def chatOnly (env : Env) (w : World) (id : Int) : Except EntError ChatEnt × World :=
  if env.fails w.tick (.chatOnly id) then (.error .storage, w.next)
  else
    match only (w.db.chats.filter (fun c => c.id = id)) with
    | .error e => (.error e, w.next)
    | .ok c =>
      (.ok
        { row := c
          creator := w.db.users.find? (fun u => u.id = c.creatorID)
          members := (w.db.chatMembers c.id).map
            (fun m => { row := m, user := w.db.users.find? (fun u => u.id = m.userID) }) },
        w.next)

/-- Modelled from the spec: `create` of the entity client (missing) on the message table:
fails with a storage error, or adds the message. -/
def messageCreate (env : Env) (w : World) (chatID senderID : Int) (content : String) :
    Except EntError Message × World :=
  if env.fails w.tick (.messageCreate chatID senderID) then (.error .storage, w.next)
  else
    let m : Message :=
      { id := freshID (w.db.messages.map (·.id)), chatID := chatID, senderID := senderID,
        content := content }
    (.ok m, w.put { w.db with messages := w.db.messages ++ [m] })

/-- Modelled from the spec: `query-by-predicate` of the entity client (missing) on the
message table by identifier, ended by `Only`, loading the sender edge only (`WithSender`). -/
def messageOnly (env : Env) (w : World) (id : Int) : Except EntError MessageEnt × World :=
  if env.fails w.tick (.messageOnly id) then (.error .storage, w.next)
  else
    match only (w.db.messages.filter (fun m => m.id = id)) with
    | .error e => (.error e, w.next)
    | .ok m =>
      (.ok { row := m, sender := w.db.users.find? (fun u => u.id = m.senderID), chat := none },
        w.next)

/-- Modelled from the spec: `exists(predicate)` of the entity client (missing) on the
message table, for the message `id` with sender `senderID`. -/
def messageExist (env : Env) (w : World) (id senderID : Int) : Except EntError Bool × World :=
  if env.fails w.tick (.messageExist id senderID) then (.error .storage, w.next)
  else (.ok (w.db.messages.any (fun m => m.id = id ∧ m.senderID = senderID)), w.next)

/-- Modelled from the spec: `update-by-id` of the entity client (missing) on the message
table, setting the content; fails with `notFound` when no message has the identifier. -/
def messageUpdate (env : Env) (w : World) (id : Int) (content : String) :
    Except EntError Message × World :=
  if env.fails w.tick (.messageUpdate id) then (.error .storage, w.next)
  else
    match w.db.messages.find? (fun m => m.id = id) with
    | some m =>
      (.ok { m with content := content },
        w.put { w.db with
          messages := w.db.messages.map
            (fun x => if x.id = id then { x with content := content } else x) })
    | none => (.error .notFound, w.next)

/-- Modelled from the spec: `delete-by-id` of the entity client (missing) on the message
table; fails with `notFound` when no message has the identifier. -/
def messageDelete (env : Env) (w : World) (id : Int) : Except EntError Unit × World :=
  if env.fails w.tick (.messageDelete id) then (.error .storage, w.next)
  else if w.db.messages.any (fun m => m.id = id) then
    (.ok (), w.put { w.db with messages := w.db.messages.filter (fun m => ¬ m.id = id) })
  else (.error .notFound, w.next)

/-- Modelled from the spec: `query-by-predicate` of the entity client (missing) on the
message table for the messages of chat `chatID`, loading the sender edge only
(`WithSender`), newest first (the rows of the table are in creation order), with `Offset`
and `Limit`. -/
def messageList (env : Env) (w : World) (chatID limit offset : Int) :
    Except EntError (List MessageEnt) × World :=
  if env.fails w.tick (.messageList chatID) then (.error .storage, w.next)
  else
    (.ok
      ((((w.db.messages.filter (fun m => m.chatID = chatID)).reverse.drop offset.toNat).take
          limit.toNat).map
        (fun m =>
          { row := m, sender := w.db.users.find? (fun u => u.id = m.senderID), chat := none })),
      w.next)

/-- Modelled from the spec: `update-by-id` of the entity client (missing) on the user
table, setting the display name and the password hash that are given; fails with `notFound`
when no user has the identifier. -/
def userUpdate (env : Env) (w : World) (id : Int) (displayName : Option String)
    (password : Option Hashed) : Except EntError User × World :=
  if env.fails w.tick (.userUpdate id) then (.error .storage, w.next)
  else
    match w.db.users.find? (fun u => u.id = id) with
    | some u =>
      (.ok
        { u with
          displayName := displayName.getD u.displayName
          password := password.getD u.password },
        w.put { w.db with
          users := w.db.users.map
            (fun x =>
              if x.id = id then
                { x with
                  displayName := displayName.getD x.displayName
                  password := password.getD x.password }
              else x) })
    | none => (.error .notFound, w.next)

/-- Modelled from the spec: the user row that `create` adds (the schema is missing): the
given fields and a fresh identifier. -/
def newUser (w : World) (username : String) (password : Hashed) (displayName : String) :
    User :=
  { id := freshID (w.db.users.map (·.id)), username := username, password := password,
    displayName := displayName }

/-- Modelled from the spec: `create` of the entity client (missing) on the user table: fails
with a storage error, or adds the user. -/
def userCreate (env : Env) (w : World) (username : String) (password : Hashed)
    (displayName : String) : Except EntError User × World :=
  if env.fails w.tick .userCreate then (.error .storage, w.next)
  else
    (.ok (newUser w username password displayName),
      w.put { w.db with users := w.db.users ++ [newUser w username password displayName] })

/-- Modelled from the spec: `delete-by-id` of the entity client (missing) on the user table;
fails with `notFound` when no user has the identifier.  The rows of the other tables are
left as they are. -/
def userDelete (env : Env) (w : World) (id : Int) : Except EntError Unit × World :=
  if env.fails w.tick (.userDelete id) then (.error .storage, w.next)
  else if w.db.users.any (fun u => u.id = id) then
    (.ok (), w.put { w.db with users := w.db.users.filter (fun u => ¬ u.id = id) })
  else (.error .notFound, w.next)

end Store

/-! ## `internal/auth/auth.go`

The PASETO and bcrypt packages are dependencies and not among the sources.  An instant
(`time.Time`) is the number of nanoseconds since the epoch, a duration (`time.Duration`) a
64-bit number of nanoseconds.  The clock reading `now` and the random bytes are arguments. -/

/-- Errors of the dependencies of the auth service. -/
inductive LibError where
  | keyLength
  | invalidToken
  | expired
  | missingClaim
  | invalidJSON
  | passwordTooLong
  | invalidCost
  | noRandomness
  | mismatchedHashAndPassword
  | invalidHash
deriving DecidableEq, Repr

deriving instance DecidableEq for Except

/-- An error of the auth service built by `fmt.Errorf` with `%w`. -/
structure AuthError where
  msg : String
  cause : LibError
deriving DecidableEq, Repr

/-- The value of a 64-bit signed integer computation: the mathematical result wrapped
around modulo `2 ^ 64`. -/
def wrapInt64 (x : Int) : Int :=
  (x + 2 ^ 63) % 2 ^ 64 - 2 ^ 63

/-- The constant `time.Hour`, in nanoseconds. -/
def Hour : Int := 3600000000000

/-- The constant `time.Second`, in nanoseconds. -/
def Second : Int := 1000000000

/-- An instant as a time claim of a PASETO token carries it.  The library (a dependency, not
among the sources) writes a time claim with `Time.Format(time.RFC3339)` and reads it back
with `time.Parse(time.RFC3339, _)`; that layout has no fractional seconds, so what is read
back is the instant cut down to its whole second. -/
def RFC3339 (t : Int) : Int :=
  t - t % Second

/-- The type `paseto.V4SymmetricKey`: the key material. -/
structure V4SymmetricKey where
  material : Bytes
deriving DecidableEq, Repr

/-- Modelled from the spec: the fixed byte length the AEAD primitive requires of a key (32
for a PASETO v4 symmetric key). -/
def V4KeyLength : Nat := 32

/-- Modelled from the spec: `paseto.V4SymmetricKeyFromBytes` (missing): the key whose
material is the given bytes, an error when they do not have the required length. -/
def V4SymmetricKeyFromBytes (bytes : Bytes) : Except LibError V4SymmetricKey :=
  if bytes.length ≠ V4KeyLength then .error .keyLength else .ok ⟨bytes⟩

/-- The type `auth.TokenPayload`. -/
structure TokenPayload where
  UserID : Int
  Username : String
  IssuedAt : Int
  ExpireAt : Int
deriving DecidableEq, Repr

/-- Modelled from the spec: a JSON text (the `encoding/json` package is missing), kept
symbolically: the text that serializes a payload, or any other string. -/
inductive JsonText where
  | payload (p : TokenPayload)
  | other (s : String)
deriving DecidableEq, Repr

/-- Modelled from the spec: `json.Marshal` of a `TokenPayload` (missing); it serializes the
payload.  (It fails only for an instant whose year is outside 0..9999, which the clock
reading and a 64-bit duration from it do not reach.) -/
def jsonMarshal (p : TokenPayload) : Except LibError JsonText :=
  .ok (.payload p)

/-- Modelled from the spec: `json.Unmarshal` into a `TokenPayload` (missing). -/
def jsonUnmarshal : JsonText → Except LibError TokenPayload
  | .payload p => .ok p
  | .other _ => .error .invalidJSON

/-- A claim of a token: an instant or a string. -/
inductive Claim where
  | time (t : Int)
  | text (j : JsonText)
deriving DecidableEq, Repr

/-- Modelled from the spec: the type `paseto.Token` (missing): the claims by name. -/
structure Token where
  claims : List (String × Claim)
deriving DecidableEq, Repr

namespace Token

/-- Modelled from the spec: `paseto.NewToken` (missing): a token without claims. -/
def NewToken : Token := ⟨[]⟩

/-- Sets the claim `key`, replacing an earlier one. -/
def set (t : Token) (key : String) (v : Claim) : Token :=
  ⟨(key, v) :: t.claims.filter (fun c => c.1 ≠ key)⟩

/-- The claim `key`, if set. -/
def get (t : Token) (key : String) : Option Claim :=
  (t.claims.find? (fun c => c.1 = key)).map (·.2)

/-- Modelled from the spec: `Token.SetTime` (missing): a time claim, encoded in the RFC3339
layout, which keeps whole seconds. -/
def SetTime (t : Token) (key : String) (value : Int) : Token := t.set key (.time (RFC3339 value))

/-- Modelled from the spec: `Token.SetIssuedAt` (missing): the time claim `iat`. -/
def SetIssuedAt (t : Token) (at_ : Int) : Token := t.SetTime "iat" at_

/-- Modelled from the spec: `Token.SetNotBefore` (missing): the time claim `nbf`. -/
def SetNotBefore (t : Token) (at_ : Int) : Token := t.SetTime "nbf" at_

/-- Modelled from the spec: `Token.SetExpiration` (missing): the time claim `exp`. -/
def SetExpiration (t : Token) (at_ : Int) : Token := t.SetTime "exp" at_

/-- Modelled from the spec: `Token.SetString` (missing). -/
def SetString (t : Token) (key : String) (value : JsonText) : Token := t.set key (.text value)

/-- Modelled from the spec: `Token.GetExpiration` (missing). -/
def GetExpiration (t : Token) : Except LibError Int :=
  match t.get "exp" with
  | some (.time e) => .ok e
  | _ => .error .missingClaim

/-- Modelled from the spec: `Token.GetString` (missing). -/
def GetString (t : Token) (key : String) : Except LibError JsonText :=
  match t.get key with
  | some (.text j) => .ok j
  | _ => .error .missingClaim

end Token

/-- Modelled from the spec: an encrypted token string (the AEAD primitive of the PASETO
package is missing), kept symbolically: a token sealed under a key, which only that key
opens, or any other string. -/
inductive TokenString where
  | v4local (key : V4SymmetricKey) (token : Token)
  | other (s : String)
deriving DecidableEq, Repr

/-- Modelled from the spec: `Token.V4Encrypt` (missing). -/
def Token.V4Encrypt (t : Token) (key : V4SymmetricKey) : TokenString :=
  .v4local key t

/-- Modelled from the spec: the rule `paseto.NotExpired` (missing), at the clock reading
`now`: the token is rejected when `now` is after its expiration. -/
def NotExpired (now : Int) (t : Token) : Except LibError Unit :=
  match t.GetExpiration with
  | .error e => .error e
  | .ok exp => if now > exp then .error .expired else .ok ()

/-- A parser: its rules, each checked at the clock reading. -/
abbrev Parser := List (Int → Token → Except LibError Unit)

/-- Modelled from the spec: `paseto.NewParser` (missing): the rule `NotExpired` is
preloaded. -/
def NewParser : Parser := [NotExpired]

/-- Modelled from the spec: `Parser.AddRule` (missing). -/
def Parser.AddRule (p : Parser) (rule : Int → Token → Except LibError Unit) : Parser :=
  p ++ [rule]

/-- Checks the rules of a parser in order; the first failure is the result. -/
def Parser.check (now : Int) (t : Token) : Parser → Except LibError Unit
  | [] => .ok ()
  | rule :: rest =>
    match rule now t with
    | .error e => .error e
    | .ok _ => Parser.check now t rest

/-- Modelled from the spec: `Parser.ParseV4Local` (missing): decrypts and authenticates
against the key, then checks the rules at the clock reading `now`. -/
def Parser.ParseV4Local (p : Parser) (key : V4SymmetricKey) (tainted : TokenString)
    (now : Int) : Except LibError Token :=
  match tainted with
  | .other _ => .error .invalidToken
  | .v4local k t =>
    if k = key then
      match Parser.check now t p with
      | .error e => .error e
      | .ok _ => .ok t
    else .error .invalidToken

namespace bcrypt

def MinCost : Nat := 4

def MaxCost : Nat := 31

def DefaultCost : Nat := 10

/-- The function `bcrypt.GenerateFromPassword` of the dependency
`golang.org/x/crypto/bcrypt` (not among the sources), after its documentation: it does not
accept passwords longer than 72 bytes; a cost below `MinCost` is replaced by `DefaultCost`;
the salt is read from the random source (`rand`, `none` when reading fails). -/
def GenerateFromPassword (rand : Option Bytes) (password : Bytes) (cost : Nat) :
    Except LibError Hashed :=
  if password.length > 72 then .error .passwordTooLong
  else
    let cost := if cost < MinCost then DefaultCost else cost
    if cost > MaxCost then .error .invalidCost
    else
      match rand with
      | none => .error .noRandomness
      | some salt => .ok (.bcrypt cost salt password)

/-- The function `bcrypt.CompareHashAndPassword` of the dependency (not among the sources),
after its documentation: it hashes the password with the cost and the salt of the stored
hash and compares; bcrypt operates on the first 72 bytes of a password. -/
def CompareHashAndPassword (hashedPassword : Hashed) (password : Bytes) :
    Except LibError Unit :=
  match hashedPassword with
  | .other _ => .error .invalidHash
  | .bcrypt _ _ key =>
    if key = password.take 72 then .ok () else .error .mismatchedHashAndPassword

end bcrypt

/-- The type `auth.Service`. -/
structure Service where
  symmetricKey : V4SymmetricKey
  tokenExpiration : Int
deriving DecidableEq, Repr

/-- The function `NewAuthService`; `fresh` is the key that `paseto.NewV4SymmetricKey()`
generates.  The product `time.Duration(expirationHours) * time.Hour` is a 64-bit
multiplication. -/
def NewAuthService (pasetoKey : String) (expirationHours : Int) (fresh : V4SymmetricKey) :
    Service :=
  let key :=
    match V4SymmetricKeyFromBytes (bytesOf pasetoKey) with
    | .error _ => fresh
    | .ok key => key
  { symmetricKey := key, tokenExpiration := wrapInt64 (expirationHours * Hour) }

/-- The method `Service.HashPassword`; `rand` is the random source of bcrypt. -/
def Service.HashPassword (_s : Service) (rand : Option Bytes) (password : String) :
    Except AuthError Hashed :=
  match bcrypt.GenerateFromPassword rand (bytesOf password) bcrypt.DefaultCost with
  | .error err => .error ⟨"failed to hash password", err⟩
  | .ok hashedPassword => .ok hashedPassword

/-- The method `Service.VerifyPassword`. -/
def Service.VerifyPassword (_s : Service) (hashedPassword : Hashed) (password : String) :
    Except LibError Unit :=
  bcrypt.CompareHashAndPassword hashedPassword (bytesOf password)

/-- The method `Service.CreateToken`, at the clock reading `now`. -/
def Service.CreateToken (s : Service) (now : Int) (userID : Int) (username : String) :
    Except AuthError TokenString :=
  let payload : TokenPayload :=
    { UserID := userID, Username := username, IssuedAt := now,
      ExpireAt := now + s.tokenExpiration }
  match jsonMarshal payload with
  | .error err => .error ⟨"failed to marshal payload", err⟩
  | .ok payloadJSON =>
    let token :=
      (((Token.NewToken.SetIssuedAt now).SetNotBefore now).SetExpiration
        payload.ExpireAt).SetString "data" payloadJSON
    .ok (token.V4Encrypt s.symmetricKey)

/-- The method `Service.VerifyToken`, at the clock reading `now`. -/
def Service.VerifyToken (s : Service) (now : Int) (tokenString : TokenString) :
    Except AuthError TokenPayload :=
  let parser := NewParser.AddRule NotExpired
  match parser.ParseV4Local s.symmetricKey tokenString now with
  | .error err => .error ⟨"failed to verify token", err⟩
  | .ok token =>
    match token.GetString "data" with
    | .error err => .error ⟨"failed to get token data", err⟩
    | .ok dataStr =>
      match jsonUnmarshal dataStr with
      | .error err => .error ⟨"failed to unmarshal payload", err⟩
      | .ok payload => .ok payload

/-! ## `internal/service/chat.go` -/

/-- The loop `for _, memberID := range memberIDs` of `CreateChat`. -/
def ChatService.CreateChat.addOthers (env : Env) (chatID creatorID : Int) :
    List Int → World → World
  | [], w => w
  | memberID :: rest, w =>
    if memberID = creatorID then addOthers env chatID creatorID rest w
    else
      match Store.userExist env w memberID with
      | (r, w1) =>
        if !dropErr r then addOthers env chatID creatorID rest w1
        else
          match Store.memberCreate env w1 chatID memberID false with
          | (_, w2) => addOthers env chatID creatorID rest w2

/-- The method `ChatService.CreateChat`. -/
def ChatService.CreateChat (env : Env) (w : World) (name : String) (isGroup : Bool)
    (creatorID : Int) (memberIDs : List Int) : Except ServiceError ChatEnt × World :=
  match Store.chatCreate env w name isGroup creatorID with
  | (.error err, w1) => (.error ⟨"failed to create chat", some err⟩, w1)
  | (.ok newChat, w1) =>
    match Store.memberCreate env w1 newChat.id creatorID true with
    | (.error err, w2) =>
      match Store.chatDelete env w2 newChat.id with
      | (_, w3) => (.error ⟨"failed to add creator as member", some err⟩, w3)
    | (.ok _, w2) =>
      (.ok newChat.ent,
        ChatService.CreateChat.addOthers env newChat.id creatorID memberIDs w2)


/-- The method `ChatService.GetChatByID`. -/
def ChatService.GetChatByID (env : Env) (w : World) (chatID : Int) :
    Except ServiceError ChatEnt × World :=
  match Store.chatOnly env w chatID with
  | (.error err, w1) =>
    if err = .notFound then (.error ⟨"chat not found", none⟩, w1)
    else (.error ⟨"failed to get chat", some err⟩, w1)
  | (.ok chatEntity, w1) => (.ok chatEntity, w1)

/-- The method `ChatService.IsUserMemberOfChat`. -/
def ChatService.IsUserMemberOfChat (env : Env) (w : World) (chatID userID : Int) :
    Except ServiceError Bool × World :=
  match Store.memberExist env w chatID userID with
  | (.error err, w1) => (.error ⟨"failed to check membership", some err⟩, w1)
  | (.ok isMember, w1) => (.ok isMember, w1)

/-- The method `ChatService.IsUserAdminOfChat`. -/
def ChatService.IsUserAdminOfChat (env : Env) (w : World) (chatID userID : Int) :
    Except ServiceError Bool × World :=
  match Store.memberOnly env w chatID userID with
  | (.error err, w1) =>
    if err = .notFound then (.ok false, w1)
    else (.error ⟨"failed to check admin status", some err⟩, w1)
  | (.ok member, w1) => (.ok member.isAdmin, w1)

/-- The method `ChatService.UpdateChatName`. -/
def ChatService.UpdateChatName (env : Env) (w : World) (chatID : Int) (name : String) :
    Except ServiceError ChatEnt × World :=
  match Store.chatUpdateName env w chatID name with
  | (.error err, w1) =>
    if err = .notFound then (.error ⟨"chat not found", none⟩, w1)
    else (.error ⟨"failed to update chat", some err⟩, w1)
  | (.ok chatEntity, w1) => (.ok chatEntity.ent, w1)

/-- The method `ChatService.DeleteChat`. -/
def ChatService.DeleteChat (env : Env) (w : World) (chatID : Int) :
    Except ServiceError Unit × World :=
  match Store.chatDelete env w chatID with
  | (.error err, w1) =>
    if err = .notFound then (.error ⟨"chat not found", none⟩, w1)
    else (.error ⟨"failed to delete chat", some err⟩, w1)
  | (.ok _, w1) => (.ok (), w1)

/-- The method `ChatService.GetChatCreator`. -/
def ChatService.GetChatCreator (env : Env) (w : World) (chatID : Int) :
    Except ServiceError User × World :=
  match Store.chatGet env w chatID with
  | (.error err, w1) =>
    if err = .notFound then (.error ⟨"chat not found", none⟩, w1)
    else (.error ⟨"failed to get chat", some err⟩, w1)
  | (.ok chatEntity, w1) =>
    match Store.chatCreator env w1 chatEntity with
    | (.error err, w2) =>
      if err = .notFound then (.error ⟨"creator not found", none⟩, w2)
      else (.error ⟨"failed to get creator", some err⟩, w2)
    | (.ok creator, w2) => (.ok creator, w2)

/-- The loop of the method `ChatService.AddMembers`. -/
def ChatService.AddMembers.loop (env : Env) (chatID : Int) : List Int → World → World
  | [], w => w
  | memberID :: rest, w =>
    match Store.memberExist env w chatID memberID with
    | (r, w1) =>
      if dropErr r then loop env chatID rest w1
      else
        match Store.userExist env w1 memberID with
        | (r2, w2) =>
          if !dropErr r2 then loop env chatID rest w2
          else
            match Store.memberCreate env w2 chatID memberID false with
            | (_, w3) => loop env chatID rest w3

/-- The method `ChatService.AddMembers`: it always returns nil. -/
def ChatService.AddMembers (env : Env) (w : World) (chatID : Int) (memberIDs : List Int) :
    Except ServiceError Unit × World :=
  (.ok (), ChatService.AddMembers.loop env chatID memberIDs w)

/-- The method `ChatService.RemoveMember`. -/
def ChatService.RemoveMember (env : Env) (w : World) (chatID memberID : Int) :
    Except ServiceError Unit × World :=
  match Store.memberDelete env w chatID memberID with
  | (.error err, w1) => (.error ⟨"failed to remove member", some err⟩, w1)
  | (.ok _, w1) => (.ok (), w1)

/-! ## `internal/service/message.go` -/

/-- The method `MessageService.SendMessage`. -/
def MessageService.SendMessage (env : Env) (w : World) (chatID senderID : Int)
    (content : String) : Except ServiceError MessageEnt × World :=
  match Store.messageCreate env w chatID senderID content with
  | (.error err, w1) => (.error ⟨"failed to send message", some err⟩, w1)
  | (.ok newMessage, w1) => (.ok newMessage.ent, w1)

/-- The method `MessageService.GetMessageByID`. -/
def MessageService.GetMessageByID (env : Env) (w : World) (messageID : Int) :
    Except ServiceError MessageEnt × World :=
  match Store.messageOnly env w messageID with
  | (.error err, w1) =>
    if err = .notFound then (.error ⟨"message not found", none⟩, w1)
    else (.error ⟨"failed to get message", some err⟩, w1)
  | (.ok msg, w1) => (.ok msg, w1)

/-- The method `MessageService.UpdateMessage`. -/
def MessageService.UpdateMessage (env : Env) (w : World) (messageID : Int)
    (content : String) : Except ServiceError MessageEnt × World :=
  match Store.messageUpdate env w messageID content with
  | (.error err, w1) =>
    if err = .notFound then (.error ⟨"message not found", none⟩, w1)
    else (.error ⟨"failed to update message", some err⟩, w1)
  | (.ok updatedMessage, w1) => (.ok updatedMessage.ent, w1)

/-- The method `MessageService.DeleteMessage`. -/
def MessageService.DeleteMessage (env : Env) (w : World) (messageID : Int) :
    Except ServiceError Unit × World :=
  match Store.messageDelete env w messageID with
  | (.error err, w1) =>
    if err = .notFound then (.error ⟨"message not found", none⟩, w1)
    else (.error ⟨"failed to delete message", some err⟩, w1)
  | (.ok _, w1) => (.ok (), w1)

/-- The method `MessageService.IsUserSenderOfMessage`. -/
def MessageService.IsUserSenderOfMessage (env : Env) (w : World) (messageID userID : Int) :
    Except ServiceError Bool × World :=
  match Store.messageExist env w messageID userID with
  | (.error err, w1) => (.error ⟨"failed to check sender", some err⟩, w1)
  | (.ok isSender, w1) => (.ok isSender, w1)

/-- The method `MessageService.ListChatMessages`. -/
def MessageService.ListChatMessages (env : Env) (w : World) (chatID limit offset : Int) :
    Except ServiceError (List MessageEnt) × World :=
  match Store.messageList env w chatID limit offset with
  | (.error err, w1) => (.error ⟨"failed to list messages", some err⟩, w1)
  | (.ok messages, w1) => (.ok messages, w1)

/-! ## `internal/service/user.go` -/

/-- The method `UserService.CreateUser`; `auth` is the auth service of the user service and
`rand` the random source of its hashing.  (The error wrapped by "failed to hash password" is
not an entity-client error and is left out of the `cause`.) -/
def UserService.CreateUser (env : Env) (w : World) (auth : Service) (rand : Option Bytes)
    (username password displayName : String) : Except ServiceError User × World :=
  match auth.HashPassword rand password with
  | .error _ => (.error ⟨"failed to hash password", none⟩, w)
  | .ok hashedPassword =>
    match Store.userCreate env w username hashedPassword displayName with
    | (.error err, w1) => (.error ⟨"failed to create user", some err⟩, w1)
    | (.ok newUser, w1) => (.ok newUser, w1)

/-- The end of `UserService.UpdateUser`: `update.Save(ctx)` with the fields that were set. -/
def UserService.UpdateUser.save (env : Env) (w : World) (id : Int)
    (displayName : Option String) (password : Option Hashed) :
    Except ServiceError User × World :=
  match Store.userUpdate env w id displayName password with
  | (.error err, w1) =>
    if err = .notFound then (.error ⟨"user not found", none⟩, w1)
    else (.error ⟨"failed to update user", some err⟩, w1)
  | (.ok u, w1) => (.ok u, w1)

/-- The method `UserService.UpdateUser`; `auth` is the auth service of the user service and
`rand` the random source of its hashing.  (The error wrapped by "failed to hash password" is
not an entity-client error and is left out of the `cause`.) -/
def UserService.UpdateUser (env : Env) (w : World) (auth : Service) (rand : Option Bytes)
    (id : Int) (displayName password : String) : Except ServiceError User × World :=
  let setDisplayName := if displayName ≠ "" then some displayName else none
  if password ≠ "" then
    match auth.HashPassword rand password with
    | .error _ => (.error ⟨"failed to hash password", none⟩, w)
    | .ok hashedPassword =>
      UserService.UpdateUser.save env w id setDisplayName (some hashedPassword)
  else UserService.UpdateUser.save env w id setDisplayName none

/-- The method `UserService.DeleteUser`. -/
def UserService.DeleteUser (env : Env) (w : World) (id : Int) :
    Except ServiceError Unit × World :=
  match Store.userDelete env w id with
  | (.error err, w1) =>
    if err = .notFound then (.error ⟨"user not found", none⟩, w1)
    else (.error ⟨"failed to delete user", some err⟩, w1)
  | (.ok _, w1) => (.ok (), w1)

/-! ## Requests and responses

The caller identity `userID` is the value the authentication middleware stored in the
request context.  A path parameter is given by the result of `utils.ParamsInt` (`none` when
it is not an integer) and a request body by the result of `f.ParseRequestBody` (`none` when
binding or validation fails): `pkg/utils` and the request models are missing. -/

abbrev StatusOK : Nat := 200
abbrev StatusCreated : Nat := 201
abbrev StatusNoContent : Nat := 204
abbrev StatusBadRequest : Nat := 400
abbrev StatusForbidden : Nat := 403
abbrev StatusNotFound : Nat := 404
abbrev StatusInternalServerError : Nat := 500

/-- The response model `model.ChatResponse` (timestamps left out). -/
structure ChatResponse where
  id : Int
  name : String
  isGroup : Bool
  creatorID : Int
deriving DecidableEq, Repr

/-- The response model `model.ChatMemberResponse` (timestamp left out). -/
structure ChatMemberResponse where
  userID : Int
  username : String
  isAdmin : Bool
deriving DecidableEq, Repr

/-- The response model `model.UserProfile` (timestamps left out). -/
structure UserProfile where
  id : Int
  username : String
  displayName : String
deriving DecidableEq, Repr

/-- The response model `model.MessageResponse` (timestamps left out); `sender` is nil unless
the handler sets it. -/
structure MessageResponse where
  id : Int
  content : String
  senderID : Int
  chatID : Int
  sender : Option UserProfile := none
deriving DecidableEq, Repr

/-- The body of a response. -/
inductive Body where
  | error (msg : String)
  | invalid
  | chat (r : ChatResponse)
  | chatDetail (r : ChatResponse) (members : List ChatMemberResponse)
  | message (r : MessageResponse)
  | success (message : String)
  | empty
  | messages (rs : List MessageResponse)
  | user (p : UserProfile)
deriving DecidableEq, Repr

/-- A response: the status code and the body. -/
structure Response where
  status : Nat
  body : Body
deriving DecidableEq, Repr

/-- The request model `model.UpdateChatRequest`. -/
structure UpdateChatRequest where
  name : String
deriving DecidableEq, Repr

/-- The request model `model.AddMembersRequest`. -/
structure AddMembersRequest where
  memberIDs : List Int
deriving DecidableEq, Repr

/-- The request model `model.UpdateMessageRequest`. -/
structure UpdateMessageRequest where
  content : String
deriving DecidableEq, Repr

/-- The request model `model.UpdateUserRequest`. -/
structure UpdateUserRequest where
  displayName : String
  password : String
deriving DecidableEq, Repr

/-- The request model `model.SendMessageRequest`. -/
structure SendMessageRequest where
  chatID : Int
  content : String
deriving DecidableEq, Repr

/-! ## `internal/handler/chat.go` -/

/-- The loop of `GetChat` over `chatEntity.Edges.Members`: a member whose user edge is nil
is left out. -/
def ChatHandler.memberResponses : List MemberEnt → List ChatMemberResponse
  | [] => []
  | member :: rest =>
    match member.user with
    | some u =>
      { userID := u.id, username := u.username, isAdmin := member.row.isAdmin } ::
        memberResponses rest
    | none => memberResponses rest

/-- The identifier of the creator edge, 0 when the edge is nil. -/
def ChatHandler.creatorIDOf (chatEntity : ChatEnt) : Int :=
  match chatEntity.creator with
  | some u => u.id
  | none => 0

/-- The handler `ChatHandler.GetChat`. -/
def ChatHandler.GetChat (env : Env) (w : World) (userID : Int) (id : Option Int) :
    Response × World :=
  match id with
  | none => (⟨StatusBadRequest, .error "invalid chat id"⟩, w)
  | some chatID =>
    match ChatService.IsUserMemberOfChat env w chatID userID with
    | (.error _, w1) => (⟨StatusInternalServerError, .error "failed to check membership"⟩, w1)
    | (.ok isMember, w1) =>
      if !isMember then (⟨StatusForbidden, .error "you are not a member of this chat"⟩, w1)
      else
        match ChatService.GetChatByID env w1 chatID with
        | (.error _, w2) => (⟨StatusNotFound, .error "chat not found"⟩, w2)
        | (.ok chatEntity, w2) =>
          (⟨StatusOK,
            .chatDetail
              { id := chatEntity.row.id, name := chatEntity.row.name,
                isGroup := chatEntity.row.isGroup,
                creatorID := ChatHandler.creatorIDOf chatEntity }
              (ChatHandler.memberResponses chatEntity.members)⟩, w2)

/-- The handler `ChatHandler.UpdateChat`. -/
def ChatHandler.UpdateChat (env : Env) (w : World) (userID : Int) (id : Option Int)
    (body : Option UpdateChatRequest) : Response × World :=
  match id with
  | none => (⟨StatusBadRequest, .error "invalid chat id"⟩, w)
  | some chatID =>
    match ChatService.IsUserAdminOfChat env w chatID userID with
    | (.error _, w1) => (⟨StatusInternalServerError, .error "failed to check admin status"⟩, w1)
    | (.ok isAdmin, w1) =>
      if !isAdmin then (⟨StatusForbidden, .error "only admins can update the chat"⟩, w1)
      else
        match body with
        | none => (⟨StatusBadRequest, .invalid⟩, w1)
        | some req =>
          match ChatService.UpdateChatName env w1 chatID req.name with
          | (.error _, w2) => (⟨StatusInternalServerError, .error "failed to update chat"⟩, w2)
          | (.ok chatEntity, w2) =>
            (⟨StatusOK,
              .chat
                { id := chatEntity.row.id, name := chatEntity.row.name,
                  isGroup := chatEntity.row.isGroup,
                  creatorID := ChatHandler.creatorIDOf chatEntity }⟩, w2)

/-- The handler `ChatHandler.DeleteChat`. -/
def ChatHandler.DeleteChat (env : Env) (w : World) (userID : Int) (id : Option Int) :
    Response × World :=
  match id with
  | none => (⟨StatusBadRequest, .error "invalid chat id"⟩, w)
  | some chatID =>
    match ChatService.GetChatCreator env w chatID with
    | (.error _, w1) => (⟨StatusNotFound, .error "chat not found"⟩, w1)
    | (.ok creator, w1) =>
      if creator.id ≠ userID then
        (⟨StatusForbidden, .error "only the creator can delete the chat"⟩, w1)
      else
        match ChatService.DeleteChat env w1 chatID with
        | (.error _, w2) => (⟨StatusInternalServerError, .error "failed to delete chat"⟩, w2)
        | (.ok _, w2) => (⟨StatusNoContent, .empty⟩, w2)

/-- The handler `ChatHandler.AddMembers`. -/
def ChatHandler.AddMembers (env : Env) (w : World) (userID : Int) (id : Option Int)
    (body : Option AddMembersRequest) : Response × World :=
  match id with
  | none => (⟨StatusBadRequest, .error "invalid chat id"⟩, w)
  | some chatID =>
    match ChatService.IsUserAdminOfChat env w chatID userID with
    | (.error _, w1) => (⟨StatusInternalServerError, .error "failed to check membership"⟩, w1)
    | (.ok isAdmin, w1) =>
      if !isAdmin then (⟨StatusForbidden, .error "only admins can add members"⟩, w1)
      else
        match body with
        | none => (⟨StatusBadRequest, .invalid⟩, w1)
        | some req =>
          match ChatService.AddMembers env w1 chatID req.memberIDs with
          | (.error _, w2) => (⟨StatusInternalServerError, .error "failed to add members"⟩, w2)
          | (.ok _, w2) => (⟨StatusOK, .success "members added successfully"⟩, w2)

/-- The handler `ChatHandler.RemoveMember`. -/
def ChatHandler.RemoveMember (env : Env) (w : World) (userID : Int) (id : Option Int)
    (memberId : Option Int) : Response × World :=
  match id with
  | none => (⟨StatusBadRequest, .error "invalid chat id"⟩, w)
  | some chatID =>
    match memberId with
    | none => (⟨StatusBadRequest, .error "invalid member id"⟩, w)
    | some memberID =>
      match ChatService.IsUserAdminOfChat env w chatID userID with
      | (.error _, w1) => (⟨StatusInternalServerError, .error "failed to check membership"⟩, w1)
      | (.ok isAdmin, w1) =>
        if !isAdmin then (⟨StatusForbidden, .error "only admins can remove members"⟩, w1)
        else
          match ChatService.RemoveMember env w1 chatID memberID with
          | (.error _, w2) =>
            (⟨StatusInternalServerError, .error "failed to remove member"⟩, w2)
          | (.ok _, w2) => (⟨StatusOK, .success "member removed successfully"⟩, w2)

/-! ## `internal/handler/message.go` -/

/-- The handler `MessageHandler.UpdateMessage`.  The result is `none` when the handler
dereferences a nil message: the reload `updatedMessage, _ = GetMessageByID(...)` drops the
error, and `GetMessageByID` returns a nil message with it. -/
def MessageHandler.UpdateMessage (env : Env) (w : World) (userID : Int) (id : Option Int)
    (body : Option UpdateMessageRequest) : Option Response × World :=
  match id with
  | none => (some ⟨StatusBadRequest, .error "invalid message id"⟩, w)
  | some messageID =>
    match body with
    | none => (some ⟨StatusBadRequest, .invalid⟩, w)
    | some req =>
      match MessageService.IsUserSenderOfMessage env w messageID userID with
      | (.error _, w1) =>
        (some ⟨StatusInternalServerError, .error "failed to check message ownership"⟩, w1)
      | (.ok isSender, w1) =>
        if !isSender then
          (some ⟨StatusForbidden, .error "you can only edit your own messages"⟩, w1)
        else
          match MessageService.UpdateMessage env w1 messageID req.content with
          | (.error _, w2) =>
            (some ⟨StatusInternalServerError, .error "failed to update message"⟩, w2)
          | (.ok _, w2) =>
            match MessageService.GetMessageByID env w2 messageID with
            | (.error _, w3) => (none, w3)
            | (.ok updatedMessage, w3) =>
              (some ⟨StatusOK,
                .message
                  { id := updatedMessage.row.id, content := updatedMessage.row.content,
                    senderID :=
                      match updatedMessage.sender with
                      | some u => u.id
                      | none => userID
                    chatID :=
                      match updatedMessage.chat with
                      | some c => c.id
                      | none => 0 }⟩, w3)

/-- The handler `MessageHandler.DeleteMessage`. -/
def MessageHandler.DeleteMessage (env : Env) (w : World) (userID : Int) (id : Option Int) :
    Response × World :=
  match id with
  | none => (⟨StatusBadRequest, .error "invalid message id"⟩, w)
  | some messageID =>
    match MessageService.IsUserSenderOfMessage env w messageID userID with
    | (.error _, w1) =>
      (⟨StatusInternalServerError, .error "failed to check message ownership"⟩, w1)
    | (.ok isSender, w1) =>
      if !isSender then (⟨StatusForbidden, .error "you can only delete your own messages"⟩, w1)
      else
        match MessageService.DeleteMessage env w1 messageID with
        | (.error _, w2) =>
          (⟨StatusInternalServerError, .error "failed to delete message"⟩, w2)
        | (.ok _, w2) => (⟨StatusNoContent, .empty⟩, w2)

/-- The identifier of the sender edge of a message entity, `dflt` when the edge is nil. -/
def MessageHandler.senderIDOf (msg : MessageEnt) (dflt : Int) : Int :=
  match msg.sender with
  | some u => u.id
  | none => dflt

/-- The identifier of the chat edge of a message entity, `dflt` when the edge is nil. -/
def MessageHandler.chatIDOf (msg : MessageEnt) (dflt : Int) : Int :=
  match msg.chat with
  | some c => c.id
  | none => dflt

/-- The profile of the sender edge of a message entity, nil when the edge is nil. -/
def MessageHandler.senderProfile (msg : MessageEnt) : Option UserProfile :=
  match msg.sender with
  | some u => some { id := u.id, username := u.username, displayName := u.displayName }
  | none => none

/-- The handler `MessageHandler.SendMessage`. -/
def MessageHandler.SendMessage (env : Env) (w : World) (userID : Int)
    (body : Option SendMessageRequest) : Response × World :=
  match body with
  | none => (⟨StatusBadRequest, .invalid⟩, w)
  | some req =>
    match ChatService.IsUserMemberOfChat env w req.chatID userID with
    | (.error _, w1) => (⟨StatusInternalServerError, .error "failed to check membership"⟩, w1)
    | (.ok isMember, w1) =>
      if !isMember then (⟨StatusForbidden, .error "you are not a member of this chat"⟩, w1)
      else
        match MessageService.SendMessage env w1 req.chatID userID req.content with
        | (.error _, w2) => (⟨StatusInternalServerError, .error "failed to send message"⟩, w2)
        | (.ok newMessage, w2) =>
          (⟨StatusCreated,
            .message
              { id := newMessage.row.id, content := newMessage.row.content,
                senderID := MessageHandler.senderIDOf newMessage userID,
                chatID := MessageHandler.chatIDOf newMessage req.chatID }⟩, w2)

/-- The handler `MessageHandler.GetMessage`. -/
def MessageHandler.GetMessage (env : Env) (w : World) (userID : Int) (id : Option Int) :
    Response × World :=
  match id with
  | none => (⟨StatusBadRequest, .error "invalid message id"⟩, w)
  | some messageID =>
    match MessageService.GetMessageByID env w messageID with
    | (.error _, w1) => (⟨StatusNotFound, .error "message not found"⟩, w1)
    | (.ok msg, w1) =>
      match ChatService.IsUserMemberOfChat env w1 (MessageHandler.chatIDOf msg 0) userID with
      | (.error _, w2) =>
        (⟨StatusInternalServerError, .error "failed to check membership"⟩, w2)
      | (.ok isMember, w2) =>
        if !isMember then (⟨StatusForbidden, .error "you are not a member of this chat"⟩, w2)
        else
          (⟨StatusOK,
            .message
              { id := msg.row.id, content := msg.row.content,
                senderID := MessageHandler.senderIDOf msg 0,
                chatID := MessageHandler.chatIDOf msg 0,
                sender := MessageHandler.senderProfile msg }⟩, w2)

/-- The loop of `ListMessages` over the messages found. -/
def MessageHandler.messageResponses : List MessageEnt → List MessageResponse
  | [] => []
  | msg :: rest =>
    { id := msg.row.id, content := msg.row.content,
      senderID := MessageHandler.senderIDOf msg 0,
      chatID := MessageHandler.chatIDOf msg 0,
      sender := MessageHandler.senderProfile msg } :: messageResponses rest

/-- The handler `MessageHandler.ListMessages`; `limit` and `offset` are the results of
`utils.QueryInt` (missing). -/
def MessageHandler.ListMessages (env : Env) (w : World) (userID : Int) (chatId : Option Int)
    (limit offset : Int) : Response × World :=
  match chatId with
  | none => (⟨StatusBadRequest, .error "invalid chat id"⟩, w)
  | some chatID =>
    match ChatService.IsUserMemberOfChat env w chatID userID with
    | (.error _, w1) => (⟨StatusInternalServerError, .error "failed to check membership"⟩, w1)
    | (.ok isMember, w1) =>
      if !isMember then (⟨StatusForbidden, .error "you are not a member of this chat"⟩, w1)
      else
        match MessageService.ListChatMessages env w1 chatID limit offset with
        | (.error _, w2) =>
          (⟨StatusInternalServerError, .error "failed to list messages"⟩, w2)
        | (.ok messages, w2) =>
          (⟨StatusOK, .messages (MessageHandler.messageResponses messages)⟩, w2)

/-! ## `internal/handler/user.go` -/

/-- The handler `UserHandler.UpdateUser`. -/
def UserHandler.UpdateUser (env : Env) (w : World) (auth : Service) (rand : Option Bytes)
    (userID : Int) (id : Option Int) (body : Option UpdateUserRequest) : Response × World :=
  match id with
  | none => (⟨StatusBadRequest, .error "invalid user id"⟩, w)
  | some id =>
    if userID ≠ id then
      (⟨StatusForbidden, .error "you can only update your own profile"⟩, w)
    else
      match body with
      | none => (⟨StatusBadRequest, .invalid⟩, w)
      | some req =>
        if req.password ≠ "" ∧ req.password.utf8ByteSize < 6 then
          (⟨StatusBadRequest, .error "password must be at least 6 characters"⟩, w)
        else
          match UserService.UpdateUser env w auth rand id req.displayName req.password with
          | (.error _, w1) =>
            (⟨StatusInternalServerError, .error "failed to update user"⟩, w1)
          | (.ok u, w1) =>
            (⟨StatusOK,
              .user { id := u.id, username := u.username, displayName := u.displayName }⟩, w1)

/-- The handler `UserHandler.DeleteUser`. -/
def UserHandler.DeleteUser (env : Env) (w : World) (userID : Int) (id : Option Int) :
    Response × World :=
  match id with
  | none => (⟨StatusBadRequest, .error "invalid user id"⟩, w)
  | some id =>
    if userID ≠ id then
      (⟨StatusForbidden, .error "you can only delete your own profile"⟩, w)
    else
      match UserService.DeleteUser env w id with
      | (.error _, w1) => (⟨StatusInternalServerError, .error "failed to delete user"⟩, w1)
      | (.ok _, w1) => (⟨StatusNoContent, .empty⟩, w1)

/-! ## Example stores -/

/-- A store with two users and nothing else. -/
def db0 : DB :=
  { users := [⟨1, "alice", "h1", "Alice"⟩, ⟨2, "bob", "h2", "Bob"⟩]
    chats := []
    members := []
    messages := [] }

/-- A storage collaborator that never fails. -/
def reliable : Env :=
  { fails := fun _ _ => false }

/-- The key of a membership record: chat, user and admin flag (the row identifier apart). -/
def ChatMember.key (m : ChatMember) : Int × Int × Bool :=
  (m.chatID, m.userID, m.isAdmin)

/-- The uniqueness invariant of the data model: no two membership records relate the same
user to the same chat. -/
def DB.uniqueMembership (db : DB) : Prop :=
  (db.members.map (fun m => (m.chatID, m.userID))).Nodup

instance (db : DB) : Decidable db.uniqueMembership :=
  inferInstanceAs (Decidable (List.Nodup _))

/-- A store with three users, one chat created by user 1 with user 2 as non-admin member,
and one message of user 2. -/
def db1 : DB :=
  { users := [⟨1, "alice", "h1", "Alice"⟩, ⟨2, "bob", "h2", "Bob"⟩, ⟨3, "carol", "h3", "Carol"⟩]
    chats := [⟨1, "general", true, 1⟩]
    members := [⟨1, 1, 1, true⟩, ⟨2, 1, 2, false⟩]
    messages := [⟨1, 1, 2, "hi"⟩] }

/-- A storage collaborator on which every membership insert fails. -/
def noMemberInsert : Env :=
  { fails := fun _ op =>
      match op with
      | .memberCreate _ _ => true
      | _ => false }

/-- A storage collaborator on which every membership insert and every chat delete fails. -/
def noMemberInsertNoDelete : Env :=
  { fails := fun _ op =>
      match op with
      | .memberCreate _ _ => true
      | .chatDelete _ => true
      | _ => false }

/-- A storage collaborator on which the membership inserts for user 2 fail. -/
def noInsertFor2 : Env :=
  { fails := fun _ op =>
      match op with
      | .memberCreate _ u => u = 2
      | _ => false }

/-- A store where user 2 is an admin of chat 1, which user 1 created. -/
def db2 : DB :=
  { users := [⟨1, "alice", "h1", "Alice"⟩, ⟨2, "bob", "h2", "Bob"⟩]
    chats := [⟨1, "general", true, 1⟩]
    members := [⟨1, 1, 1, true⟩, ⟨2, 1, 2, true⟩]
    messages := [] }

/-- A store where the creator of chat 1, user 1, has no row in the user table. -/
def db3 : DB :=
  { users := [⟨2, "bob", "h2", "Bob"⟩]
    chats := [⟨1, "general", true, 1⟩]
    members := [⟨1, 1, 2, true⟩]
    messages := [] }

/-- A storage collaborator on which every get-by-id on the chat table fails. -/
def noChatGet : Env :=
  { fails := fun _ op =>
      match op with
      | .chatGet _ => true
      | _ => false }

/-- A storage collaborator on which every existence query on the message table fails. -/
def noMessageExist : Env :=
  { fails := fun _ op =>
      match op with
      | .messageExist _ _ => true
      | _ => false }

/-- A storage collaborator on which every existence query on the membership table fails. -/
def noMemberExist : Env :=
  { fails := fun _ op =>
      match op with
      | .memberExist _ _ => true
      | _ => false }

/-- The token that `CreateToken` builds at the clock reading `now` for a lifetime
`lifetime`: the claims `data`, `exp`, `nbf` and `iat`; the payload holds the instants, the
time claims their whole seconds. -/
def issuedToken (now lifetime userID : Int) (username : String) : Token :=
  ⟨[("data", .text (.payload ⟨userID, username, now, now + lifetime⟩)),
    ("exp", .time (RFC3339 (now + lifetime))), ("nbf", .time (RFC3339 now)),
    ("iat", .time (RFC3339 now))]⟩

/-- A key string of 32 bytes. -/
def goodKey : String := "0123456789abcdef0123456789abcdef"

/-- A randomly generated key. -/
def randomKey : V4SymmetricKey :=
  ⟨List.replicate 32 7⟩

/-- An instant: 1 700 000 000 seconds after the epoch, in nanoseconds. -/
def T0 : Int := 1700000000000000000

/-- The duration `time.Minute`, in nanoseconds. -/
def Minute : Int := 60000000000

/-- Another randomly generated key. -/
def randomKey2 : V4SymmetricKey :=
  ⟨List.replicate 32 9⟩

/-- A password of 73 bytes. -/
def longPassword : String :=
  String.mk (List.replicate 73 'a')

/-- A storage collaborator on which every reload of a message by identifier fails. -/
def noMessageOnly : Env :=
  { fails := fun _ op =>
      match op with
      | .messageOnly _ => true
      | _ => false }

/-- A storage collaborator whose queries never fail and on which the membership inserts
fail during the first three storage calls. -/
def insertFailsEarly : Env :=
  { fails := fun t op =>
      match op with
      | .memberCreate _ _ => decide (t < 3)
      | _ => false }

/-- A storage collaborator on which every update of a user fails. -/
def noUserUpdate : Env :=
  { fails := fun _ op =>
      match op with
      | .userUpdate _ => true
      | _ => false }

/-- The record that `UpdateUser` leaves for a user `x` when the update succeeds: the display
name is replaced when `displayName` is not empty, the stored hash is replaced by the result
of `HashPassword` when `password` is not empty, the identifier and the username are kept. -/
def updatedUser (auth : Service) (rand : Option Bytes) (displayName password : String)
    (x : User) : User :=
  { id := x.id
    username := x.username
    password :=
      if password ≠ "" then
        match auth.HashPassword rand password with
        | .ok hashedPassword => hashedPassword
        | .error _ => x.password
      else x.password
    displayName := if displayName ≠ "" then displayName else x.displayName }

/-- One turn of the loop of `AddMembers` for the identifier `memberID` when no storage call
fails: nothing is added for a member or for an identifier without a user, otherwise one
non-admin record is added. -/
def reliableStep (chatID memberID : Int) (w : World) : World :=
  if (w.db.membersOf chatID memberID).isEmpty = false then w.next
  else if w.db.hasUser memberID = false then w.next.next
  else
    w.next.next.put
      { w.db with
        members := w.db.members ++ [Store.newMember w.next.next chatID memberID false] }

/-- A storage collaborator on which every existence query on the user table fails. -/
def noUserExist : Env :=
  { fails := fun _ op =>
      match op with
      | .userExist _ => true
      | _ => false }

/-- A store where user 1 has two membership records for chat 1: the admin record and a
non-admin record. -/
def db4 : DB :=
  { users := [⟨1, "alice", "h1", "Alice"⟩, ⟨2, "bob", "h2", "Bob"⟩, ⟨3, "carol", "h3", "Carol"⟩]
    chats := [⟨1, "general", true, 1⟩]
    members := [⟨1, 1, 1, true⟩, ⟨2, 1, 2, false⟩, ⟨3, 1, 1, false⟩]
    messages := [⟨1, 1, 2, "hi"⟩] }

/-- The world after the chat insert of `CreateChat` succeeded. -/
def afterChat (w : World) (name : String) (isGroup : Bool) (creatorID : Int) : World :=
  w.put { w.db with chats := w.db.chats ++ [Store.newChat w name isGroup creatorID] }

/-- The world after the chat insert and the creator-membership insert of `CreateChat`
succeeded. -/
def afterCreator (w : World) (name : String) (isGroup : Bool) (creatorID : Int) : World :=
  (afterChat w name isGroup creatorID).put
    { (afterChat w name isGroup creatorID).db with
      members := w.db.members ++
        [Store.newMember (afterChat w name isGroup creatorID)
          (Store.newChat w name isGroup creatorID).id creatorID true] }

/-! ## Lemmas on the storage collaborator -/

theorem le_maxID {ids : List Int} {x : Int} (h : x ∈ ids) : x ≤ maxID ids := by
  induction ids with
  | nil => cases h
  | cons y ys ih =>
    simp only [maxID]
    rcases List.mem_cons.mp h with rfl | h
    · exact le_max_left _ _
    · exact le_trans (ih h) (le_max_right _ _)

theorem ne_freshID {ids : List Int} {x : Int} (h : x ∈ ids) : x ≠ freshID ids := by
  have := le_maxID h
  unfold freshID
  omega

theorem chat_id_ne_fresh {chats : List Chat} {c : Chat} (h : c ∈ chats) :
    c.id ≠ freshID (chats.map (·.id)) :=
  ne_freshID (List.mem_map_of_mem _ h)

theorem filter_fresh_chat (chats : List Chat) (c : Chat)
    (hc : c.id = freshID (chats.map (·.id))) :
    (chats ++ [c]).filter (fun x => ¬ x.id = c.id) = chats := by
  have h1 : chats.filter (fun x => ¬ x.id = c.id) = chats := by
    apply List.filter_eq_self.mpr
    intro x hx
    have := chat_id_ne_fresh hx
    simp [hc, this]
  rw [List.filter_append, h1]
  simp

@[simp] theorem World.next_db (w : World) : w.next.db = w.db := rfl

@[simp] theorem World.next_tick (w : World) : w.next.tick = w.tick + 1 := rfl

@[simp] theorem World.put_db (w : World) (db : DB) : (w.put db).db = db := rfl

@[simp] theorem World.put_tick (w : World) (db : DB) : (w.put db).tick = w.tick + 1 := rfl

theorem Store.userExist_snd (env : Env) (w : World) (id : Int) :
    (Store.userExist env w id).2 = w.next := by
  unfold Store.userExist; split <;> rfl

theorem Store.userExist_fst (env : Env) (w : World) (id : Int)
    (h : env.fails w.tick (.userExist id) = false) :
    (Store.userExist env w id).1 = .ok (w.db.hasUser id) := by
  simp [Store.userExist, h]

theorem Store.memberExist_snd (env : Env) (w : World) (c u : Int) :
    (Store.memberExist env w c u).2 = w.next := by
  unfold Store.memberExist; split <;> rfl

theorem Store.memberCreate_fail (env : Env) (w : World) (c u : Int) (a : Bool)
    (h : env.fails w.tick (.memberCreate c u) = true) :
    Store.memberCreate env w c u a = (.error .storage, w.next) := by
  simp [Store.memberCreate, h]

theorem Store.memberCreate_ok (env : Env) (w : World) (c u : Int) (a : Bool)
    (h : env.fails w.tick (.memberCreate c u) = false) :
    Store.memberCreate env w c u a =
      (.ok (Store.newMember w c u a),
        w.put { w.db with members := w.db.members ++ [Store.newMember w c u a] }) := by
  simp [Store.memberCreate, h]

theorem Store.memberCreate_cases (env : Env) (w : World) (c u : Int) (a : Bool) :
    Store.memberCreate env w c u a = (.error .storage, w.next) ∨
    Store.memberCreate env w c u a =
      (.ok (Store.newMember w c u a),
        w.put { w.db with members := w.db.members ++ [Store.newMember w c u a] }) := by
  cases h : env.fails w.tick (.memberCreate c u)
  · exact Or.inr (Store.memberCreate_ok env w c u a h)
  · exact Or.inl (Store.memberCreate_fail env w c u a h)

/-! ## Lemmas on the member loop of `CreateChat` -/

theorem addOthers_append (env : Env) (chatID creatorID : Int) (pre post : List Int)
    (w : World) :
    ChatService.CreateChat.addOthers env chatID creatorID (pre ++ post) w =
      ChatService.CreateChat.addOthers env chatID creatorID post
        (ChatService.CreateChat.addOthers env chatID creatorID pre w) := by
  induction pre generalizing w with
  | nil => rfl
  | cons m rest ih =>
    simp only [List.cons_append, ChatService.CreateChat.addOthers]
    split
    · exact ih w
    · split
      · exact ih _
      · exact ih _

theorem addOthers_frame (env : Env) (chatID creatorID : Int) (ids : List Int) (w : World) :
    (ChatService.CreateChat.addOthers env chatID creatorID ids w).db.users = w.db.users ∧
    (ChatService.CreateChat.addOthers env chatID creatorID ids w).db.chats = w.db.chats ∧
    (ChatService.CreateChat.addOthers env chatID creatorID ids w).db.messages =
      w.db.messages ∧
    w.db.members <+: (ChatService.CreateChat.addOthers env chatID creatorID ids w).db.members := by
  induction ids generalizing w with
  | nil => simp [ChatService.CreateChat.addOthers]
  | cons m rest ih =>
    simp only [ChatService.CreateChat.addOthers]
    split
    · exact ih w
    · rw [Store.userExist_snd]
      split
      · simpa using ih w.next
      · rcases Store.memberCreate_cases env w.next chatID m false with h | h
        · rw [h]
          simpa using ih w.next.next
        · rw [h]
          obtain ⟨h1, h2, h3, h4⟩ := ih
            (w.next.put
              { w.next.db with
                members := w.next.db.members ++ [Store.newMember w.next chatID m false] })
          refine ⟨by simpa using h1, by simpa using h2, by simpa using h3, ?_⟩
          exact List.IsPrefix.trans (List.prefix_append _ _) (by simpa using h4)

theorem Store.chatCreate_ok (env : Env) (w : World) (name : String) (isGroup : Bool)
    (creatorID : Int) (h : env.fails w.tick .chatCreate = false) :
    Store.chatCreate env w name isGroup creatorID =
      (.ok (Store.newChat w name isGroup creatorID),
        w.put { w.db with chats := w.db.chats ++ [Store.newChat w name isGroup creatorID] }) := by
  simp [Store.chatCreate, h]

theorem Store.chatCreate_fail (env : Env) (w : World) (name : String) (isGroup : Bool)
    (creatorID : Int) (h : env.fails w.tick .chatCreate = true) :
    Store.chatCreate env w name isGroup creatorID = (.error .storage, w.next) := by
  simp [Store.chatCreate, h]

theorem Store.userExist_true (env : Env) (w : World) (id : Int)
    (h : dropErr (Store.userExist env w id).1 = true) : w.db.hasUser id = true := by
  unfold Store.userExist at h
  split at h
  · simp [dropErr] at h
  · simpa [dropErr] using h

theorem addOthers_resolved (env : Env) (chatID creatorID : Int)
    (hmem : ∀ t u, env.fails t (.memberCreate chatID u) = false) (ids : List Int) (w : World) :
    ∃ resolved : List Int,
      List.Sublist resolved (ids.filter (fun m => m ≠ creatorID ∧ w.db.hasUser m)) ∧
      (ChatService.CreateChat.addOthers env chatID creatorID ids w).db.members.map
          ChatMember.key =
        w.db.members.map ChatMember.key ++ resolved.map (fun m => (chatID, m, false)) ∧
      ((∀ t u, env.fails t (.userExist u) = false) →
        resolved = ids.filter (fun m => m ≠ creatorID ∧ w.db.hasUser m)) := by
  induction ids generalizing w with
  | nil => exact ⟨[], by simp, by simp [ChatService.CreateChat.addOthers], fun _ => by simp⟩
  | cons m rest ih =>
    simp only [ChatService.CreateChat.addOthers]
    split
    · rename_i hm
      obtain ⟨r, hsub, hdelta, hex⟩ := ih w
      refine ⟨r, ?_, hdelta, fun hu => ?_⟩
      · simpa [List.filter_cons, hm] using hsub
      · simpa [List.filter_cons, hm] using hex hu
    · rename_i hm
      rw [Store.userExist_snd]
      cases hd : dropErr (Store.userExist env w m).1
      · simp only [Bool.not_false, if_true]
        obtain ⟨r, hsub, hdelta, hex⟩ := ih w.next
        refine ⟨r, ?_, hdelta, fun hu => ?_⟩
        · refine hsub.trans ?_
          simp only [World.next_db]
          rw [List.filter_cons]
          split
          · exact List.sublist_cons_self _ _
          · exact List.Sublist.refl _
        · have hx : w.db.hasUser m = false := by
            rw [Store.userExist_fst env w m (hu _ _)] at hd
            simpa [dropErr] using hd
          rw [hex hu]
          simp [List.filter_cons, hx]
      · simp only [Bool.not_true, Bool.false_eq_true, if_false]
        have hx := Store.userExist_true env w m hd
        rw [Store.memberCreate_ok env w.next chatID m false (hmem _ _)]
        obtain ⟨r, hsub, hdelta, hex⟩ := ih
          (w.next.put
            { w.next.db with
              members := w.next.db.members ++ [Store.newMember w.next chatID m false] })
        have hu : ∀ (ms : List ChatMember) (x : Int),
            DB.hasUser { w.db with members := ms } x = w.db.hasUser x := fun _ _ => rfl
        refine ⟨m :: r, ?_, ?_, fun hq => ?_⟩
        · have : (m :: rest).filter (fun m => m ≠ creatorID ∧ w.db.hasUser m) =
              m :: rest.filter (fun m => m ≠ creatorID ∧ w.db.hasUser m) := by
            simp [List.filter_cons, hm, hx]
          rw [this]
          exact List.Sublist.cons₂ m (by simpa [hu] using hsub)
        · rw [hdelta]
          simp [ChatMember.key, Store.newMember]
        · rw [hex hq]
          simp [List.filter_cons, hm, hx, hu]

theorem chatMembers_map_key (db : DB) (chatID : Int) :
    (db.chatMembers chatID).map ChatMember.key =
      (db.members.map ChatMember.key).filter (fun k => k.1 = chatID) := by
  unfold DB.chatMembers
  rw [List.filter_map]
  rfl

/-! ## The three runs of `CreateChat` -/

theorem CreateChat_chat_fail (env : Env) (w : World) (name : String) (isGroup : Bool)
    (creatorID : Int) (memberIDs : List Int) (hchat : env.fails w.tick .chatCreate = true) :
    ChatService.CreateChat env w name isGroup creatorID memberIDs =
      (.error ⟨"failed to create chat", some .storage⟩, w.next) := by
  unfold ChatService.CreateChat
  rw [Store.chatCreate_fail env w name isGroup creatorID hchat]

theorem CreateChat_creator_fail (env : Env) (w : World) (name : String) (isGroup : Bool)
    (creatorID : Int) (memberIDs : List Int) (hchat : env.fails w.tick .chatCreate = false)
    (hcre : env.fails (w.tick + 1)
      (.memberCreate (Store.newChat w name isGroup creatorID).id creatorID) = true) :
    ChatService.CreateChat env w name isGroup creatorID memberIDs =
      (.error ⟨"failed to add creator as member", some .storage⟩,
        (Store.chatDelete env (afterChat w name isGroup creatorID).next
          (Store.newChat w name isGroup creatorID).id).2) := by
  unfold ChatService.CreateChat
  rw [Store.chatCreate_ok env w name isGroup creatorID hchat]
  simp only
  rw [Store.memberCreate_fail env _ _ creatorID true (by simpa using hcre)]
  rfl

theorem CreateChat_run (env : Env) (w : World) (name : String) (isGroup : Bool)
    (creatorID : Int) (memberIDs : List Int) (hchat : env.fails w.tick .chatCreate = false)
    (hcre : env.fails (w.tick + 1)
      (.memberCreate (Store.newChat w name isGroup creatorID).id creatorID) = false) :
    ChatService.CreateChat env w name isGroup creatorID memberIDs =
      (.ok (Store.newChat w name isGroup creatorID).ent,
        ChatService.CreateChat.addOthers env (Store.newChat w name isGroup creatorID).id
          creatorID memberIDs (afterCreator w name isGroup creatorID)) := by
  unfold ChatService.CreateChat
  rw [Store.chatCreate_ok env w name isGroup creatorID hchat]
  simp only
  rw [Store.memberCreate_ok env _ _ creatorID true (by simpa using hcre)]
  rfl

theorem Store.chatDelete_fail (env : Env) (w : World) (id : Int)
    (h : env.fails w.tick (.chatDelete id) = true) :
    Store.chatDelete env w id = (.error .storage, w.next) := by
  simp [Store.chatDelete, h]

theorem Store.chatDelete_ok (env : Env) (w : World) (id : Int)
    (h : env.fails w.tick (.chatDelete id) = false)
    (hany : w.db.chats.any (fun c => c.id = id) = true) :
    Store.chatDelete env w id =
      (.ok (),
        w.put { w.db with
          chats := w.db.chats.filter (fun c => ¬ c.id = id)
          members := w.db.members.filter (fun m => ¬ m.chatID = id) }) := by
  unfold Store.chatDelete
  rw [if_neg (by simp [h]), if_pos hany]

theorem Store.chatDelete_missing (env : Env) (w : World) (id : Int)
    (h : env.fails w.tick (.chatDelete id) = false)
    (hany : w.db.chats.any (fun c => c.id = id) = false) :
    Store.chatDelete env w id = (.error .notFound, w.next) := by
  unfold Store.chatDelete
  rw [if_neg (by simp [h]), if_neg (by simp [hany])]

theorem chatDelete_afterChat_fail (env : Env) (w : World) (name : String) (isGroup : Bool)
    (creatorID : Int)
    (hdel : env.fails (w.tick + 2)
      (.chatDelete (Store.newChat w name isGroup creatorID).id) = true) :
    (Store.chatDelete env (afterChat w name isGroup creatorID).next
      (Store.newChat w name isGroup creatorID).id).2.db =
      { w.db with chats := w.db.chats ++ [Store.newChat w name isGroup creatorID] } := by
  rw [Store.chatDelete_fail env _ _ hdel]
  rfl

theorem chatDelete_afterChat_ok (env : Env) (w : World) (name : String) (isGroup : Bool)
    (creatorID : Int)
    (hdel : env.fails (w.tick + 2)
      (.chatDelete (Store.newChat w name isGroup creatorID).id) = false) :
    (Store.chatDelete env (afterChat w name isGroup creatorID).next
      (Store.newChat w name isGroup creatorID).id).2.db =
      { w.db with
        members := w.db.members.filter
          (fun m => ¬ m.chatID = (Store.newChat w name isGroup creatorID).id) } := by
  have hany : (afterChat w name isGroup creatorID).next.db.chats.any
      (fun c => c.id = (Store.newChat w name isGroup creatorID).id) = true := by
    simp [afterChat]
  rw [Store.chatDelete_ok env _ _ hdel hany]
  have hf := filter_fresh_chat w.db.chats (Store.newChat w name isGroup creatorID) rfl
  simp only [World.put_db, World.next_db, afterChat]
  rw [hf]

/-! ## The chat-creation transaction -/

/-- When the chat insert succeeds and every membership insert for the new chat
succeeds, `CreateChat` returns the new chat with no error, and the membership table after
the call is the table before it followed by exactly one admin record for the creator and
one non-admin record for each entry of a list `resolved`: entries of `memberIDs`, in their
order, that differ from the creator and are identifiers of existing users (so nothing is
created for an identifier without a user); `resolved` is all of these entries when the
user-existence queries are answered.  When no earlier record refers to the new chat's
identifier, these are exactly the membership records of the new chat. -/
theorem CreateChat_members_exact (env : Env) (w : World) (name : String) (isGroup : Bool)
    (creatorID : Int) (memberIDs : List Int)
    (hchat : env.fails w.tick .chatCreate = false)
    (hmem : ∀ t u,
      env.fails t (.memberCreate (Store.newChat w name isGroup creatorID).id u) = false) :
    (ChatService.CreateChat env w name isGroup creatorID memberIDs).1 =
      .ok (Store.newChat w name isGroup creatorID).ent ∧
    ∃ resolved : List Int,
      List.Sublist resolved (memberIDs.filter (fun m => m ≠ creatorID ∧ w.db.hasUser m)) ∧
      ((∀ t u, env.fails t (.userExist u) = false) →
        resolved = memberIDs.filter (fun m => m ≠ creatorID ∧ w.db.hasUser m)) ∧
      (ChatService.CreateChat env w name isGroup creatorID memberIDs).2.db.members.map
          ChatMember.key =
        w.db.members.map ChatMember.key ++
          ((Store.newChat w name isGroup creatorID).id, creatorID, true) ::
            resolved.map (fun m => ((Store.newChat w name isGroup creatorID).id, m, false)) ∧
      (w.db.chatMembers (Store.newChat w name isGroup creatorID).id = [] →
        ((ChatService.CreateChat env w name isGroup creatorID memberIDs).2.db.chatMembers
            (Store.newChat w name isGroup creatorID).id).map ChatMember.key =
          ((Store.newChat w name isGroup creatorID).id, creatorID, true) ::
            resolved.map
              (fun m => ((Store.newChat w name isGroup creatorID).id, m, false))) := by
  have hrun := CreateChat_run env w name isGroup creatorID memberIDs hchat (hmem _ _)
  obtain ⟨resolved, hsub, hd, hex⟩ :=
    addOthers_resolved env (Store.newChat w name isGroup creatorID).id creatorID hmem
      memberIDs (afterCreator w name isGroup creatorID)
  have hdelta :
      (ChatService.CreateChat env w name isGroup creatorID memberIDs).2.db.members.map
          ChatMember.key =
        w.db.members.map ChatMember.key ++
          ((Store.newChat w name isGroup creatorID).id, creatorID, true) ::
            resolved.map (fun m => ((Store.newChat w name isGroup creatorID).id, m, false)) := by
    rw [hrun]
    simp only
    rw [hd]
    simp [afterCreator, afterChat, ChatMember.key, Store.newMember]
  refine ⟨by rw [hrun], resolved, hsub, hex, hdelta, ?_⟩
  intro hfresh
  rw [chatMembers_map_key, hdelta, List.filter_append]
  have h0 : (w.db.members.map ChatMember.key).filter
      (fun k => k.1 = (Store.newChat w name isGroup creatorID).id) = [] := by
    rw [← chatMembers_map_key, hfresh]
    rfl
  rw [h0, List.nil_append]
  apply List.filter_eq_self.mpr
  intro k hk
  rcases List.mem_cons.mp hk with rfl | hk
  · simp
  · obtain ⟨m, _, rfl⟩ := List.mem_map.mp hk
    simp

/-- Creator 1 and members 1, 2, 3 where no user 3 exists give exactly two membership
records for the new chat, user 1 as admin and user 2 as non-admin. -/
theorem CreateChat_members_exact_witness :
    (ChatService.CreateChat reliable ⟨db0, 0⟩ "team" true 1 [1, 2, 3]).1 =
      .ok (Chat.ent ⟨1, "team", true, 1⟩) ∧
    ((ChatService.CreateChat reliable ⟨db0, 0⟩ "team" true 1 [1, 2, 3]).2.db.chatMembers 1).map
        ChatMember.key = [(1, 1, true), (1, 2, false)] := by
  obtain ⟨hres, resolved, _, hex, _, hrec⟩ :=
    CreateChat_members_exact reliable ⟨db0, 0⟩ "team" true 1 [1, 2, 3] rfl (fun _ _ => rfl)
  refine ⟨hres, ?_⟩
  have hr : resolved = [2] := hex (fun _ _ => rfl)
  subst hr
  exact hrec rfl

theorem membersOf_map_key (db : DB) (chatID userID : Int) :
    (db.membersOf chatID userID).map ChatMember.key =
      ((db.chatMembers chatID).map ChatMember.key).filter (fun k => k.2.1 = userID) := by
  unfold DB.membersOf DB.chatMembers
  rw [List.filter_map, List.filter_filter]
  congr 1
  apply List.filter_congr
  intro m _
  simp only [ChatMember.key, Function.comp, Bool.decide_and]
  exact Bool.and_comm _ _

theorem filter_eq_of_nodup (l : List Int) (hn : l.Nodup) (u : Int) :
    l.filter (fun m => m = u) = if u ∈ l then [u] else [] := by
  induction l with
  | nil => simp
  | cons a rest ih =>
    have hn2 := List.nodup_cons.mp hn
    rw [List.filter_cons, ih hn2.2]
    by_cases hau : a = u
    · subst hau
      simp [hn2.1]
    · have hua : ¬ u = a := fun h => hau h.symm
      simp [hau, hua]

/-- C1, counterexample: users 1 and 2 exist, and `CreateChat` is called for creator 1 with
the member list 1, 2, 3 on a store whose user-existence queries fail while every insert
succeeds.  The call returns the new chat, and the only membership record of the new chat is
the admin record of user 1: no record is created for user 2, an existing user that differs
from the creator, because the error of the existence query is dropped. -/
theorem CreateChat_existing_user_skipped :
    db0.hasUser 2 = true ∧
    noUserExist.fails 0 .chatCreate = false ∧
    (∀ t c u, noUserExist.fails t (.memberCreate c u) = false) ∧
    (ChatService.CreateChat noUserExist ⟨db0, 0⟩ "team" true 1 [1, 2, 3]).1 =
      .ok (Chat.ent ⟨1, "team", true, 1⟩) ∧
    (ChatService.CreateChat noUserExist ⟨db0, 0⟩ "team" true 1 [1, 2, 3]).2.db.members =
      [⟨1, 1, 1, true⟩] :=
  ⟨by decide, by decide, fun _ _ _ => rfl, by decide, by decide⟩

/-- C1, amended: for a member list without repeated identifiers, on a store where no
membership record refers to the identifier of the new chat, when the chat insert and every
membership insert for the new chat succeed and no user-existence query fails, `CreateChat`
returns the new chat with no error and the membership records of the new chat are exactly
the admin record of the creator followed by one non-admin record for each identifier of the
list that differs from the creator and is an existing user: the creator has exactly the
admin record, each such identifier exactly one non-admin record, and every other user
none. -/
theorem CreateChat_one_record_each (env : Env) (w : World) (name : String) (isGroup : Bool)
    (creatorID : Int) (memberIDs : List Int)
    (hchat : env.fails w.tick .chatCreate = false)
    (hmem : ∀ t u,
      env.fails t (.memberCreate (Store.newChat w name isGroup creatorID).id u) = false)
    (hq : ∀ t u, env.fails t (.userExist u) = false)
    (hnodup : memberIDs.Nodup)
    (hfresh : w.db.chatMembers (Store.newChat w name isGroup creatorID).id = []) :
    (ChatService.CreateChat env w name isGroup creatorID memberIDs).1 =
      .ok (Store.newChat w name isGroup creatorID).ent ∧
    ((ChatService.CreateChat env w name isGroup creatorID memberIDs).2.db.chatMembers
        (Store.newChat w name isGroup creatorID).id).map ChatMember.key =
      ((Store.newChat w name isGroup creatorID).id, creatorID, true) ::
        (memberIDs.filter (fun m => m ≠ creatorID ∧ w.db.hasUser m)).map
          (fun m => ((Store.newChat w name isGroup creatorID).id, m, false)) ∧
    ∀ u,
      ((ChatService.CreateChat env w name isGroup creatorID memberIDs).2.db.membersOf
          (Store.newChat w name isGroup creatorID).id u).map ChatMember.key =
        if u = creatorID then [((Store.newChat w name isGroup creatorID).id, creatorID, true)]
        else if u ∈ memberIDs ∧ w.db.hasUser u = true then
          [((Store.newChat w name isGroup creatorID).id, u, false)]
        else [] := by
  obtain ⟨hres, resolved, _, hex, _, hrec⟩ :=
    CreateChat_members_exact env w name isGroup creatorID memberIDs hchat hmem
  have hr := hex hq
  subst hr
  have hkeys := hrec hfresh
  refine ⟨hres, hkeys, ?_⟩
  intro u
  rw [membersOf_map_key, hkeys, List.filter_cons, List.filter_map]
  have hcomp : ((fun k : Int × Int × Bool => decide (k.2.1 = u)) ∘
      fun m => ((Store.newChat w name isGroup creatorID).id, m, false)) =
      fun m => decide (m = u) := rfl
  rw [hcomp, filter_eq_of_nodup _ (hnodup.filter _)]
  by_cases huc : u = creatorID
  · subst huc
    simp
  · have hcu : ¬ creatorID = u := fun h => huc h.symm
    by_cases hin : u ∈ memberIDs ∧ w.db.hasUser u = true
    · simp [huc, hcu, hin.1, hin.2]
    · simp only [huc, hcu, hin, decide_False, if_false, Bool.false_eq_true]
      rw [if_neg]
      · simp
      · intro hmem2
        apply hin
        have := List.mem_filter.mp hmem2
        exact ⟨this.1, by simpa [huc] using this.2⟩

/-- C1, amended, the scenario of the spec: creator 1 and members 1, 2, 3 where no user 3
exists give exactly two membership records for the new chat, user 1 as admin and user 2 as
non-admin, and none for user 3. -/
theorem CreateChat_one_record_each_witness :
    (ChatService.CreateChat reliable ⟨db0, 0⟩ "team" true 1 [1, 2, 3]).1 =
      .ok (Chat.ent ⟨1, "team", true, 1⟩) ∧
    ((ChatService.CreateChat reliable ⟨db0, 0⟩ "team" true 1 [1, 2, 3]).2.db.chatMembers 1).map
        ChatMember.key = [(1, 1, true), (1, 2, false)] ∧
    (ChatService.CreateChat reliable ⟨db0, 0⟩ "team" true 1 [1, 2, 3]).2.db.membersOf 1 3 =
      [] :=
  have h := CreateChat_one_record_each reliable ⟨db0, 0⟩ "team" true 1 [1, 2, 3] rfl
    (fun _ _ => rfl) (fun _ _ => rfl) (by decide) (by decide)
  ⟨h.1, h.2.1, List.map_eq_nil_iff.mp (h.2.2 3)⟩

theorem addOthers_adds (env : Env) (chatID creatorID m : Int) (hm : m ≠ creatorID)
    (hq : ∀ t, env.fails t (.userExist m) = false)
    (hi : ∀ t, env.fails t (.memberCreate chatID m) = false)
    (ids : List Int) (w : World) (hmem : m ∈ ids) (hu : w.db.hasUser m = true) :
    (chatID, m, false) ∈
      (ChatService.CreateChat.addOthers env chatID creatorID ids w).db.members.map
        ChatMember.key := by
  induction ids generalizing w with
  | nil => cases hmem
  | cons x rest ih =>
    simp only [ChatService.CreateChat.addOthers]
    split
    · rename_i hx
      rcases List.mem_cons.mp hmem with h | h
      · exact absurd (h.trans hx) hm
      · exact ih w h hu
    · rw [Store.userExist_snd]
      by_cases hxm : m = x
      · subst hxm
        rw [Store.userExist_fst env w m (hq _)]
        simp only [dropErr, hu, Bool.not_true, Bool.false_eq_true, if_false]
        rw [Store.memberCreate_ok env w.next chatID m false (hi _)]
        have hp := (addOthers_frame env chatID creatorID rest
          (w.next.put
            { w.next.db with
              members := w.next.db.members ++ [Store.newMember w.next chatID m false] })).2.2.2
        apply List.mem_map.mpr
        refine ⟨Store.newMember w.next chatID m false, hp.subset ?_, rfl⟩
        simp
      · have hr : m ∈ rest := by
          rcases List.mem_cons.mp hmem with h | h
          · exact absurd h hxm
          · exact h
        split
        · exact ih w.next hr hu
        · rcases Store.memberCreate_cases env w.next chatID x false with h | h
          · rw [h]
            exact ih w.next.next hr hu
          · rw [h]
            exact ih _ hr hu

/-- C2 as stated fails: on a store where the creator-membership insert and the compensating
chat delete both fail, `CreateChat` returns an error and the new chat record stays in the
chat table. -/
theorem CreateChat_leaves_chat_when_delete_fails :
    noMemberInsertNoDelete.fails 0 .chatCreate = false ∧
    noMemberInsertNoDelete.fails 1 (.memberCreate 1 1) = true ∧
    (ChatService.CreateChat noMemberInsertNoDelete ⟨db0, 0⟩ "team" true 1 [2]).1 =
      .error ⟨"failed to add creator as member", some .storage⟩ ∧
    db0.chats = [] ∧
    (ChatService.CreateChat noMemberInsertNoDelete ⟨db0, 0⟩ "team" true 1 [2]).2.db.chats =
      [⟨1, "team", true, 1⟩] :=
  ⟨rfl, rfl, rfl, rfl, rfl⟩

/-- C2, amended: when the chat insert succeeds, the creator-membership insert fails and the
compensating delete of the new chat does not fail, `CreateChat` returns an error and no
chat, and the chat table after the call equals the chat table before it. -/
theorem CreateChat_compensates (env : Env) (w : World) (name : String) (isGroup : Bool)
    (creatorID : Int) (memberIDs : List Int)
    (hchat : env.fails w.tick .chatCreate = false)
    (hcre : env.fails (w.tick + 1)
      (.memberCreate (Store.newChat w name isGroup creatorID).id creatorID) = true)
    (hdel : env.fails (w.tick + 2)
      (.chatDelete (Store.newChat w name isGroup creatorID).id) = false) :
    (ChatService.CreateChat env w name isGroup creatorID memberIDs).1 =
      .error ⟨"failed to add creator as member", some .storage⟩ ∧
    (ChatService.CreateChat env w name isGroup creatorID memberIDs).2.db.chats = w.db.chats := by
  rw [CreateChat_creator_fail env w name isGroup creatorID memberIDs hchat hcre]
  refine ⟨rfl, ?_⟩
  simp only
  rw [chatDelete_afterChat_ok env w name isGroup creatorID hdel]

/-- C2, amended, on a store where every membership insert fails and deletes succeed: the
call fails and the chat table is the one before the call. -/
theorem CreateChat_compensates_witness :
    (ChatService.CreateChat noMemberInsert ⟨db1, 0⟩ "team" true 1 [2]).1 =
      .error ⟨"failed to add creator as member", some .storage⟩ ∧
    (ChatService.CreateChat noMemberInsert ⟨db1, 0⟩ "team" true 1 [2]).2.db.chats = db1.chats :=
  CreateChat_compensates noMemberInsert ⟨db1, 0⟩ "team" true 1 [2] rfl rfl rfl

/-- C3 as stated fails: with the creator-membership insert failing, `CreateChat` returns the
same result whether the compensating delete fails (the chat stays in the table) or succeeds
(the chat is removed). -/
theorem CreateChat_same_result_when_delete_fails :
    (ChatService.CreateChat noMemberInsertNoDelete ⟨db1, 0⟩ "ops" false 2 [3]).1 =
      (ChatService.CreateChat noMemberInsert ⟨db1, 0⟩ "ops" false 2 [3]).1 ∧
    (ChatService.CreateChat noMemberInsertNoDelete ⟨db1, 0⟩ "ops" false 2 [3]).2.db.chats =
      [⟨1, "general", true, 1⟩, ⟨2, "ops", false, 2⟩] ∧
    (ChatService.CreateChat noMemberInsert ⟨db1, 0⟩ "ops" false 2 [3]).2.db.chats =
      [⟨1, "general", true, 1⟩] :=
  ⟨rfl, rfl, rfl⟩

/-- C3, amended: when the chat insert succeeds and the creator-membership insert fails, the
result of `CreateChat` is the error that wraps the failure of that insert, on every storage
collaborator: it is the same whether the compensating delete fails or succeeds, so a failed
compensating delete is not surfaced. -/
theorem CreateChat_delete_failure_not_surfaced (env₁ env₂ : Env) (w : World) (name : String)
    (isGroup : Bool) (creatorID : Int) (memberIDs : List Int)
    (hchat₁ : env₁.fails w.tick .chatCreate = false)
    (hcre₁ : env₁.fails (w.tick + 1)
      (.memberCreate (Store.newChat w name isGroup creatorID).id creatorID) = true)
    (hchat₂ : env₂.fails w.tick .chatCreate = false)
    (hcre₂ : env₂.fails (w.tick + 1)
      (.memberCreate (Store.newChat w name isGroup creatorID).id creatorID) = true) :
    (ChatService.CreateChat env₁ w name isGroup creatorID memberIDs).1 =
      .error ⟨"failed to add creator as member", some .storage⟩ ∧
    (ChatService.CreateChat env₁ w name isGroup creatorID memberIDs).1 =
      (ChatService.CreateChat env₂ w name isGroup creatorID memberIDs).1 := by
  rw [CreateChat_creator_fail env₁ w name isGroup creatorID memberIDs hchat₁ hcre₁,
    CreateChat_creator_fail env₂ w name isGroup creatorID memberIDs hchat₂ hcre₂]
  exact ⟨rfl, rfl⟩

/-- C3, amended, on two stores: the compensating delete fails on the first and succeeds on
the second, and the results are equal. -/
theorem CreateChat_delete_failure_not_surfaced_witness :
    noMemberInsertNoDelete.fails 2 (.chatDelete 2) = true ∧
    noMemberInsert.fails 2 (.chatDelete 2) = false ∧
    (ChatService.CreateChat noMemberInsertNoDelete ⟨db1, 0⟩ "team" true 1 [2]).1 =
      .error ⟨"failed to add creator as member", some .storage⟩ ∧
    (ChatService.CreateChat noMemberInsertNoDelete ⟨db1, 0⟩ "team" true 1 [2]).1 =
      (ChatService.CreateChat noMemberInsert ⟨db1, 0⟩ "team" true 1 [2]).1 :=
  ⟨rfl, rfl,
    CreateChat_delete_failure_not_surfaced noMemberInsertNoDelete noMemberInsert ⟨db1, 0⟩
      "team" true 1 [2] rfl rfl rfl rfl⟩

/-- C4: when the chat insert and the creator-membership insert succeed, `CreateChat` returns
the created chat with no error, whatever the user-existence queries and the member inserts
of the loop do.  No record is removed: the table before the call followed by the creator's
record is an initial segment of the table after the call, and so is the table reached after
any initial part `pre` of the member list.  The loop is not aborted: an entry `m` anywhere
in the list that differs from the creator, names an existing user and whose own query and
insert do not fail gets its non-admin record, whatever failed for the other entries. -/
theorem CreateChat_member_failures_swallowed (env : Env) (w : World) (name : String)
    (isGroup : Bool) (creatorID : Int) (pre post : List Int)
    (hchat : env.fails w.tick .chatCreate = false)
    (hcre : env.fails (w.tick + 1)
      (.memberCreate (Store.newChat w name isGroup creatorID).id creatorID) = false) :
    (ChatService.CreateChat env w name isGroup creatorID (pre ++ post)).1 =
      .ok (Store.newChat w name isGroup creatorID).ent ∧
    (w.db.members ++
        [Store.newMember (afterChat w name isGroup creatorID)
          (Store.newChat w name isGroup creatorID).id creatorID true]) <+:
      (ChatService.CreateChat env w name isGroup creatorID pre).2.db.members ∧
    (ChatService.CreateChat env w name isGroup creatorID pre).2.db.members <+:
      (ChatService.CreateChat env w name isGroup creatorID (pre ++ post)).2.db.members ∧
    (∀ m ∈ pre ++ post, m ≠ creatorID → w.db.hasUser m = true →
      (∀ t, env.fails t (.userExist m) = false) →
      (∀ t, env.fails t (.memberCreate (Store.newChat w name isGroup creatorID).id m) = false) →
      ((Store.newChat w name isGroup creatorID).id, m, false) ∈
        (ChatService.CreateChat env w name isGroup creatorID (pre ++ post)).2.db.members.map
          ChatMember.key) := by
  rw [CreateChat_run env w name isGroup creatorID (pre ++ post) hchat hcre,
    CreateChat_run env w name isGroup creatorID pre hchat hcre]
  refine ⟨rfl, ?_, ?_, ?_⟩
  · exact (addOthers_frame env _ creatorID pre (afterCreator w name isGroup creatorID)).2.2.2
  · simp only
    rw [addOthers_append]
    exact (addOthers_frame env _ creatorID post _).2.2.2
  · intro m hm hne hu hq hi
    exact addOthers_adds env _ creatorID m hne hq hi (pre ++ post)
      (afterCreator w name isGroup creatorID) hm hu

/-- C4 on a store where every membership insert for user 2 fails: creating a chat for
creator 1 with members 2, 7, 3 succeeds, and user 3, listed after the failing user 2 and the
unknown user 7, has its non-admin record. -/
theorem CreateChat_member_failures_swallowed_witness :
    noInsertFor2.fails 3 (.memberCreate 2 2) = true ∧
    (ChatService.CreateChat noInsertFor2 ⟨db1, 0⟩ "team" true 1 ([2, 7] ++ [3])).1 =
      .ok (Chat.ent ⟨2, "team", true, 1⟩) ∧
    ((2 : Int), (3 : Int), false) ∈
      (ChatService.CreateChat noInsertFor2 ⟨db1, 0⟩ "team" true 1
        ([2, 7] ++ [3])).2.db.members.map ChatMember.key :=
  have h := CreateChat_member_failures_swallowed noInsertFor2 ⟨db1, 0⟩ "team" true 1 [2, 7] [3]
    rfl rfl
  ⟨rfl, h.1, h.2.2.2 3 (by decide) (by decide) rfl (fun _ => rfl) (fun _ => rfl)⟩

/-- C5 as stated fails: on a store where the creator-membership insert and the compensating
delete fail, `CreateChat` returns an error and the store contains the new chat record. -/
theorem CreateChat_error_with_chat_left :
    (ChatService.CreateChat noMemberInsertNoDelete ⟨db1, 4⟩ "ops" false 3 []).1 =
      .error ⟨"failed to add creator as member", some .storage⟩ ∧
    (⟨2, "ops", false, 3⟩ : Chat) ∉ db1.chats ∧
    (⟨2, "ops", false, 3⟩ : Chat) ∈
      (ChatService.CreateChat noMemberInsertNoDelete ⟨db1, 4⟩ "ops" false 3 []).2.db.chats :=
  ⟨rfl, by decide, by decide⟩

/-- C5, amended: whenever `CreateChat` returns without error, the store contains the returned
chat, its creator is the caller, and the store contains a membership record of the creator
for that chat with the admin flag.  Whenever it returns an error, no membership record was
created (every record of the table was there before the call), and the chat table is the
one before the call unless the compensating delete failed. -/
theorem CreateChat_atomic_outcome (env : Env) (w : World) (name : String) (isGroup : Bool)
    (creatorID : Int) (memberIDs : List Int) :
    (∀ ent, (ChatService.CreateChat env w name isGroup creatorID memberIDs).1 = .ok ent →
      ent.row.creatorID = creatorID ∧
      ent.row ∈ (ChatService.CreateChat env w name isGroup creatorID memberIDs).2.db.chats ∧
      (ent.row.id, creatorID, true) ∈
        (ChatService.CreateChat env w name isGroup creatorID memberIDs).2.db.members.map
          ChatMember.key) ∧
    (∀ e, (ChatService.CreateChat env w name isGroup creatorID memberIDs).1 = .error e →
      (∀ m ∈ (ChatService.CreateChat env w name isGroup creatorID memberIDs).2.db.members,
        m ∈ w.db.members) ∧
      (env.fails (w.tick + 2)
          (.chatDelete (Store.newChat w name isGroup creatorID).id) = false →
        (ChatService.CreateChat env w name isGroup creatorID memberIDs).2.db.chats =
          w.db.chats)) := by
  cases hchat : env.fails w.tick .chatCreate
  · cases hcre : env.fails (w.tick + 1)
        (.memberCreate (Store.newChat w name isGroup creatorID).id creatorID)
    · rw [CreateChat_run env w name isGroup creatorID memberIDs hchat hcre]
      refine ⟨?_, fun e h => by cases h⟩
      intro ent h
      have hent : (Store.newChat w name isGroup creatorID).ent = ent := by
        simpa using h
      subst hent
      obtain ⟨_, h2, _, h4⟩ :=
        addOthers_frame env (Store.newChat w name isGroup creatorID).id creatorID memberIDs
          (afterCreator w name isGroup creatorID)
      refine ⟨rfl, ?_, ?_⟩
      · simp only
        rw [h2]
        simp [afterCreator, afterChat, Chat.ent]
      · apply List.mem_map.mpr
        refine ⟨Store.newMember (afterChat w name isGroup creatorID)
          (Store.newChat w name isGroup creatorID).id creatorID true, h4.subset ?_, rfl⟩
        simp [afterCreator]
    · rw [CreateChat_creator_fail env w name isGroup creatorID memberIDs hchat hcre]
      refine ⟨fun ent h => (by cases h), ?_⟩
      intro e _
      constructor
      · intro m hm
        cases hdel : env.fails (w.tick + 2)
            (.chatDelete (Store.newChat w name isGroup creatorID).id)
        · simp only at hm
          rw [chatDelete_afterChat_ok env w name isGroup creatorID hdel] at hm
          exact (List.mem_filter.mp hm).1
        · simp only at hm
          rw [chatDelete_afterChat_fail env w name isGroup creatorID hdel] at hm
          exact hm
      · intro hdel
        simp only
        rw [chatDelete_afterChat_ok env w name isGroup creatorID hdel]
  · rw [CreateChat_chat_fail env w name isGroup creatorID memberIDs hchat]
    refine ⟨fun ent h => (by cases h), ?_⟩
    intro e _
    exact ⟨fun m hm => hm, fun _ => rfl⟩

/-- C5, amended, on two stores: on a reliable store the created chat is in the chat table
with the creator's admin record; on a store where every membership insert fails the call
returns an error, no membership record is created and the chat table is unchanged. -/
theorem CreateChat_atomic_outcome_witness :
    ((⟨1, "team", true, 1⟩ : Chat) ∈
        (ChatService.CreateChat reliable ⟨db0, 0⟩ "team" true 1 [2]).2.db.chats ∧
      ((1 : Int), (1 : Int), true) ∈
        (ChatService.CreateChat reliable ⟨db0, 0⟩ "team" true 1 [2]).2.db.members.map
          ChatMember.key) ∧
    ((∀ m ∈ (ChatService.CreateChat noMemberInsert ⟨db1, 0⟩ "ops" false 3 [1]).2.db.members,
        m ∈ db1.members) ∧
      (ChatService.CreateChat noMemberInsert ⟨db1, 0⟩ "ops" false 3 [1]).2.db.chats =
        db1.chats) :=
  have hok := (CreateChat_atomic_outcome reliable ⟨db0, 0⟩ "team" true 1 [2]).1
    (Chat.ent ⟨1, "team", true, 1⟩) rfl
  have herr := (CreateChat_atomic_outcome noMemberInsert ⟨db1, 0⟩ "ops" false 3 [1]).2
    ⟨"failed to add creator as member", some .storage⟩ rfl
  ⟨⟨hok.2.1, hok.2.2⟩, herr.1, herr.2 rfl⟩

/-! ## The uniqueness invariant -/

theorem membersOf_map_pair (db : DB) (c u : Int) :
    (db.membersOf c u).map (fun m => (m.chatID, m.userID)) =
      List.replicate (db.membersOf c u).length (c, u) := by
  apply List.eq_replicate_iff.mpr
  refine ⟨by simp, ?_⟩
  intro b hb
  obtain ⟨m, hm, rfl⟩ := List.mem_map.mp hb
  have := (List.mem_filter.mp hm).2
  simp at this
  simp [this.1, this.2]

theorem membersOf_length_le_one (db : DB) (h : db.uniqueMembership) (c u : Int) :
    (db.membersOf c u).length ≤ 1 := by
  have hsub : ((db.membersOf c u).map (fun m => (m.chatID, m.userID))).Nodup :=
    List.Nodup.sublist (List.Sublist.map _ (List.filter_sublist _)) h
  rw [membersOf_map_pair] at hsub
  exact List.nodup_replicate.mp hsub

theorem membersOf_eq_nil_iff (db : DB) (c u : Int) :
    db.membersOf c u = [] ↔ (c, u) ∉ db.members.map (fun m => (m.chatID, m.userID)) := by
  unfold DB.membersOf
  rw [List.filter_eq_nil_iff]
  constructor
  · intro h hmem
    obtain ⟨m, hm, he⟩ := List.mem_map.mp hmem
    have := h m hm
    simp at he
    simp [he.1, he.2] at this
  · intro h m hm
    simp only [decide_eq_true_eq]
    rintro ⟨h1, h2⟩
    exact h (List.mem_map.mpr ⟨m, hm, by simp [h1, h2]⟩)

theorem RemoveMember_unique (env : Env) (w : World) (chatID memberID : Int)
    (h : w.db.uniqueMembership) :
    (ChatService.RemoveMember env w chatID memberID).2.db.uniqueMembership := by
  unfold ChatService.RemoveMember Store.memberDelete
  cases hf : env.fails w.tick (.memberDelete chatID memberID)
  · simp only [Bool.false_eq_true, if_false, World.put_db]
    exact List.Nodup.sublist (List.Sublist.map _ (List.filter_sublist _)) h
  · simpa using h

theorem AddMembers_loop_unique (env : Env) (chatID : Int)
    (hq : ∀ t u, env.fails t (.memberExist chatID u) = false) (ids : List Int) (w : World)
    (h : w.db.uniqueMembership) :
    (ChatService.AddMembers.loop env chatID ids w).db.uniqueMembership := by
  induction ids generalizing w with
  | nil => exact h
  | cons m rest ih =>
    simp only [ChatService.AddMembers.loop]
    rw [Store.memberExist_snd]
    have hex : (Store.memberExist env w chatID m).1 =
        .ok (!(w.db.membersOf chatID m).isEmpty) := by
      simp [Store.memberExist, hq]
    rw [hex]
    simp only [dropErr]
    split
    · exact ih w.next h
    · rename_i hne
      have hnil : w.db.membersOf chatID m = [] := by
        simpa using hne
      rw [Store.userExist_snd]
      split
      · exact ih w.next.next h
      · rcases Store.memberCreate_cases env w.next.next chatID m false with hc | hc
        · rw [hc]
          exact ih _ h
        · rw [hc]
          apply ih
          have hnot := (membersOf_eq_nil_iff w.db chatID m).mp hnil
          unfold DB.uniqueMembership at h ⊢
          simp only [World.put_db, World.next_db, List.map_append, List.map_cons, List.map_nil]
          rw [List.nodup_append]
          refine ⟨h, by simp, ?_⟩
          intro a ha hb
          simp [Store.newMember] at hb
          subst hb
          exact hnot ha

/-- C6, the failing input: on a store that satisfies the uniqueness invariant and accepts
every insert, `CreateChat` for creator 1 with the member list 2, 2 succeeds and leaves two
membership records relating user 2 to the new chat: the member identifiers are not
de-duplicated and the invariant does not hold afterwards. -/
theorem CreateChat_duplicate_member_records :
    db0.uniqueMembership ∧
    (ChatService.CreateChat reliable ⟨db0, 0⟩ "team" true 1 [2, 2]).1 =
      .ok (Chat.ent ⟨1, "team", true, 1⟩) ∧
    (ChatService.CreateChat reliable ⟨db0, 0⟩ "team" true 1 [2, 2]).2.db.members =
      [⟨1, 1, 1, true⟩, ⟨2, 1, 2, false⟩, ⟨3, 1, 2, false⟩] ∧
    ¬ (ChatService.CreateChat reliable ⟨db0, 0⟩ "team" true 1 [2, 2]).2.db.uniqueMembership :=
  ⟨by decide, rfl, rfl, by decide⟩

/-! ## The authorization predicates -/

/-- C7, counterexample: `AddMembers` for user 1, the admin of chat 1, on a store whose
membership existence queries fail leaves a second, non-admin record for user 1.  On that
store a membership record of user 1 for chat 1 has the admin flag and the admin query does
not fail with a storage error, but `IsUserAdminOfChat` does not return `(true, nil)`: the
query ends in `Only`, which fails on two records, and the function returns an error. -/
theorem IsUserAdminOfChat_two_records :
    (ChatService.AddMembers noMemberExist ⟨db1, 0⟩ 1 [1]).2.db = db4 ∧
    (∃ m ∈ db4.members, m.chatID = 1 ∧ m.userID = 1 ∧ m.isAdmin = true) ∧
    reliable.fails 0 (.memberOnly 1 1) = false ∧
    ChatService.IsUserAdminOfChat reliable ⟨db4, 0⟩ 1 1 =
      (.error ⟨"failed to check admin status", some .notSingular⟩, ⟨db4, 1⟩) := by
  decide

/-- C7, amended: when the membership query does not fail with a storage error, on a store
with at most one membership record for the chat and the user (the uniqueness invariant of
the data model), `IsUserAdminOfChat` returns `(true, nil)` if and only if a membership record for the
chat and the user exists with the admin flag; it returns `(false, nil)` when no record
exists; it never returns an error; and it leaves the tables as they are. -/
theorem IsUserAdminOfChat_iff (env : Env) (w : World) (chatID userID : Int)
    (hq : env.fails w.tick (.memberOnly chatID userID) = false)
    (hlen : (w.db.membersOf chatID userID).length ≤ 1) :
    ((ChatService.IsUserAdminOfChat env w chatID userID).1 = .ok true ↔
      ∃ m ∈ w.db.members, m.chatID = chatID ∧ m.userID = userID ∧ m.isAdmin = true) ∧
    ((∀ m ∈ w.db.members, ¬ (m.chatID = chatID ∧ m.userID = userID)) →
      (ChatService.IsUserAdminOfChat env w chatID userID).1 = .ok false) ∧
    (∃ b, (ChatService.IsUserAdminOfChat env w chatID userID).1 = .ok b) ∧
    (ChatService.IsUserAdminOfChat env w chatID userID).2.db = w.db := by
  have hmem : ∀ m, m ∈ w.db.membersOf chatID userID ↔
      m ∈ w.db.members ∧ m.chatID = chatID ∧ m.userID = userID := by
    intro m
    simp [DB.membersOf, List.mem_filter]
  unfold ChatService.IsUserAdminOfChat Store.memberOnly
  rw [if_neg (by simp [hq])]
  match hl : w.db.membersOf chatID userID, hlen with
  | [], _ =>
    have hnone : ∀ m ∈ w.db.members, ¬ (m.chatID = chatID ∧ m.userID = userID) := by
      intro m hm hp
      have := (hmem m).mpr ⟨hm, hp⟩
      rw [hl] at this
      cases this
    refine ⟨⟨fun h => ?_, fun ⟨m, hm, hp⟩ => ?_⟩, fun _ => ?_, ⟨false, ?_⟩, ?_⟩
    · simp [only] at h
    · exact absurd ⟨hp.1, hp.2.1⟩ (hnone m hm)
    · simp [only]
    · simp [only]
    · simp [only]
  | [a], _ =>
    have ha : a ∈ w.db.members ∧ a.chatID = chatID ∧ a.userID = userID :=
      (hmem a).mp (by rw [hl]; simp)
    refine ⟨⟨fun h => ?_, fun ⟨m, hm, hp⟩ => ?_⟩, fun hno => ?_, ⟨a.isAdmin, ?_⟩, ?_⟩
    · refine ⟨a, ha.1, ha.2.1, ha.2.2, ?_⟩
      simpa [only] using h
    · have hma : m = a := by
        have := (hmem m).mpr ⟨hm, hp.1, hp.2.1⟩
        rw [hl] at this
        simpa using this
      subst hma
      simp [only, hp.2.2]
    · exact absurd ha.2 (hno a ha.1)
    · simp [only]
    · simp [only]
  | _ :: _ :: _, h => simp at h

/-- C7, amended, on a store with an admin record for user 1 and a non-admin record for user 2 in
chat 1: the store satisfies the uniqueness invariant, the admin query for user 1 answers
true exactly when an admin record exists, and the query for user 3, who has no record,
answers false. -/
theorem IsUserAdminOfChat_iff_witness :
    db1.uniqueMembership ∧
    ((ChatService.IsUserAdminOfChat reliable ⟨db1, 0⟩ 1 1).1 = .ok true ↔
      ∃ m ∈ db1.members, m.chatID = 1 ∧ m.userID = 1 ∧ m.isAdmin = true) ∧
    (ChatService.IsUserAdminOfChat reliable ⟨db1, 0⟩ 1 3).1 = .ok false :=
  ⟨by decide,
    (IsUserAdminOfChat_iff reliable ⟨db1, 0⟩ 1 1 rfl
      (membersOf_length_le_one db1 (by decide) 1 1)).1,
    (IsUserAdminOfChat_iff reliable ⟨db1, 0⟩ 1 3 rfl
      (membersOf_length_le_one db1 (by decide) 1 3)).2.1 (by decide)⟩

theorem IsUserAdminOfChat_snd (env : Env) (w : World) (chatID userID : Int) :
    (ChatService.IsUserAdminOfChat env w chatID userID).2 = w.next := by
  unfold ChatService.IsUserAdminOfChat Store.memberOnly
  split <;> rename_i heq <;> split at heq <;> simp only [Prod.mk.injEq] at heq <;>
    obtain ⟨_, rfl⟩ := heq <;> (try split) <;> rfl

theorem IsUserMemberOfChat_snd (env : Env) (w : World) (chatID userID : Int) :
    (ChatService.IsUserMemberOfChat env w chatID userID).2 = w.next := by
  unfold ChatService.IsUserMemberOfChat Store.memberExist
  split <;> rename_i heq <;> split at heq <;> simp only [Prod.mk.injEq] at heq <;>
    obtain ⟨_, rfl⟩ := heq <;> rfl

theorem IsUserSenderOfMessage_snd (env : Env) (w : World) (messageID userID : Int) :
    (MessageService.IsUserSenderOfMessage env w messageID userID).2 = w.next := by
  unfold MessageService.IsUserSenderOfMessage Store.messageExist
  split <;> rename_i heq <;> split at heq <;> simp only [Prod.mk.injEq] at heq <;>
    obtain ⟨_, rfl⟩ := heq <;> rfl

theorem IsUserAdminOfChat_eq (env : Env) (w : World) (chatID userID : Int) (b : Bool)
    (h : (ChatService.IsUserAdminOfChat env w chatID userID).1 = .ok b) :
    ChatService.IsUserAdminOfChat env w chatID userID = (.ok b, w.next) :=
  Prod.ext h (IsUserAdminOfChat_snd env w chatID userID)

/-! ## The handlers -/

/-- C9: when `IsUserAdminOfChat` answers false for the caller and the chat, each of
`UpdateChat`, `AddMembers` and `RemoveMember` responds 403 Forbidden and leaves every table
of the store as it was, whatever the request body and the member identifier. -/
theorem non_admin_forbidden (env : Env) (w : World) (userID chatID memberID : Int)
    (renameReq : Option UpdateChatRequest) (addReq : Option AddMembersRequest)
    (hadm : (ChatService.IsUserAdminOfChat env w chatID userID).1 = .ok false) :
    ((ChatHandler.UpdateChat env w userID (some chatID) renameReq).1.status = StatusForbidden ∧
      (ChatHandler.UpdateChat env w userID (some chatID) renameReq).2.db = w.db) ∧
    ((ChatHandler.AddMembers env w userID (some chatID) addReq).1.status = StatusForbidden ∧
      (ChatHandler.AddMembers env w userID (some chatID) addReq).2.db = w.db) ∧
    ((ChatHandler.RemoveMember env w userID (some chatID) (some memberID)).1.status =
        StatusForbidden ∧
      (ChatHandler.RemoveMember env w userID (some chatID) (some memberID)).2.db = w.db) := by
  have h := IsUserAdminOfChat_eq env w chatID userID false hadm
  refine ⟨?_, ?_, ?_⟩
  · simp [ChatHandler.UpdateChat, h]
  · simp [ChatHandler.AddMembers, h]
  · simp [ChatHandler.RemoveMember, h]

/-- C9 on a store where user 2 is a non-admin member of chat 1: the rename, the addition of
user 3 and the removal of user 1 requested by user 2 are answered 403 and change nothing. -/
theorem non_admin_forbidden_witness :
    (ChatService.IsUserAdminOfChat reliable ⟨db1, 0⟩ 1 2).1 = .ok false ∧
    ((ChatHandler.UpdateChat reliable ⟨db1, 0⟩ 2 (some 1) (some ⟨"mine"⟩)).1.status = 403 ∧
      (ChatHandler.UpdateChat reliable ⟨db1, 0⟩ 2 (some 1) (some ⟨"mine"⟩)).2.db = db1) ∧
    ((ChatHandler.AddMembers reliable ⟨db1, 0⟩ 2 (some 1) (some ⟨[3]⟩)).1.status = 403 ∧
      (ChatHandler.AddMembers reliable ⟨db1, 0⟩ 2 (some 1) (some ⟨[3]⟩)).2.db = db1) ∧
    ((ChatHandler.RemoveMember reliable ⟨db1, 0⟩ 2 (some 1) (some 1)).1.status = 403 ∧
      (ChatHandler.RemoveMember reliable ⟨db1, 0⟩ 2 (some 1) (some 1)).2.db = db1) :=
  ⟨rfl, non_admin_forbidden reliable ⟨db1, 0⟩ 2 1 1 (some ⟨"mine"⟩) (some ⟨[3]⟩) rfl⟩

theorem GetChatCreator_missing (env : Env) (w : World) (chatID : Int)
    (hchat : ∀ c ∈ w.db.chats, c.id ≠ chatID) :
    ∃ e, ChatService.GetChatCreator env w chatID = (.error e, w.next) := by
  have hnone : w.db.chats.find? (fun c => c.id = chatID) = none := by
    apply List.find?_eq_none.mpr
    intro c hc
    simpa using hchat c hc
  unfold ChatService.GetChatCreator Store.chatGet
  cases hf : env.fails w.tick (.chatGet chatID)
  · exact ⟨⟨"chat not found", none⟩, by simp [hnone]⟩
  · exact ⟨⟨"failed to get chat", some .storage⟩, by simp⟩

theorem IsUserAdminOfChat_no_record (env : Env) (w : World) (chatID userID : Int)
    (hq : env.fails w.tick (.memberOnly chatID userID) = false)
    (hrec : ∀ m ∈ w.db.members, ¬ (m.chatID = chatID ∧ m.userID = userID)) :
    ChatService.IsUserAdminOfChat env w chatID userID = (.ok false, w.next) := by
  have hnil : w.db.membersOf chatID userID = [] := by
    unfold DB.membersOf
    apply List.filter_eq_nil_iff.mpr
    intro m hm
    simpa using hrec m hm
  simp [ChatService.IsUserAdminOfChat, Store.memberOnly, hq, hnil, only]

theorem IsUserMemberOfChat_no_record (env : Env) (w : World) (chatID userID : Int)
    (hq : env.fails w.tick (.memberExist chatID userID) = false)
    (hrec : ∀ m ∈ w.db.members, ¬ (m.chatID = chatID ∧ m.userID = userID)) :
    ChatService.IsUserMemberOfChat env w chatID userID = (.ok false, w.next) := by
  have hnil : w.db.membersOf chatID userID = [] := by
    unfold DB.membersOf
    apply List.filter_eq_nil_iff.mpr
    intro m hm
    simpa using hrec m hm
  simp [ChatService.IsUserMemberOfChat, Store.memberExist, hq, hnil]

theorem IsUserSenderOfMessage_missing (env : Env) (w : World) (messageID userID : Int)
    (hq : env.fails w.tick (.messageExist messageID userID) = false)
    (hmsg : ∀ m ∈ w.db.messages, m.id ≠ messageID) :
    MessageService.IsUserSenderOfMessage env w messageID userID = (.ok false, w.next) := by
  have hany : w.db.messages.any (fun m => m.id = messageID ∧ m.senderID = userID) = false := by
    apply List.any_eq_false.mpr
    intro m hm
    simp [hmsg m hm]
  unfold MessageService.IsUserSenderOfMessage Store.messageExist
  rw [if_neg (by simp [hq]), hany]

/-- C8 as stated fails: no chat 7 exists, and the rename of chat 7 is answered 403 Forbidden,
not 404. -/
theorem UpdateChat_missing_chat_forbidden :
    db1.chats.find? (fun c => c.id = 7) = none ∧
    (ChatHandler.UpdateChat reliable ⟨db1, 0⟩ 1 (some 7) (some ⟨"x"⟩)).1 =
      ⟨403, .error "only admins can update the chat"⟩ :=
  ⟨rfl, rfl⟩

theorem IsUserAdminOfChat_storage_failure (env : Env) (w : World) (chatID userID : Int)
    (hq : env.fails w.tick (.memberOnly chatID userID) = true) :
    ChatService.IsUserAdminOfChat env w chatID userID =
      (.error ⟨"failed to check admin status", some .storage⟩, w.next) := by
  simp [ChatService.IsUserAdminOfChat, Store.memberOnly, hq]

theorem IsUserMemberOfChat_storage_failure (env : Env) (w : World) (chatID userID : Int)
    (hq : env.fails w.tick (.memberExist chatID userID) = true) :
    ChatService.IsUserMemberOfChat env w chatID userID =
      (.error ⟨"failed to check membership", some .storage⟩, w.next) := by
  simp [ChatService.IsUserMemberOfChat, Store.memberExist, hq]

theorem IsUserSenderOfMessage_storage_failure (env : Env) (w : World)
    (messageID userID : Int)
    (hq : env.fails w.tick (.messageExist messageID userID) = true) :
    MessageService.IsUserSenderOfMessage env w messageID userID =
      (.error ⟨"failed to check sender", some .storage⟩, w.next) := by
  simp [MessageService.IsUserSenderOfMessage, Store.messageExist, hq]

/-- C8, amended: when no chat has the identifier (and no membership record refers to it),
`DeleteChat` responds 404, whatever the storage collaborator does; `GetChat`, `UpdateChat`,
`AddMembers` and `RemoveMember` evaluate the permission first: they respond 403 when the
permission query does not fail and 500 when it fails.  When no message has the identifier,
`UpdateMessage` (with a valid body) and `DeleteMessage` respond 403 when the sender query
does not fail and 500 when it fails.  The tables are left as they were in each case. -/
theorem missing_resource_status (env : Env) (w : World) (userID chatID memberID messageID : Int)
    (renameReq : Option UpdateChatRequest) (addReq : Option AddMembersRequest)
    (editReq : UpdateMessageRequest)
    (hchat : ∀ c ∈ w.db.chats, c.id ≠ chatID)
    (hrec : ∀ m ∈ w.db.members, m.chatID ≠ chatID)
    (hmsg : ∀ m ∈ w.db.messages, m.id ≠ messageID) :
    ((ChatHandler.DeleteChat env w userID (some chatID)).1.status = StatusNotFound ∧
      (ChatHandler.DeleteChat env w userID (some chatID)).2.db = w.db) ∧
    ((ChatHandler.GetChat env w userID (some chatID)).1.status =
        (if env.fails w.tick (.memberExist chatID userID) then StatusInternalServerError
          else StatusForbidden) ∧
      (ChatHandler.GetChat env w userID (some chatID)).2.db = w.db) ∧
    ((ChatHandler.UpdateChat env w userID (some chatID) renameReq).1.status =
        (if env.fails w.tick (.memberOnly chatID userID) then StatusInternalServerError
          else StatusForbidden) ∧
      (ChatHandler.UpdateChat env w userID (some chatID) renameReq).2.db = w.db) ∧
    ((ChatHandler.AddMembers env w userID (some chatID) addReq).1.status =
        (if env.fails w.tick (.memberOnly chatID userID) then StatusInternalServerError
          else StatusForbidden) ∧
      (ChatHandler.AddMembers env w userID (some chatID) addReq).2.db = w.db) ∧
    ((ChatHandler.RemoveMember env w userID (some chatID) (some memberID)).1.status =
        (if env.fails w.tick (.memberOnly chatID userID) then StatusInternalServerError
          else StatusForbidden) ∧
      (ChatHandler.RemoveMember env w userID (some chatID) (some memberID)).2.db = w.db) ∧
    ((MessageHandler.UpdateMessage env w userID (some messageID) (some editReq)).1 =
        (if env.fails w.tick (.messageExist messageID userID) then
          some ⟨StatusInternalServerError, .error "failed to check message ownership"⟩
        else some ⟨StatusForbidden, .error "you can only edit your own messages"⟩) ∧
      (MessageHandler.UpdateMessage env w userID (some messageID) (some editReq)).2.db =
        w.db) ∧
    ((MessageHandler.DeleteMessage env w userID (some messageID)).1.status =
        (if env.fails w.tick (.messageExist messageID userID) then StatusInternalServerError
          else StatusForbidden) ∧
      (MessageHandler.DeleteMessage env w userID (some messageID)).2.db = w.db) := by
  have hrec2 : ∀ m ∈ w.db.members, ¬ (m.chatID = chatID ∧ m.userID = userID) :=
    fun m hm hp => hrec m hm hp.1
  refine ⟨?_, ?_, ?_, ?_, ?_, ?_, ?_⟩
  · obtain ⟨e, he⟩ := GetChatCreator_missing env w chatID hchat
    simp [ChatHandler.DeleteChat, he]
  · cases hq : env.fails w.tick (.memberExist chatID userID)
    · simp [ChatHandler.GetChat, IsUserMemberOfChat_no_record env w chatID userID hq hrec2]
    · simp [ChatHandler.GetChat, IsUserMemberOfChat_storage_failure env w chatID userID hq]
  · cases hq : env.fails w.tick (.memberOnly chatID userID)
    · simp [ChatHandler.UpdateChat, IsUserAdminOfChat_no_record env w chatID userID hq hrec2]
    · simp [ChatHandler.UpdateChat, IsUserAdminOfChat_storage_failure env w chatID userID hq]
  · cases hq : env.fails w.tick (.memberOnly chatID userID)
    · simp [ChatHandler.AddMembers, IsUserAdminOfChat_no_record env w chatID userID hq hrec2]
    · simp [ChatHandler.AddMembers, IsUserAdminOfChat_storage_failure env w chatID userID hq]
  · cases hq : env.fails w.tick (.memberOnly chatID userID)
    · simp [ChatHandler.RemoveMember,
        IsUserAdminOfChat_no_record env w chatID userID hq hrec2]
    · simp [ChatHandler.RemoveMember,
        IsUserAdminOfChat_storage_failure env w chatID userID hq]
  · cases hq : env.fails w.tick (.messageExist messageID userID)
    · simp [MessageHandler.UpdateMessage,
        IsUserSenderOfMessage_missing env w messageID userID hq hmsg]
    · simp [MessageHandler.UpdateMessage,
        IsUserSenderOfMessage_storage_failure env w messageID userID hq]
  · cases hq : env.fails w.tick (.messageExist messageID userID)
    · simp [MessageHandler.DeleteMessage,
        IsUserSenderOfMessage_missing env w messageID userID hq hmsg]
    · simp [MessageHandler.DeleteMessage,
        IsUserSenderOfMessage_storage_failure env w messageID userID hq]

/-- C8, amended, for chat 7 and message 9, which do not exist: deleting chat 7 is answered
404; reading and renaming chat 7 and deleting message 9 are answered 403 on a store whose
queries are answered, and reading chat 7 is answered 500 on a store whose membership
existence queries fail. -/
theorem missing_resource_status_witness :
    (ChatHandler.DeleteChat reliable ⟨db1, 0⟩ 1 (some 7)).1.status = 404 ∧
    (ChatHandler.GetChat reliable ⟨db1, 0⟩ 1 (some 7)).1.status = 403 ∧
    (ChatHandler.UpdateChat reliable ⟨db1, 0⟩ 1 (some 7) none).1.status = 403 ∧
    (MessageHandler.DeleteMessage reliable ⟨db1, 0⟩ 1 (some 9)).1.status = 403 ∧
    (ChatHandler.GetChat noMemberExist ⟨db1, 0⟩ 1 (some 7)).1.status = 500 :=
  have h := missing_resource_status reliable ⟨db1, 0⟩ 1 7 2 9 none none ⟨"edit"⟩
    (by decide) (by decide) (by decide)
  have h2 := missing_resource_status noMemberExist ⟨db1, 0⟩ 1 7 2 9 none none ⟨"edit"⟩
    (by decide) (by decide) (by decide)
  ⟨h.1.1, h.2.1.1, h.2.2.1.1, h.2.2.2.2.2.2.1, h2.2.1.1⟩

theorem only_ok {α : Type} {l : List α} {a : α} (h : only l = .ok a) : l = [a] := by
  match l, h with
  | [b], h => simp [only] at h; simp [h]

theorem GetChatCreator_db (env : Env) (w : World) (chatID : Int) :
    (ChatService.GetChatCreator env w chatID).2.db = w.db := by
  unfold ChatService.GetChatCreator Store.chatGet Store.chatCreator
  cases env.fails w.tick (.chatGet chatID)
  · cases w.db.chats.find? (fun c => c.id = chatID) with
    | none => simp
    | some c =>
      simp only [Bool.false_eq_true, if_false, World.next_tick, World.next_db]
      cases env.fails (w.tick + 1) (.chatCreator c.id)
      · cases only (w.db.users.filter (fun u => u.id = c.creatorID)) with
        | error e => simp only [Bool.false_eq_true, if_false]; split <;> rfl
        | ok u => rfl
      · simp
  · simp

theorem GetChatCreator_ok_inv (env : Env) (w : World) (chatID : Int) (creator : User)
    (h : (ChatService.GetChatCreator env w chatID).1 = .ok creator) :
    (∃ c ∈ w.db.chats, c.id = chatID ∧ c.creatorID = creator.id) ∧
    ChatService.GetChatCreator env w chatID = (.ok creator, w.next.next) := by
  unfold ChatService.GetChatCreator Store.chatGet Store.chatCreator at h ⊢
  cases hf : env.fails w.tick (.chatGet chatID)
  · rw [hf] at h
    cases hc : w.db.chats.find? (fun c => c.id = chatID) with
    | none => rw [hc] at h; simp at h
    | some c =>
      rw [hc] at h
      simp only [Bool.false_eq_true, if_false, World.next_tick, World.next_db] at h ⊢
      cases hg : env.fails (w.tick + 1) (.chatCreator c.id)
      · rw [hg] at h
        cases ho : only (w.db.users.filter (fun u => u.id = c.creatorID)) with
        | error e =>
          rw [ho] at h
          simp only [Bool.false_eq_true, if_false] at h
          split at h <;> simp at h
        | ok u =>
          rw [ho] at h
          simp only [Bool.false_eq_true, if_false] at h ⊢
          have hu : u = creator := by simpa using h
          subst hu
          have hmem : u ∈ w.db.users.filter (fun u => u.id = c.creatorID) := by
            rw [only_ok ho]; simp
          have hid : u.id = c.creatorID := by simpa using (List.mem_filter.mp hmem).2
          have hcid : c.id = chatID := by simpa using List.find?_some hc
          exact ⟨⟨c, List.mem_of_find?_eq_some hc, hcid, hid.symm⟩, rfl⟩
      · rw [hg] at h
        simp at h
  · rw [hf] at h
    simp at h

/-- C10 as stated fails: chat 1 exists and was created by user 1, and the delete requested
by user 2 is answered 404, not 403, when the creator lookup fails: on a store whose
get-by-id on the chat table fails, and on a store where the creator has no user row. -/
theorem DeleteChat_non_creator_not_found :
    db2.chats = [⟨1, "general", true, 1⟩] ∧
    (ChatHandler.DeleteChat noChatGet ⟨db2, 0⟩ 2 (some 1)).1 =
      ⟨404, .error "chat not found"⟩ ∧
    db3.chats = [⟨1, "general", true, 1⟩] ∧
    (ChatHandler.DeleteChat reliable ⟨db3, 0⟩ 2 (some 1)).1 =
      ⟨404, .error "chat not found"⟩ :=
  ⟨rfl, rfl, rfl, rfl⟩

/-- C10, amended: when the creator lookup succeeds the chat exists and the user it returns
is the chat's creator; a caller who is not that user is answered 403 and the tables are
left as they were; the chat record is removed if and only if the caller is the creator and
the delete does not fail (answered 204; 500 with the tables unchanged when it fails).
When the creator lookup fails the answer is 404 and the tables are left as they were. -/
theorem DeleteChat_creator_only (env : Env) (w : World) (userID chatID : Int) :
    (∀ creator, (ChatService.GetChatCreator env w chatID).1 = .ok creator →
      (∃ c ∈ w.db.chats, c.id = chatID ∧ c.creatorID = creator.id) ∧
      (creator.id ≠ userID →
        (ChatHandler.DeleteChat env w userID (some chatID)).1.status = StatusForbidden ∧
        (ChatHandler.DeleteChat env w userID (some chatID)).2.db = w.db) ∧
      ((∀ c ∈ (ChatHandler.DeleteChat env w userID (some chatID)).2.db.chats, c.id ≠ chatID) ↔
        creator.id = userID ∧ env.fails (w.tick + 2) (.chatDelete chatID) = false) ∧
      (creator.id = userID → env.fails (w.tick + 2) (.chatDelete chatID) = false →
        (ChatHandler.DeleteChat env w userID (some chatID)).1.status = StatusNoContent) ∧
      (creator.id = userID → env.fails (w.tick + 2) (.chatDelete chatID) = true →
        (ChatHandler.DeleteChat env w userID (some chatID)).1.status =
          StatusInternalServerError ∧
        (ChatHandler.DeleteChat env w userID (some chatID)).2.db = w.db)) ∧
    (∀ e, (ChatService.GetChatCreator env w chatID).1 = .error e →
      (ChatHandler.DeleteChat env w userID (some chatID)).1.status = StatusNotFound ∧
      (ChatHandler.DeleteChat env w userID (some chatID)).2.db = w.db) := by
  constructor
  · intro creator hlook
    obtain ⟨⟨c, hc, hcid, hcre⟩, hrun⟩ := GetChatCreator_ok_inv env w chatID creator hlook
    have hany : w.next.next.db.chats.any (fun c => c.id = chatID) = true := by
      simp only [World.next_db]
      exact List.any_eq_true.mpr ⟨c, hc, by simp [hcid]⟩
    have hstill : ¬ ∀ c ∈ w.db.chats, c.id ≠ chatID := fun h => h c hc hcid
    have hfail : env.fails (w.tick + 2) (.chatDelete chatID) = true →
        ChatService.DeleteChat env w.next.next chatID =
          (.error ⟨"failed to delete chat", some .storage⟩, w.next.next.next) := by
      intro hd
      unfold ChatService.DeleteChat
      rw [Store.chatDelete_fail env w.next.next chatID hd]
      rfl
    have hok : env.fails (w.tick + 2) (.chatDelete chatID) = false →
        ChatService.DeleteChat env w.next.next chatID =
          (.ok (),
            w.next.next.put { w.db with
              chats := w.db.chats.filter (fun c => ¬ c.id = chatID)
              members := w.db.members.filter (fun m => ¬ m.chatID = chatID) }) := by
      intro hd
      unfold ChatService.DeleteChat
      rw [Store.chatDelete_ok env w.next.next chatID hd hany]
      rfl
    refine ⟨⟨c, hc, hcid, hcre⟩, ?_, ?_, ?_, ?_⟩
    · intro hne
      simp [ChatHandler.DeleteChat, hrun, hne]
    · by_cases hu : creator.id = userID
      · cases hd : env.fails (w.tick + 2) (.chatDelete chatID)
        · simp [ChatHandler.DeleteChat, hrun, hu, hok hd]
        · simp only [ChatHandler.DeleteChat, hrun, hu, hfail hd]
          simpa using hstill
      · simp only [ChatHandler.DeleteChat, hrun]
        simpa [hu] using hstill
    · intro hu hd
      simp [ChatHandler.DeleteChat, hrun, hu, hok hd]
    · intro hu hd
      simp [ChatHandler.DeleteChat, hrun, hu, hfail hd]
  · intro e he
    have hdb := GetChatCreator_db env w chatID
    have hpair : ChatService.GetChatCreator env w chatID =
        (.error e, (ChatService.GetChatCreator env w chatID).2) := Prod.ext he rfl
    unfold ChatHandler.DeleteChat
    simp only
    rw [hpair]
    exact ⟨rfl, hdb⟩

/-- C10, amended, on a store where user 2 is an admin of chat 1 but not its creator: the
creator lookup succeeds, the delete requested by user 2 is answered 403 and changes
nothing. -/
theorem DeleteChat_creator_only_witness :
    (ChatService.GetChatCreator reliable ⟨db2, 0⟩ 1).1 = .ok ⟨1, "alice", "h1", "Alice"⟩ ∧
    (ChatService.IsUserAdminOfChat reliable ⟨db2, 0⟩ 1 2).1 = .ok true ∧
    (ChatHandler.DeleteChat reliable ⟨db2, 0⟩ 2 (some 1)).1.status = 403 ∧
    (ChatHandler.DeleteChat reliable ⟨db2, 0⟩ 2 (some 1)).2.db = db2 :=
  ⟨rfl, rfl,
    ((DeleteChat_creator_only reliable ⟨db2, 0⟩ 2 1).1 ⟨1, "alice", "h1", "Alice"⟩ rfl).2.1
      (by decide)⟩

/-! ## The message handlers -/

theorem IsUserSenderOfMessage_ok (env : Env) (w : World) (messageID userID : Int)
    (hq : env.fails w.tick (.messageExist messageID userID) = false) :
    MessageService.IsUserSenderOfMessage env w messageID userID =
      (.ok (w.db.messages.any (fun m => m.id = messageID ∧ m.senderID = userID)), w.next) := by
  unfold MessageService.IsUserSenderOfMessage Store.messageExist
  rw [if_neg (by simp [hq])]

theorem IsUserSenderOfMessage_fail (env : Env) (w : World) (messageID userID : Int)
    (hq : env.fails w.tick (.messageExist messageID userID) = true) :
    MessageService.IsUserSenderOfMessage env w messageID userID =
      (.error ⟨"failed to check sender", some .storage⟩, w.next) := by
  unfold MessageService.IsUserSenderOfMessage Store.messageExist
  rw [if_pos hq]

theorem IsUserSenderOfMessage_eq (env : Env) (w : World) (messageID userID : Int) (b : Bool)
    (h : (MessageService.IsUserSenderOfMessage env w messageID userID).1 = .ok b) :
    MessageService.IsUserSenderOfMessage env w messageID userID = (.ok b, w.next) :=
  Prod.ext h (IsUserSenderOfMessage_snd env w messageID userID)

/-- C11 as stated fails.  User 1 is not the sender of message 1 (the sender query answers
false), and the edit of message 1 requested by user 1 with an invalid body is answered 400,
not 403.  Message 1 exists and its sender is user 2, and on a store whose existence query on
the message table fails `IsUserSenderOfMessage` for user 2 is not true: it returns an
error. -/
theorem UpdateMessage_non_sender_bad_request :
    (MessageService.IsUserSenderOfMessage reliable ⟨db1, 0⟩ 1 1).1 = .ok false ∧
    (MessageHandler.UpdateMessage reliable ⟨db1, 0⟩ 1 (some 1) none).1 =
      some ⟨400, .invalid⟩ ∧
    db1.messages = [⟨1, 1, 2, "hi"⟩] ∧
    (MessageService.IsUserSenderOfMessage noMessageExist ⟨db1, 0⟩ 1 2).1 =
      .error ⟨"failed to check sender", some .storage⟩ :=
  ⟨rfl, rfl, rfl, rfl⟩

/-- C11, amended: when `IsUserSenderOfMessage` answers false for the caller and the message,
`UpdateMessage` with a valid body and `DeleteMessage` respond 403 Forbidden and leave every
table as it was; `UpdateMessage` with an invalid body responds 400 before the sender check
and changes nothing.  When the sender query does not fail, `IsUserSenderOfMessage` returns
`(true, nil)` exactly when a message with the identifier exists and its sender is the user;
when it fails, `IsUserSenderOfMessage` returns an error and both handlers respond 500 and
leave every table as it was. -/
theorem non_sender_forbidden (env : Env) (w : World) (userID messageID : Int)
    (editReq : UpdateMessageRequest) :
    ((MessageService.IsUserSenderOfMessage env w messageID userID).1 = .ok false →
      ((MessageHandler.UpdateMessage env w userID (some messageID) (some editReq)).1 =
          some ⟨StatusForbidden, .error "you can only edit your own messages"⟩ ∧
        (MessageHandler.UpdateMessage env w userID (some messageID) (some editReq)).2.db =
          w.db) ∧
      ((MessageHandler.DeleteMessage env w userID (some messageID)).1 =
          ⟨StatusForbidden, .error "you can only delete your own messages"⟩ ∧
        (MessageHandler.DeleteMessage env w userID (some messageID)).2.db = w.db)) ∧
    MessageHandler.UpdateMessage env w userID (some messageID) none =
      (some ⟨StatusBadRequest, .invalid⟩, w) ∧
    (env.fails w.tick (.messageExist messageID userID) = false →
      ((MessageService.IsUserSenderOfMessage env w messageID userID).1 = .ok true ↔
        ∃ m ∈ w.db.messages, m.id = messageID ∧ m.senderID = userID)) ∧
    (env.fails w.tick (.messageExist messageID userID) = true →
      (MessageService.IsUserSenderOfMessage env w messageID userID).1 =
        .error ⟨"failed to check sender", some .storage⟩ ∧
      ((MessageHandler.UpdateMessage env w userID (some messageID) (some editReq)).1 =
          some ⟨StatusInternalServerError, .error "failed to check message ownership"⟩ ∧
        (MessageHandler.UpdateMessage env w userID (some messageID) (some editReq)).2.db =
          w.db) ∧
      ((MessageHandler.DeleteMessage env w userID (some messageID)).1 =
          ⟨StatusInternalServerError, .error "failed to check message ownership"⟩ ∧
        (MessageHandler.DeleteMessage env w userID (some messageID)).2.db = w.db)) := by
  refine ⟨?_, rfl, ?_, ?_⟩
  · intro h
    have hs := IsUserSenderOfMessage_eq env w messageID userID false h
    constructor
    · simp [MessageHandler.UpdateMessage, hs]
    · simp [MessageHandler.DeleteMessage, hs]
  · intro hq
    rw [IsUserSenderOfMessage_ok env w messageID userID hq]
    simp [List.any_eq_true]
  · intro hq
    have hs := IsUserSenderOfMessage_fail env w messageID userID hq
    refine ⟨by rw [hs], ?_, ?_⟩
    · simp [MessageHandler.UpdateMessage, hs]
    · simp [MessageHandler.DeleteMessage, hs]

/-- C11, amended, on a store where message 1 was sent by user 2: the sender query for user 1
answers false, and the edit (with a valid body) and the delete requested by user 1 are
answered 403 and change nothing. -/
theorem non_sender_forbidden_witness :
    (MessageService.IsUserSenderOfMessage reliable ⟨db1, 0⟩ 1 1).1 = .ok false ∧
    ((MessageHandler.UpdateMessage reliable ⟨db1, 0⟩ 1 (some 1) (some ⟨"edited"⟩)).1 =
        some ⟨403, .error "you can only edit your own messages"⟩ ∧
      (MessageHandler.UpdateMessage reliable ⟨db1, 0⟩ 1 (some 1) (some ⟨"edited"⟩)).2.db =
        db1) ∧
    ((MessageHandler.DeleteMessage reliable ⟨db1, 0⟩ 1 (some 1)).1 =
        ⟨403, .error "you can only delete your own messages"⟩ ∧
      (MessageHandler.DeleteMessage reliable ⟨db1, 0⟩ 1 (some 1)).2.db = db1) :=
  ⟨rfl, (non_sender_forbidden reliable ⟨db1, 0⟩ 1 1 ⟨"edited"⟩).1 rfl⟩

theorem IsUserMemberOfChat_ok (env : Env) (w : World) (chatID userID : Int)
    (hq : env.fails w.tick (.memberExist chatID userID) = false) :
    ChatService.IsUserMemberOfChat env w chatID userID =
      (.ok (!(w.db.membersOf chatID userID).isEmpty), w.next) := by
  unfold ChatService.IsUserMemberOfChat Store.memberExist
  rw [if_neg (by simp [hq])]

theorem IsUserMemberOfChat_fail (env : Env) (w : World) (chatID userID : Int)
    (hq : env.fails w.tick (.memberExist chatID userID) = true) :
    ChatService.IsUserMemberOfChat env w chatID userID =
      (.error ⟨"failed to check membership", some .storage⟩, w.next) := by
  unfold ChatService.IsUserMemberOfChat Store.memberExist
  rw [if_pos hq]

theorem IsUserMemberOfChat_eq (env : Env) (w : World) (chatID userID : Int) (b : Bool)
    (h : (ChatService.IsUserMemberOfChat env w chatID userID).1 = .ok b) :
    ChatService.IsUserMemberOfChat env w chatID userID = (.ok b, w.next) :=
  Prod.ext h (IsUserMemberOfChat_snd env w chatID userID)

theorem membersOf_isEmpty_iff (db : DB) (chatID userID : Int) :
    (!(db.membersOf chatID userID).isEmpty) = true ↔
      ∃ m ∈ db.members, m.chatID = chatID ∧ m.userID = userID := by
  unfold DB.membersOf
  cases h : db.members.filter (fun m => m.chatID = chatID ∧ m.userID = userID) with
  | nil =>
    simp only [List.isEmpty_nil, Bool.not_true, Bool.false_eq_true, false_iff]
    rintro ⟨m, hm, hp⟩
    have := List.filter_eq_nil_iff.mp h m hm
    simp [hp.1, hp.2] at this
  | cons a rest =>
    simp only [List.isEmpty_cons, Bool.not_false, true_iff]
    have ha : a ∈ db.members.filter (fun m => m.chatID = chatID ∧ m.userID = userID) := by
      rw [h]; simp
    have := List.mem_filter.mp ha
    exact ⟨a, this.1, by simpa using this.2⟩

/-- C12 as stated fails.  No membership record relates user 3 to chat 1, and on a store whose
existence query on the membership table fails the read of chat 1 requested by user 3 is
answered 500, not 403.  User 2 has a membership record for chat 1, and on that store
`IsUserMemberOfChat` for user 2 does not return true: it returns an error. -/
theorem GetChat_non_member_internal_error :
    db1.membersOf 1 3 = [] ∧
    (ChatHandler.GetChat noMemberExist ⟨db1, 0⟩ 3 (some 1)).1 =
      ⟨500, .error "failed to check membership"⟩ ∧
    db1.membersOf 1 2 = [⟨2, 1, 2, false⟩] ∧
    (ChatService.IsUserMemberOfChat noMemberExist ⟨db1, 0⟩ 1 2).1 =
      .error ⟨"failed to check membership", some .storage⟩ :=
  ⟨by decide, rfl, by decide, rfl⟩

/-- C12, amended: when no membership record relates the caller to the chat, `GetChat` and
`ListMessages` respond 403 Forbidden if the membership query does not fail and 500 if it
fails; in both cases the body is an error message only (no chat details, members or
messages) and the tables are left as they were.  When the membership query does not fail,
`IsUserMemberOfChat` returns `(true, nil)` exactly when at least one membership record for
the chat and the user exists. -/
theorem non_member_no_disclosure (env : Env) (w : World) (userID chatID limit offset : Int) :
    ((∀ m ∈ w.db.members, ¬ (m.chatID = chatID ∧ m.userID = userID)) →
      (env.fails w.tick (.memberExist chatID userID) = false →
        ChatHandler.GetChat env w userID (some chatID) =
          (⟨StatusForbidden, .error "you are not a member of this chat"⟩, w.next) ∧
        MessageHandler.ListMessages env w userID (some chatID) limit offset =
          (⟨StatusForbidden, .error "you are not a member of this chat"⟩, w.next)) ∧
      (env.fails w.tick (.memberExist chatID userID) = true →
        ChatHandler.GetChat env w userID (some chatID) =
          (⟨StatusInternalServerError, .error "failed to check membership"⟩, w.next) ∧
        MessageHandler.ListMessages env w userID (some chatID) limit offset =
          (⟨StatusInternalServerError, .error "failed to check membership"⟩, w.next))) ∧
    (env.fails w.tick (.memberExist chatID userID) = false →
      ((ChatService.IsUserMemberOfChat env w chatID userID).1 = .ok true ↔
        ∃ m ∈ w.db.members, m.chatID = chatID ∧ m.userID = userID)) := by
  constructor
  · intro hno
    constructor
    · intro hq
      have hm := IsUserMemberOfChat_no_record env w chatID userID hq hno
      constructor
      · simp [ChatHandler.GetChat, hm]
      · simp [MessageHandler.ListMessages, hm]
    · intro hq
      have hm := IsUserMemberOfChat_fail env w chatID userID hq
      constructor
      · simp [ChatHandler.GetChat, hm]
      · simp [MessageHandler.ListMessages, hm]
  · intro hq
    rw [IsUserMemberOfChat_ok env w chatID userID hq]
    simp only [Except.ok.injEq]
    exact membersOf_isEmpty_iff w.db chatID userID

/-- C12, amended, on a store where user 3 has no membership record for chat 1: reading
chat 1 and listing its messages are answered 403 with an error message only. -/
theorem non_member_no_disclosure_witness :
    ChatHandler.GetChat reliable ⟨db1, 0⟩ 3 (some 1) =
      (⟨403, .error "you are not a member of this chat"⟩, ⟨db1, 1⟩) ∧
    MessageHandler.ListMessages reliable ⟨db1, 0⟩ 3 (some 1) 50 0 =
      (⟨403, .error "you are not a member of this chat"⟩, ⟨db1, 1⟩) :=
  ((non_member_no_disclosure reliable ⟨db1, 0⟩ 3 1 50 0).1 (by decide)).1 rfl

theorem GetMessageByID_chat_edge (env : Env) (w : World) (messageID : Int) (msg : MessageEnt)
    (h : (MessageService.GetMessageByID env w messageID).1 = .ok msg) :
    msg.chat = none ∧ MessageHandler.chatIDOf msg 0 = 0 := by
  have hc : msg.chat = none := by
    unfold MessageService.GetMessageByID Store.messageOnly at h
    cases hf : env.fails w.tick (.messageOnly messageID)
    · rw [hf] at h
      simp only [Bool.false_eq_true, if_false] at h
      cases ho : only (w.db.messages.filter (fun m => m.id = messageID)) with
      | error e =>
        rw [ho] at h
        simp only at h
        split at h <;> simp at h
      | ok m =>
        rw [ho] at h
        simp only [Except.ok.injEq] at h
        rw [← h]
    · rw [hf] at h
      simp at h
  exact ⟨hc, by simp [MessageHandler.chatIDOf, hc]⟩

/-- C19, the failing input: message 1 belongs to chat 1 and user 2 has a membership record
for chat 1 (`IsUserMemberOfChat` answers true for chat 1), but `GetMessageByID` returns the
message with a nil chat edge, so `GetMessage` passes the chat identifier 0 to
`IsUserMemberOfChat` and answers 403 Forbidden to user 2. -/
theorem GetMessage_member_forbidden :
    db1.messages = [⟨1, 1, 2, "hi"⟩] ∧
    (ChatService.IsUserMemberOfChat reliable ⟨db1, 0⟩ 1 2).1 = .ok true ∧
    (MessageService.GetMessageByID reliable ⟨db1, 0⟩ 1).1 =
      .ok ⟨⟨1, 1, 2, "hi"⟩, some ⟨2, "bob", "h2", "Bob"⟩, none⟩ ∧
    (ChatService.IsUserMemberOfChat reliable ⟨db1, 1⟩ 0 2).1 = .ok false ∧
    (MessageHandler.GetMessage reliable ⟨db1, 0⟩ 2 (some 1)).1 =
      ⟨403, .error "you are not a member of this chat"⟩ :=
  ⟨rfl, rfl, rfl, rfl, rfl⟩

theorem GetMessage_forbidden (env : Env) (w : World) (userID messageID : Int)
    (msg : MessageEnt)
    (hmsg : (MessageService.GetMessageByID env w messageID).1 = .ok msg)
    (hq : env.fails (MessageService.GetMessageByID env w messageID).2.tick
      (.memberExist 0 userID) = false)
    (hzero : ∀ m ∈ w.db.members, ¬ (m.chatID = 0 ∧ m.userID = userID)) :
    (MessageHandler.GetMessage env w userID (some messageID)).1 =
      ⟨StatusForbidden, .error "you are not a member of this chat"⟩ := by
  have hedge := (GetMessageByID_chat_edge env w messageID msg hmsg).2
  have hdb : (MessageService.GetMessageByID env w messageID).2.db = w.db := by
    unfold MessageService.GetMessageByID Store.messageOnly
    cases env.fails w.tick (.messageOnly messageID)
    · simp only [Bool.false_eq_true, if_false]
      cases only (w.db.messages.filter (fun m => m.id = messageID)) with
      | error e => simp only; split <;> rfl
      | ok m => rfl
    · simp
  have hpair : MessageService.GetMessageByID env w messageID =
      (.ok msg, (MessageService.GetMessageByID env w messageID).2) := Prod.ext hmsg rfl
  have hm := IsUserMemberOfChat_no_record env
    (MessageService.GetMessageByID env w messageID).2 0 userID hq (by rw [hdb]; exact hzero)
  unfold MessageHandler.GetMessage
  simp only
  rw [hpair]
  simp only [hedge]
  rw [hm]
  rfl

/-! ## Sending a message -/

/-- C20: for a request with chat `chatID` and content `content` from caller `userID`: if
`IsUserMemberOfChat` answers false the response is 403, if the membership query fails the
response is 500, and in both cases the tables are left as they were.  The tables change only
if `IsUserMemberOfChat` answered true, and then exactly one message is added, with that
chat, the caller as sender and that content, and the response is 201. -/
theorem SendMessage_members_only (env : Env) (w : World) (userID chatID : Int)
    (content : String) :
    ((ChatService.IsUserMemberOfChat env w chatID userID).1 = .ok false →
      MessageHandler.SendMessage env w userID (some ⟨chatID, content⟩) =
        (⟨StatusForbidden, .error "you are not a member of this chat"⟩, w.next)) ∧
    (∀ e, (ChatService.IsUserMemberOfChat env w chatID userID).1 = .error e →
      MessageHandler.SendMessage env w userID (some ⟨chatID, content⟩) =
        (⟨StatusInternalServerError, .error "failed to check membership"⟩, w.next)) ∧
    ((MessageHandler.SendMessage env w userID (some ⟨chatID, content⟩)).2.db = w.db ∨
      ((ChatService.IsUserMemberOfChat env w chatID userID).1 = .ok true ∧
        (MessageHandler.SendMessage env w userID (some ⟨chatID, content⟩)).1.status =
          StatusCreated ∧
        (MessageHandler.SendMessage env w userID (some ⟨chatID, content⟩)).2.db =
          { w.db with
            messages := w.db.messages ++
              [⟨freshID (w.db.messages.map (·.id)), chatID, userID, content⟩] })) := by
  have hsnd := IsUserMemberOfChat_snd env w chatID userID
  cases hr : (ChatService.IsUserMemberOfChat env w chatID userID).1 with
  | error e =>
    have hpair : ChatService.IsUserMemberOfChat env w chatID userID = (.error e, w.next) :=
      Prod.ext hr hsnd
    refine ⟨fun h => (by cases h), fun e' _ => ?_, Or.inl ?_⟩
    · simp [MessageHandler.SendMessage, hpair]
    · simp [MessageHandler.SendMessage, hpair]
  | ok b =>
    have hpair : ChatService.IsUserMemberOfChat env w chatID userID = (.ok b, w.next) :=
      Prod.ext hr hsnd
    cases b
    · refine ⟨fun _ => ?_, fun e h => (by cases h), Or.inl ?_⟩
      · simp [MessageHandler.SendMessage, hpair]
      · simp [MessageHandler.SendMessage, hpair]
    · refine ⟨fun h => (by cases h), fun e h => (by cases h), ?_⟩
      cases hf : env.fails (w.tick + 1) (.messageCreate chatID userID)
      · right
        refine ⟨rfl, ?_, ?_⟩
        · simp [MessageHandler.SendMessage, hpair, MessageService.SendMessage,
            Store.messageCreate, hf]
        · simp [MessageHandler.SendMessage, hpair, MessageService.SendMessage,
            Store.messageCreate, hf]
      · left
        simp [MessageHandler.SendMessage, hpair, MessageService.SendMessage,
          Store.messageCreate, hf]

/-- C20 on a store where user 2 is a member of chat 1 and user 3 is not: the message of
user 3 is answered 403 and nothing is stored; the message of user 2 is stored. -/
theorem SendMessage_members_only_witness :
    MessageHandler.SendMessage reliable ⟨db1, 0⟩ 3 (some ⟨1, "hello"⟩) =
      (⟨403, .error "you are not a member of this chat"⟩, ⟨db1, 1⟩) ∧
    (MessageHandler.SendMessage reliable ⟨db1, 0⟩ 2 (some ⟨1, "hello"⟩)).2.db.messages =
      [⟨1, 1, 2, "hi"⟩, ⟨2, 1, 2, "hello"⟩] :=
  ⟨(SendMessage_members_only reliable ⟨db1, 0⟩ 3 1 "hello").1 rfl, rfl⟩

/-! ## The user handlers -/

/-- C13: when the caller identity differs from the target identifier, `UpdateUser` and
`DeleteUser` respond 403 Forbidden, whatever the request body, and the world is the one
before the call: no storage call is issued, so no user record is updated or deleted.  The
world changes only when the caller is the target, and then it is the world that the user
service leaves when called with the target identifier (and the fields of the body). -/
theorem own_profile_only (env : Env) (w : World) (auth : Service) (rand : Option Bytes)
    (userID id : Int) (body : Option UpdateUserRequest) :
    (userID ≠ id →
      UserHandler.UpdateUser env w auth rand userID (some id) body =
        (⟨StatusForbidden, .error "you can only update your own profile"⟩, w) ∧
      UserHandler.DeleteUser env w userID (some id) =
        (⟨StatusForbidden, .error "you can only delete your own profile"⟩, w)) ∧
    ((UserHandler.UpdateUser env w auth rand userID (some id) body).2 ≠ w →
      userID = id ∧
      ∃ req, body = some req ∧
        (UserHandler.UpdateUser env w auth rand userID (some id) body).2 =
          (UserService.UpdateUser env w auth rand id req.displayName req.password).2) ∧
    ((UserHandler.DeleteUser env w userID (some id)).2 ≠ w →
      userID = id ∧
      (UserHandler.DeleteUser env w userID (some id)).2 = (UserService.DeleteUser env w id).2) := by
  refine ⟨?_, ?_, ?_⟩
  · intro hne
    constructor
    · simp [UserHandler.UpdateUser, hne]
    · simp [UserHandler.DeleteUser, hne]
  · intro hch
    by_cases hu : userID = id
    · refine ⟨hu, ?_⟩
      cases body with
      | none => simp [UserHandler.UpdateUser, hu] at hch
      | some req =>
        refine ⟨req, rfl, ?_⟩
        by_cases hp : req.password ≠ "" ∧ req.password.utf8ByteSize < 6
        · simp [UserHandler.UpdateUser, hu, hp] at hch
        · unfold UserHandler.UpdateUser
          simp only [hu, ne_eq, not_true_eq_false, if_false, hp]
          split <;> rename_i heq <;> rw [heq]
    · simp [UserHandler.UpdateUser, hu] at hch
  · intro hch
    by_cases hu : userID = id
    · refine ⟨hu, ?_⟩
      unfold UserHandler.DeleteUser
      simp only [hu, ne_eq, not_true_eq_false, if_false]
      split <;> rename_i heq <;> rw [heq]
    · simp [UserHandler.DeleteUser, hu] at hch

/-- C13 for caller 2 and target 1 on a store with both users: the update (with a body that
would rename the user and set a password) and the delete are answered 403, and the world is
unchanged. -/
theorem own_profile_only_witness :
    UserHandler.UpdateUser reliable ⟨db1, 0⟩ ⟨⟨[]⟩, 0⟩ (some [1, 2, 3]) 2 (some 1)
        (some ⟨"Mallory", "secret1"⟩) =
      (⟨403, .error "you can only update your own profile"⟩, ⟨db1, 0⟩) ∧
    UserHandler.DeleteUser reliable ⟨db1, 0⟩ 2 (some 1) =
      (⟨403, .error "you can only delete your own profile"⟩, ⟨db1, 0⟩) :=
  (own_profile_only reliable ⟨db1, 0⟩ ⟨⟨[]⟩, 0⟩ (some [1, 2, 3]) 2 1
    (some ⟨"Mallory", "secret1"⟩)).1 (by decide)

/-! ## The token service -/

theorem RFC3339_le (t : Int) : RFC3339 t ≤ t := by
  unfold RFC3339 Second
  omega

theorem lt_RFC3339_add (t : Int) : t < RFC3339 t + Second := by
  unfold RFC3339 Second
  omega

theorem RFC3339_eq_iff (t : Int) : RFC3339 t = t ↔ t % Second = 0 := by
  unfold RFC3339
  omega

theorem CreateToken_eq (s : Service) (now userID : Int) (username : String) :
    s.CreateToken now userID username =
      .ok (.v4local s.symmetricKey (issuedToken now s.tokenExpiration userID username)) := by
  simp [Service.CreateToken, jsonMarshal, Token.V4Encrypt, Token.SetString,
    Token.SetExpiration, Token.SetNotBefore, Token.SetIssuedAt, Token.SetTime, Token.NewToken,
    Token.set, issuedToken]

theorem issuedToken_exp (now lifetime userID : Int) (username : String) :
    (issuedToken now lifetime userID username).GetExpiration =
      .ok (RFC3339 (now + lifetime)) := by
  simp [issuedToken, Token.GetExpiration, Token.get]

theorem issuedToken_data (now lifetime userID : Int) (username : String) :
    (issuedToken now lifetime userID username).GetString "data" =
      .ok (.payload ⟨userID, username, now, now + lifetime⟩) := by
  simp [issuedToken, Token.GetString, Token.get]

theorem VerifyToken_issued (verifier : Service) (key : V4SymmetricKey)
    (now lifetime t userID : Int) (username : String) :
    verifier.VerifyToken t (.v4local key (issuedToken now lifetime userID username)) =
      if key = verifier.symmetricKey then
        if t > RFC3339 (now + lifetime) then .error ⟨"failed to verify token", .expired⟩
        else .ok ⟨userID, username, now, now + lifetime⟩
      else .error ⟨"failed to verify token", .invalidToken⟩ := by
  unfold Service.VerifyToken Parser.ParseV4Local
  simp only
  by_cases hk : key = verifier.symmetricKey
  · simp only [hk, if_true]
    by_cases ht : t > RFC3339 (now + lifetime)
    · simp [NewParser, Parser.AddRule, Parser.check, NotExpired, issuedToken_exp, ht]
    · simp [NewParser, Parser.AddRule, Parser.check, NotExpired, issuedToken_exp, ht,
        issuedToken_data, jsonUnmarshal]
  · simp [hk]

/-- C14, counterexample: a service with a lifetime of one hour issues a token half a second
after `T0`; the payload expires one hour and half a second after `T0`.  A quarter of a
second after `T0` plus one hour is between the instant of issue and the `ExpireAt` of the
payload, and `VerifyToken` under the same service rejects the token there as expired: the
expiration claim of the token holds whole seconds only. -/
theorem token_rejected_before_expiry :
    (NewAuthService goodKey 1 randomKey).CreateToken (T0 + 500000000) 7 "alice" =
      .ok (.v4local ⟨bytesOf goodKey⟩
        (issuedToken (T0 + 500000000) (60 * Minute) 7 "alice")) ∧
    (issuedToken (T0 + 500000000) (60 * Minute) 7 "alice").GetString "data" =
      .ok (.payload ⟨7, "alice", T0 + 500000000, T0 + 60 * Minute + 500000000⟩) ∧
    T0 + 500000000 ≤ T0 + 60 * Minute + 250000000 ∧
    T0 + 60 * Minute + 250000000 ≤ T0 + 60 * Minute + 500000000 ∧
    (NewAuthService goodKey 1 randomKey).VerifyToken (T0 + 60 * Minute + 250000000)
        (.v4local ⟨bytesOf goodKey⟩
          (issuedToken (T0 + 500000000) (60 * Minute) 7 "alice")) =
      .error ⟨"failed to verify token", .expired⟩ := by
  decide

/-- C14, amended: for every service, user identifier and username, a token issued at the
instant `now` and verified under the same service at an instant `t` with `now ≤ t` and `t`
not after the whole second of the expiry (the expiration the token carries) is accepted:
`CreateToken` returns a token and `VerifyToken` returns, with no error, the payload with
that user identifier and username, issued at `now` and expiring at `now` plus the lifetime,
so that `IssuedAt ≤ t ≤ ExpireAt`.  At every instant after the whole second of `ExpireAt`
the token is rejected as expired. -/
theorem token_round_trip (s : Service) (now t userID : Int) (username : String)
    (hge : now ≤ t) (hle : t ≤ RFC3339 (now + s.tokenExpiration)) :
    ∃ tokenString payload,
      s.CreateToken now userID username = .ok tokenString ∧
      s.VerifyToken t tokenString = .ok payload ∧
      payload.UserID = userID ∧ payload.Username = username ∧
      payload.IssuedAt = now ∧ payload.ExpireAt = now + s.tokenExpiration ∧
      payload.IssuedAt ≤ t ∧ t ≤ payload.ExpireAt ∧
      ∀ late, RFC3339 payload.ExpireAt < late →
        s.VerifyToken late tokenString = .error ⟨"failed to verify token", .expired⟩ := by
  refine ⟨_, ⟨userID, username, now, now + s.tokenExpiration⟩,
    CreateToken_eq s now userID username, ?_, rfl, rfl, rfl, rfl, hge,
    le_trans hle (RFC3339_le _), ?_⟩
  · rw [VerifyToken_issued]
    simp [not_lt.mpr hle]
  · intro late hlate
    rw [VerifyToken_issued]
    simp [hlate]

/-- C14, amended, for a service with a lifetime of one hour and a token issued for user 7
half a second after `T0`: the token is accepted at `T0` plus one hour, the whole second of
its expiry, and rejected one nanosecond later. -/
theorem token_round_trip_witness :
    (NewAuthService goodKey 1 randomKey).tokenExpiration = 60 * Minute ∧
    RFC3339 (T0 + 500000000 + 60 * Minute) = T0 + 60 * Minute ∧
    ∃ tokenString payload,
      (NewAuthService goodKey 1 randomKey).CreateToken (T0 + 500000000) 7 "alice" =
        .ok tokenString ∧
      (NewAuthService goodKey 1 randomKey).VerifyToken (T0 + 60 * Minute) tokenString =
        .ok payload ∧
      payload.UserID = 7 ∧ payload.Username = "alice" ∧
      payload.IssuedAt = T0 + 500000000 ∧
      payload.ExpireAt =
        T0 + 500000000 + (NewAuthService goodKey 1 randomKey).tokenExpiration ∧
      payload.IssuedAt ≤ T0 + 60 * Minute ∧ T0 + 60 * Minute ≤ payload.ExpireAt ∧
      ∀ late, RFC3339 payload.ExpireAt < late →
        (NewAuthService goodKey 1 randomKey).VerifyToken late tokenString =
          .error ⟨"failed to verify token", .expired⟩ :=
  ⟨by decide, by decide,
    token_round_trip (NewAuthService goodKey 1 randomKey) (T0 + 500000000) (T0 + 60 * Minute)
      7 "alice" (by decide) (by decide)⟩

/-- C15: a token produced by `CreateToken` and verified at an instant strictly after the
`ExpireAt` of its payload is rejected: under the issuing service `VerifyToken` returns the
error that wraps the expiry and no payload, and under every service it returns an error. -/
theorem expired_token_rejected (s : Service) (now t userID : Int) (username : String)
    (tokenString : TokenString)
    (hissue : s.CreateToken now userID username = .ok tokenString)
    (hlate : t > now + s.tokenExpiration) :
    s.VerifyToken t tokenString = .error ⟨"failed to verify token", .expired⟩ ∧
    ∀ verifier : Service, ∃ e, verifier.VerifyToken t tokenString = .error e := by
  rw [CreateToken_eq] at hissue
  have htok : tokenString =
      .v4local s.symmetricKey (issuedToken now s.tokenExpiration userID username) := by
    simpa using hissue.symm
  subst htok
  have hlate2 : t > RFC3339 (now + s.tokenExpiration) :=
    lt_of_le_of_lt (RFC3339_le _) hlate
  constructor
  · rw [VerifyToken_issued]
    simp [hlate2]
  · intro verifier
    rw [VerifyToken_issued]
    by_cases hk : s.symmetricKey = verifier.symmetricKey
    · exact ⟨⟨"failed to verify token", .expired⟩, by simp [hk, hlate2]⟩
    · exact ⟨⟨"failed to verify token", .invalidToken⟩, by simp [hk]⟩

/-- C15, the scenario of the spec: with a lifetime of one hour, a token issued at `T0` is
accepted at `T0` plus 30 minutes and rejected as expired at `T0` plus 61 minutes. -/
theorem expired_token_rejected_witness :
    (NewAuthService goodKey 1 randomKey).VerifyToken (T0 + 30 * Minute)
        (.v4local ⟨bytesOf goodKey⟩ (issuedToken T0 (60 * Minute) 7 "alice")) =
      .ok ⟨7, "alice", T0, T0 + 60 * Minute⟩ ∧
    (NewAuthService goodKey 1 randomKey).VerifyToken (T0 + 61 * Minute)
        (.v4local ⟨bytesOf goodKey⟩ (issuedToken T0 (60 * Minute) 7 "alice")) =
      .error ⟨"failed to verify token", .expired⟩ :=
  ⟨by decide,
    (expired_token_rejected (NewAuthService goodKey 1 randomKey) T0 (T0 + 61 * Minute) 7
      "alice" (.v4local ⟨bytesOf goodKey⟩ (issuedToken T0 (60 * Minute) 7 "alice"))
      (by decide) (by decide)).1⟩

theorem wrapInt64_eq (x : Int) (hlo : -9223372036854775808 ≤ x)
    (hhi : x ≤ 9223372036854775807) : wrapInt64 x = x := by
  unfold wrapInt64
  norm_num
  omega

/-- C16 as stated fails: for 2 562 048 hours the stored lifetime is not the product
2 562 048 × 3600 × 10^9 nanoseconds: the 64-bit multiplication wraps around to a negative
duration, and a token issued then expires before it is issued.  And with a lifetime of one
hour, a token issued half a second after `T0` has a payload that expires one hour and half a
second after `T0`, while the expiration of the token is `T0` plus one hour and its
not-before is `T0`: the time claims hold whole seconds. -/
theorem lifetime_wraps_around :
    (2562048 : Int) * 3600 * 10 ^ 9 = 9223372800000000000 ∧
    (NewAuthService goodKey 2562048 randomKey).tokenExpiration = -9223371273709551616 ∧
    (NewAuthService goodKey 2562048 randomKey).CreateToken T0 7 "alice" =
      .ok (.v4local ⟨bytesOf goodKey⟩
        (issuedToken T0 (-9223371273709551616) 7 "alice")) ∧
    T0 + -9223371273709551616 < T0 ∧
    (NewAuthService goodKey 1 randomKey).CreateToken (T0 + 500000000) 7 "alice" =
      .ok (.v4local ⟨bytesOf goodKey⟩
        (issuedToken (T0 + 500000000) (60 * Minute) 7 "alice")) ∧
    (issuedToken (T0 + 500000000) (60 * Minute) 7 "alice").GetString "data" =
      .ok (.payload ⟨7, "alice", T0 + 500000000, T0 + 60 * Minute + 500000000⟩) ∧
    (issuedToken (T0 + 500000000) (60 * Minute) 7 "alice").GetExpiration =
      .ok (T0 + 60 * Minute) ∧
    (issuedToken (T0 + 500000000) (60 * Minute) 7 "alice").get "nbf" = some (.time T0) :=
  ⟨by decide, by decide, by decide, by decide, by decide, by decide, by decide, by decide⟩

/-- C16, amended: for a lifetime between -2 562 047 and 2 562 047 hours the stored lifetime
is the number of hours times 3600 × 10^9 nanoseconds, and a token issued at the instant
`now` carries a payload with `IssuedAt = now` and `ExpireAt = now` plus that lifetime.  The
not-before and the expiration of the token are the whole seconds of the payload's `IssuedAt`
and `ExpireAt`: not after them, less than a second before them, and equal to them when
`now` is a whole second. -/
theorem lifetime_exact (pasetoKey : String) (expirationHours : Int) (fresh : V4SymmetricKey)
    (now userID : Int) (username : String)
    (hlo : -2562047 ≤ expirationHours) (hhi : expirationHours ≤ 2562047) :
    (NewAuthService pasetoKey expirationHours fresh).tokenExpiration =
      expirationHours * 3600 * 10 ^ 9 ∧
    ∃ token payload,
      (NewAuthService pasetoKey expirationHours fresh).CreateToken now userID username =
        .ok (.v4local (NewAuthService pasetoKey expirationHours fresh).symmetricKey token) ∧
      token.GetString "data" = .ok (.payload payload) ∧
      payload.IssuedAt = now ∧
      payload.ExpireAt = now + expirationHours * 3600 * 10 ^ 9 ∧
      token.get "nbf" = some (.time (RFC3339 payload.IssuedAt)) ∧
      token.GetExpiration = .ok (RFC3339 payload.ExpireAt) ∧
      (RFC3339 payload.IssuedAt ≤ payload.IssuedAt ∧
        payload.IssuedAt < RFC3339 payload.IssuedAt + Second) ∧
      (RFC3339 payload.ExpireAt ≤ payload.ExpireAt ∧
        payload.ExpireAt < RFC3339 payload.ExpireAt + Second) ∧
      (now % Second = 0 →
        token.get "nbf" = some (.time payload.IssuedAt) ∧
        token.GetExpiration = .ok payload.ExpireAt) := by
  have hexp : (NewAuthService pasetoKey expirationHours fresh).tokenExpiration =
      expirationHours * 3600 * 10 ^ 9 := by
    have h : wrapInt64 (expirationHours * Hour) = expirationHours * Hour :=
      wrapInt64_eq _ (by unfold Hour; omega) (by unfold Hour; omega)
    show wrapInt64 (expirationHours * Hour) = _
    rw [h]
    unfold Hour
    ring
  have hnbf : ∀ lifetime : Int,
      (issuedToken now lifetime userID username).get "nbf" = some (.time (RFC3339 now)) := by
    intro lifetime
    simp [issuedToken, Token.get]
  refine ⟨hexp, issuedToken now (expirationHours * 3600 * 10 ^ 9) userID username,
    ⟨userID, username, now, now + expirationHours * 3600 * 10 ^ 9⟩, ?_, ?_, rfl, rfl, ?_, ?_,
    ⟨RFC3339_le _, lt_RFC3339_add _⟩, ⟨RFC3339_le _, lt_RFC3339_add _⟩, ?_⟩
  · rw [CreateToken_eq, hexp]
  · exact issuedToken_data _ _ _ _
  · exact hnbf _
  · exact issuedToken_exp _ _ _ _
  · intro hwhole
    have h1 : RFC3339 now = now := (RFC3339_eq_iff now).mpr hwhole
    have h2 : RFC3339 (now + expirationHours * 3600 * 10 ^ 9) =
        now + expirationHours * 3600 * 10 ^ 9 := by
      apply (RFC3339_eq_iff _).mpr
      unfold Second at hwhole ⊢
      omega
    refine ⟨?_, ?_⟩
    · rw [hnbf, h1]
    · show (issuedToken now (expirationHours * 3600 * 10 ^ 9) userID username).GetExpiration = _
      rw [issuedToken_exp, h2]

/-- C16, amended, for 24 hours and a token issued half a second after `T0`: the stored
lifetime is 24 × 3600 × 10^9 nanoseconds, the payload holds the instant of issue and the
instant 24 hours later, and the not-before and the expiration of the token are `T0` and `T0`
plus 24 hours, half a second before them. -/
theorem lifetime_exact_witness :
    (NewAuthService goodKey 24 randomKey).tokenExpiration = 24 * 3600 * 10 ^ 9 ∧
    (NewAuthService goodKey 24 randomKey).CreateToken (T0 + 500000000) 7 "alice" =
      .ok (.v4local ⟨bytesOf goodKey⟩
        ⟨[("data", .text (.payload
            ⟨7, "alice", T0 + 500000000, T0 + 500000000 + 24 * 3600 * 10 ^ 9⟩)),
          ("exp", .time (T0 + 24 * 3600 * 10 ^ 9)), ("nbf", .time T0),
          ("iat", .time T0)]⟩) :=
  ⟨(lifetime_exact goodKey 24 randomKey (T0 + 500000000) 7 "alice" (by decide)
    (by decide)).1, by decide⟩

/-- C17: `NewAuthService` returns a service for every key string and lifetime.  When the
key string has exactly the byte length a V4 symmetric key requires, the key of the service
is those bytes, and any other service built from the same string verifies a token issued by
the first exactly as the first does, at every instant: it accepts the token, with the
payload that was issued, from the instant of issue to the whole second of its expiry.  When
the key string has another length, the key of the service is the freshly generated key,
whatever the string. -/
theorem NewAuthService_key (pasetoKey : String) (hours₁ hours₂ : Int)
    (fresh₁ fresh₂ : V4SymmetricKey) :
    ((bytesOf pasetoKey).length = V4KeyLength →
      (NewAuthService pasetoKey hours₁ fresh₁).symmetricKey = ⟨bytesOf pasetoKey⟩ ∧
      ∀ (now t userID : Int) (username : String),
        ∃ tokenString,
          (NewAuthService pasetoKey hours₁ fresh₁).CreateToken now userID username =
            .ok tokenString ∧
          (NewAuthService pasetoKey hours₂ fresh₂).VerifyToken t tokenString =
            (NewAuthService pasetoKey hours₁ fresh₁).VerifyToken t tokenString ∧
          (now ≤ t →
            t ≤ RFC3339 (now + (NewAuthService pasetoKey hours₁ fresh₁).tokenExpiration) →
            (NewAuthService pasetoKey hours₂ fresh₂).VerifyToken t tokenString =
              .ok ⟨userID, username, now,
                now + (NewAuthService pasetoKey hours₁ fresh₁).tokenExpiration⟩)) ∧
    ((bytesOf pasetoKey).length ≠ V4KeyLength →
      (NewAuthService pasetoKey hours₁ fresh₁).symmetricKey = fresh₁) := by
  have hkey : ∀ (h : Int) (f : V4SymmetricKey), (bytesOf pasetoKey).length = V4KeyLength →
      (NewAuthService pasetoKey h f).symmetricKey = ⟨bytesOf pasetoKey⟩ := by
    intro h f hlen
    simp [NewAuthService, V4SymmetricKeyFromBytes, hlen]
  constructor
  · intro hlen
    refine ⟨hkey hours₁ fresh₁ hlen, ?_⟩
    intro now t userID username
    refine ⟨_, CreateToken_eq _ now userID username, ?_, ?_⟩
    · rw [VerifyToken_issued, VerifyToken_issued, hkey hours₁ fresh₁ hlen,
        hkey hours₂ fresh₂ hlen]
    · intro _ hle
      rw [VerifyToken_issued, hkey hours₁ fresh₁ hlen, hkey hours₂ fresh₂ hlen]
      simp [not_lt.mpr hle]
  · intro hlen
    simp [NewAuthService, V4SymmetricKeyFromBytes, hlen]

/-- C17 for a key string of 32 bytes and for a key string of 5 bytes: the first gives the
key made of its bytes, under which services with different lifetimes and different fresh
keys accept each other's token; the second gives the freshly generated key. -/
theorem NewAuthService_key_witness :
    (NewAuthService goodKey 1 randomKey).symmetricKey = ⟨bytesOf goodKey⟩ ∧
    (∃ tokenString,
      (NewAuthService goodKey 1 randomKey).CreateToken (T0 + 500000000) 7 "alice" =
        .ok tokenString ∧
      (NewAuthService goodKey 2 randomKey2).VerifyToken (T0 + 30 * Minute) tokenString =
        .ok ⟨7, "alice", T0 + 500000000,
          T0 + 500000000 + (NewAuthService goodKey 1 randomKey).tokenExpiration⟩) ∧
    (NewAuthService "short" 1 randomKey).symmetricKey = randomKey :=
  have h := (NewAuthService_key goodKey 1 2 randomKey randomKey2).1 (by decide)
  have h2 := h.2 (T0 + 500000000) (T0 + 30 * Minute) 7 "alice"
  ⟨h.1, h2.elim (fun tok ht => ⟨tok, ht.1, ht.2.2 (by decide) (by decide)⟩),
    (NewAuthService_key "short" 1 2 randomKey randomKey2).2 (by decide)⟩

/-! ## The password hasher -/

/-- C18 as stated fails: for a password of 73 bytes `HashPassword` returns an error, although
the random source works. -/
theorem HashPassword_long_password_fails :
    (bytesOf longPassword).length = 73 ∧
    Service.HashPassword (NewAuthService goodKey 1 randomKey) (some [1, 2, 3]) longPassword =
      .error ⟨"failed to hash password", .passwordTooLong⟩ := by
  decide

/-- C18, amended: for every password of at most 72 bytes, the empty string included,
`HashPassword` returns a hash with no error whenever the random source works, and
`VerifyPassword` of that hash and the password returns nil; it fails when the random source
fails.  For every password longer than 72 bytes `HashPassword` returns an error, whatever
the random source. -/
theorem password_round_trip (s : Service) (password : String) :
    ((bytesOf password).length ≤ 72 →
      (∀ salt, ∃ hashed,
        s.HashPassword (some salt) password = .ok hashed ∧
        s.VerifyPassword hashed password = .ok ()) ∧
      s.HashPassword none password = .error ⟨"failed to hash password", .noRandomness⟩) ∧
    ((bytesOf password).length > 72 →
      ∀ rand, s.HashPassword rand password =
        .error ⟨"failed to hash password", .passwordTooLong⟩) := by
  constructor
  · intro hlen
    have hnot : ¬ (bytesOf password).length > 72 := not_lt.mpr hlen
    constructor
    · intro salt
      refine ⟨.bcrypt bcrypt.DefaultCost salt (bytesOf password), ?_, ?_⟩
      · simp [Service.HashPassword, bcrypt.GenerateFromPassword, hnot, bcrypt.DefaultCost,
          bcrypt.MinCost, bcrypt.MaxCost]
      · simp [Service.VerifyPassword, bcrypt.CompareHashAndPassword,
          List.take_of_length_le hlen]
    · simp [Service.HashPassword, bcrypt.GenerateFromPassword, hnot, bcrypt.DefaultCost,
        bcrypt.MinCost, bcrypt.MaxCost]
  · intro hlen rand
    simp [Service.HashPassword, bcrypt.GenerateFromPassword, hlen]

/-- C18, amended, for the empty password and for a password of 13 bytes: each is hashed and
verifies against its hash. -/
theorem password_round_trip_witness :
    (∃ hashed,
      Service.HashPassword (NewAuthService goodKey 1 randomKey) (some [1, 2, 3]) "" =
        .ok hashed ∧
      Service.VerifyPassword (NewAuthService goodKey 1 randomKey) hashed "" = .ok ()) ∧
    (∃ hashed,
      Service.HashPassword (NewAuthService goodKey 1 randomKey) (some [1, 2, 3])
        "hunter2secret" = .ok hashed ∧
      Service.VerifyPassword (NewAuthService goodKey 1 randomKey) hashed "hunter2secret" =
        .ok ()) :=
  ⟨((password_round_trip (NewAuthService goodKey 1 randomKey) "").1 (by decide)).1 [1, 2, 3],
    ((password_round_trip (NewAuthService goodKey 1 randomKey) "hunter2secret").1
      (by decide)).1 [1, 2, 3]⟩

/-! ## The reload in `UpdateMessage` -/

theorem UpdateMessage_nil_dereference (env : Env) (w : World) (userID messageID : Int)
    (editReq : UpdateMessageRequest) (updated : MessageEnt) (e : ServiceError)
    (hsender : (MessageService.IsUserSenderOfMessage env w messageID userID).1 = .ok true)
    (hupdate : (MessageService.UpdateMessage env w.next messageID editReq.content).1 =
      .ok updated)
    (hreload : (MessageService.GetMessageByID env
      (MessageService.UpdateMessage env w.next messageID editReq.content).2 messageID).1 =
        .error e) :
    (MessageHandler.UpdateMessage env w userID (some messageID) (some editReq)).1 = none := by
  have hs := IsUserSenderOfMessage_eq env w messageID userID true hsender
  have hu : MessageService.UpdateMessage env w.next messageID editReq.content =
      (.ok updated, (MessageService.UpdateMessage env w.next messageID editReq.content).2) :=
    Prod.ext hupdate rfl
  have hr : MessageService.GetMessageByID env
      (MessageService.UpdateMessage env w.next messageID editReq.content).2 messageID =
      (.error e, (MessageService.GetMessageByID env
        (MessageService.UpdateMessage env w.next messageID editReq.content).2 messageID).2) :=
    Prod.ext hreload rfl
  unfold MessageHandler.UpdateMessage
  simp only [hs, Bool.not_true, Bool.false_eq_true, if_false]
  rw [hu]
  simp only
  rw [hr]

/-- C21, the failing input: user 2 is the sender of message 1; on a store whose reload of a
message fails, the sender check answers true and the update succeeds (the content of
message 1 is replaced), the reload `GetMessageByID` returns a nil message with an error, and
`UpdateMessage` dereferences the nil message instead of returning a response. -/
theorem UpdateMessage_reload_failure :
    (MessageService.IsUserSenderOfMessage noMessageOnly ⟨db1, 0⟩ 1 2).1 = .ok true ∧
    (MessageService.UpdateMessage noMessageOnly ⟨db1, 1⟩ 1 "edited").1 =
      .ok (Message.ent ⟨1, 1, 2, "edited"⟩) ∧
    (MessageService.GetMessageByID noMessageOnly
        (MessageService.UpdateMessage noMessageOnly ⟨db1, 1⟩ 1 "edited").2 1).1 =
      .error ⟨"failed to get message", some .storage⟩ ∧
    (MessageHandler.UpdateMessage noMessageOnly ⟨db1, 0⟩ 2 (some 1) (some ⟨"edited"⟩)).1 =
      none ∧
    (MessageHandler.UpdateMessage noMessageOnly ⟨db1, 0⟩ 2 (some 1)
        (some ⟨"edited"⟩)).2.db.messages = [⟨1, 1, 2, "edited"⟩] :=
  ⟨rfl, rfl, rfl, rfl, rfl⟩

/-! ## `AddMembers` -/

theorem AddMembers_loop_frame (env : Env) (chatID : Int) (ids : List Int) (w : World) :
    (ChatService.AddMembers.loop env chatID ids w).db.users = w.db.users ∧
    (ChatService.AddMembers.loop env chatID ids w).db.chats = w.db.chats ∧
    (ChatService.AddMembers.loop env chatID ids w).db.messages = w.db.messages ∧
    w.db.members <+: (ChatService.AddMembers.loop env chatID ids w).db.members := by
  induction ids generalizing w with
  | nil => simp [ChatService.AddMembers.loop]
  | cons m rest ih =>
    simp only [ChatService.AddMembers.loop]
    rw [Store.memberExist_snd]
    split
    · simpa using ih w.next
    · rw [Store.userExist_snd]
      split
      · simpa using ih w.next.next
      · rcases Store.memberCreate_cases env w.next.next chatID m false with h | h
        · rw [h]
          simpa using ih w.next.next.next
        · rw [h]
          obtain ⟨h1, h2, h3, h4⟩ := ih
            (w.next.next.put
              { w.next.next.db with
                members := w.next.next.db.members ++
                  [Store.newMember w.next.next chatID m false] })
          refine ⟨by simpa using h1, by simpa using h2, by simpa using h3, ?_⟩
          exact List.IsPrefix.trans (List.prefix_append _ _) (by simpa using h4)

theorem AddMembers_loop_cons (env : Env) (chatID : Int)
    (hq : ∀ t u, env.fails t (.memberExist chatID u) = false)
    (hu : ∀ t u, env.fails t (.userExist u) = false)
    (hi : ∀ t u, env.fails t (.memberCreate chatID u) = false)
    (m : Int) (rest : List Int) (w : World) :
    ChatService.AddMembers.loop env chatID (m :: rest) w =
      ChatService.AddMembers.loop env chatID rest (reliableStep chatID m w) := by
  simp only [ChatService.AddMembers.loop]
  rw [Store.memberExist_snd]
  have hex : (Store.memberExist env w chatID m).1 =
      .ok (!(w.db.membersOf chatID m).isEmpty) := by
    simp [Store.memberExist, hq]
  rw [hex, Store.userExist_snd, Store.userExist_fst env w.next m (hu _ _),
    Store.memberCreate_ok env w.next.next chatID m false (hi _ _)]
  simp only [dropErr, reliableStep, World.next_db]
  cases (w.db.membersOf chatID m).isEmpty <;> cases w.db.hasUser m <;> simp

theorem reliableStep_users (chatID m : Int) (w : World) :
    (reliableStep chatID m w).db.users = w.db.users := by
  unfold reliableStep
  split
  · rfl
  · split <;> rfl

theorem membersOf_append_one (db : DB) (r : ChatMember) (c u : Int) :
    DB.membersOf { db with members := db.members ++ [r] } c u =
      db.membersOf c u ++ (if r.chatID = c ∧ r.userID = u then [r] else []) := by
  unfold DB.membersOf
  simp only [List.filter_append]
  congr 1
  by_cases h : r.chatID = c ∧ r.userID = u
  · simp [List.filter_cons, h]
  · simp [List.filter_cons, h]

theorem reliableStep_other (chatID m : Int) (w : World) (c u : Int)
    (h : ¬ (c = chatID ∧ u = m ∧ w.db.hasUser u = true ∧ w.db.membersOf chatID u = [])) :
    (reliableStep chatID m w).db.membersOf c u = w.db.membersOf c u := by
  unfold reliableStep
  split
  · rfl
  · rename_i hemp
    split
    · rfl
    · rename_i huser
      simp only [World.put_db]
      rw [membersOf_append_one]
      have hnil : w.db.membersOf chatID m = [] := by
        cases hl : w.db.membersOf chatID m with
        | nil => rfl
        | cons a l => rw [hl] at hemp; simp at hemp
      have hnot : ¬ ((Store.newMember w.next.next chatID m false).chatID = c ∧
          (Store.newMember w.next.next chatID m false).userID = u) := by
        rintro ⟨h1, h2⟩
        simp only [Store.newMember] at h1 h2
        subst h1 h2
        exact h ⟨rfl, rfl, by simpa using huser, hnil⟩
      simp [hnot]

theorem reliableStep_added (chatID m : Int) (w : World)
    (huser : w.db.hasUser m = true) (hnil : w.db.membersOf chatID m = []) :
    ((reliableStep chatID m w).db.membersOf chatID m).map ChatMember.key =
      [(chatID, m, false)] := by
  unfold reliableStep
  rw [if_neg (by simp [hnil]), if_neg (by simp [huser])]
  simp only [World.put_db]
  rw [membersOf_append_one, hnil]
  simp [Store.newMember, ChatMember.key]

theorem reliableStep_hasUser (chatID m : Int) (w : World) (u : Int) :
    (reliableStep chatID m w).db.hasUser u = w.db.hasUser u := by
  unfold DB.hasUser
  rw [reliableStep_users]

theorem reliableStep_noop (chatID m : Int) (w : World)
    (h : ¬ (w.db.hasUser m = true ∧ w.db.membersOf chatID m = [])) :
    (reliableStep chatID m w).db = w.db := by
  unfold reliableStep
  split
  · rfl
  · rename_i hemp
    split
    · rfl
    · rename_i huser
      exfalso
      apply h
      refine ⟨by simpa using huser, ?_⟩
      cases hl : w.db.membersOf chatID m with
      | nil => rfl
      | cons a l => rw [hl] at hemp; simp at hemp

theorem AddMembers_loop_other (env : Env) (chatID : Int)
    (hq : ∀ t u, env.fails t (.memberExist chatID u) = false)
    (hu : ∀ t u, env.fails t (.userExist u) = false)
    (hi : ∀ t u, env.fails t (.memberCreate chatID u) = false)
    (ids : List Int) (w : World) (c u : Int)
    (h : ¬ (c = chatID ∧ u ∈ ids ∧ w.db.hasUser u = true ∧ w.db.membersOf chatID u = [])) :
    (ChatService.AddMembers.loop env chatID ids w).db.membersOf c u = w.db.membersOf c u := by
  induction ids generalizing w with
  | nil => simp [ChatService.AddMembers.loop]
  | cons m rest ih =>
    rw [AddMembers_loop_cons env chatID hq hu hi]
    have hstep : (reliableStep chatID m w).db.membersOf c u = w.db.membersOf c u := by
      apply reliableStep_other
      rintro ⟨h1, h2, h3, h4⟩
      exact h ⟨h1, by simp [h2], h3, h4⟩
    rw [ih (reliableStep chatID m w), hstep]
    rintro ⟨h1, h2, h3, h4⟩
    apply h
    subst h1
    rw [reliableStep_hasUser] at h3
    rw [hstep] at h4
    exact ⟨rfl, List.mem_cons_of_mem _ h2, h3, h4⟩

theorem AddMembers_loop_added (env : Env) (chatID : Int)
    (hq : ∀ t u, env.fails t (.memberExist chatID u) = false)
    (hu : ∀ t u, env.fails t (.userExist u) = false)
    (hi : ∀ t u, env.fails t (.memberCreate chatID u) = false)
    (ids : List Int) (w : World) (u : Int)
    (hmem : u ∈ ids) (huser : w.db.hasUser u = true) (hnil : w.db.membersOf chatID u = []) :
    ((ChatService.AddMembers.loop env chatID ids w).db.membersOf chatID u).map
      ChatMember.key = [(chatID, u, false)] := by
  induction ids generalizing w with
  | nil => cases hmem
  | cons m rest ih =>
    rw [AddMembers_loop_cons env chatID hq hu hi]
    by_cases hum : u = m
    · subst hum
      have hadd := reliableStep_added chatID u w huser hnil
      rw [AddMembers_loop_other env chatID hq hu hi rest (reliableStep chatID u w) chatID u]
      · exact hadd
      · rintro ⟨_, _, _, h4⟩
        rw [h4] at hadd
        simp at hadd
    · have hrest : u ∈ rest := by
        rcases List.mem_cons.mp hmem with h | h
        · exact absurd h hum
        · exact h
      apply ih (reliableStep chatID m w) hrest
      · rw [reliableStep_hasUser]; exact huser
      · rw [reliableStep_other chatID m w chatID u]
        · exact hnil
        · rintro ⟨_, h2, _, _⟩
          exact hum h2

theorem AddMembers_loop_noop (env : Env) (chatID : Int)
    (hq : ∀ t u, env.fails t (.memberExist chatID u) = false)
    (hu : ∀ t u, env.fails t (.userExist u) = false)
    (hi : ∀ t u, env.fails t (.memberCreate chatID u) = false)
    (ids : List Int) (w : World)
    (h : ∀ u, u ∈ ids → ¬ (w.db.hasUser u = true ∧ w.db.membersOf chatID u = [])) :
    (ChatService.AddMembers.loop env chatID ids w).db = w.db := by
  induction ids generalizing w with
  | nil => simp [ChatService.AddMembers.loop]
  | cons m rest ih =>
    rw [AddMembers_loop_cons env chatID hq hu hi]
    have hstep := reliableStep_noop chatID m w (h m (by simp))
    rw [ih (reliableStep chatID m w), hstep]
    intro u hmem
    rw [hstep]
    exact h u (List.mem_cons_of_mem _ hmem)

theorem AddMembers_loop_settled (env : Env) (chatID : Int)
    (hq : ∀ t u, env.fails t (.memberExist chatID u) = false)
    (hu : ∀ t u, env.fails t (.userExist u) = false)
    (hi : ∀ t u, env.fails t (.memberCreate chatID u) = false)
    (ids : List Int) (w : World) (u : Int) (hmem : u ∈ ids) :
    ¬ ((ChatService.AddMembers.loop env chatID ids w).db.hasUser u = true ∧
      (ChatService.AddMembers.loop env chatID ids w).db.membersOf chatID u = []) := by
  rintro ⟨h1, h2⟩
  have husers : (ChatService.AddMembers.loop env chatID ids w).db.hasUser u =
      w.db.hasUser u := by
    unfold DB.hasUser
    rw [(AddMembers_loop_frame env chatID ids w).1]
  rw [husers] at h1
  by_cases hnil : w.db.membersOf chatID u = []
  · have hadd := AddMembers_loop_added env chatID hq hu hi ids w u hmem h1 hnil
    rw [h2] at hadd
    simp at hadd
  · rw [AddMembers_loop_other env chatID hq hu hi ids w chatID u
      (fun h => hnil h.2.2.2)] at h2
    exact hnil h2

/-- C22, counterexample: on a store whose queries never fail (user 3 exists and is no member
of chat 1) a membership insert that fails makes `AddMembers` add no record for user 3; the
call returns nil and leaves the store as it was.  The same call made again, when the insert
succeeds, adds the record: the store after the second call is not the store after the
first. -/
theorem AddMembers_failed_insert_not_idempotent :
    (∀ t u, insertFailsEarly.fails t (.memberExist 1 u) = false) ∧
    (∀ t u, insertFailsEarly.fails t (.userExist u) = false) ∧
    db1.hasUser 3 = true ∧ db1.membersOf 1 3 = [] ∧
    (ChatService.AddMembers insertFailsEarly ⟨db1, 0⟩ 1 [3]).1 = .ok () ∧
    (ChatService.AddMembers insertFailsEarly ⟨db1, 0⟩ 1 [3]).2 = ⟨db1, 3⟩ ∧
    (ChatService.AddMembers insertFailsEarly
      (ChatService.AddMembers insertFailsEarly ⟨db1, 0⟩ 1 [3]).2 1 [3]).2.db.members =
      db1.members ++ [⟨3, 1, 3, false⟩] :=
  ⟨fun _ _ => rfl, fun _ _ => rfl, rfl, rfl, rfl, rfl, rfl⟩

/-- C22, amended: when neither the membership queries, the user-existence queries nor the
membership inserts of the chat fail, `AddMembers` returns nil; the user, chat and message
tables are unchanged and the membership table keeps every earlier record, unchanged and in
place, as a prefix; an identifier of the list that is an existing user and not yet a member
of the chat has exactly one record afterwards, with `isAdmin = false`, however often it is
repeated in the list; the records of every other chat and user pair are the ones before the
call; and a second call with the same arguments leaves the store of the first call. -/
theorem AddMembers_idempotent (env : Env) (w : World) (chatID : Int) (ids : List Int)
    (hq : ∀ t u, env.fails t (.memberExist chatID u) = false)
    (hu : ∀ t u, env.fails t (.userExist u) = false)
    (hi : ∀ t u, env.fails t (.memberCreate chatID u) = false) :
    (ChatService.AddMembers env w chatID ids).1 = .ok () ∧
    (ChatService.AddMembers env w chatID ids).2.db.users = w.db.users ∧
    (ChatService.AddMembers env w chatID ids).2.db.chats = w.db.chats ∧
    (ChatService.AddMembers env w chatID ids).2.db.messages = w.db.messages ∧
    w.db.members <+: (ChatService.AddMembers env w chatID ids).2.db.members ∧
    (∀ u, u ∈ ids → w.db.hasUser u = true → w.db.membersOf chatID u = [] →
      ((ChatService.AddMembers env w chatID ids).2.db.membersOf chatID u).map
        ChatMember.key = [(chatID, u, false)]) ∧
    (∀ c u,
      ¬ (c = chatID ∧ u ∈ ids ∧ w.db.hasUser u = true ∧ w.db.membersOf chatID u = []) →
      (ChatService.AddMembers env w chatID ids).2.db.membersOf c u = w.db.membersOf c u) ∧
    (ChatService.AddMembers env (ChatService.AddMembers env w chatID ids).2 chatID ids).2.db =
      (ChatService.AddMembers env w chatID ids).2.db := by
  obtain ⟨h1, h2, h3, h4⟩ := AddMembers_loop_frame env chatID ids w
  refine ⟨rfl, h1, h2, h3, h4, ?_, ?_, ?_⟩
  · intro u hmem huser hnil
    exact AddMembers_loop_added env chatID hq hu hi ids w u hmem huser hnil
  · intro c u h
    exact AddMembers_loop_other env chatID hq hu hi ids w c u h
  · exact AddMembers_loop_noop env chatID hq hu hi ids _
      (fun u hmem => AddMembers_loop_settled env chatID hq hu hi ids w u hmem)

/-- C22 on a store where users 1 and 2 are members of chat 1 and user 3 is not, with the
identifier list 3, 3, 2, 9 (no user 9 exists): one non-admin record is added for user 3, the
admin record of user 1 and the record of user 2 are kept, and the second call changes
nothing. -/
theorem AddMembers_idempotent_witness :
    (ChatService.AddMembers reliable ⟨db1, 0⟩ 1 [3, 3, 2, 9]).1 = .ok () ∧
    (ChatService.AddMembers reliable ⟨db1, 0⟩ 1 [3, 3, 2, 9]).2.db.members =
      [⟨1, 1, 1, true⟩, ⟨2, 1, 2, false⟩, ⟨3, 1, 3, false⟩] ∧
    ((ChatService.AddMembers reliable ⟨db1, 0⟩ 1 [3, 3, 2, 9]).2.db.membersOf 1 3).map
      ChatMember.key = [(1, 3, false)] ∧
    (ChatService.AddMembers reliable
      (ChatService.AddMembers reliable ⟨db1, 0⟩ 1 [3, 3, 2, 9]).2 1 [3, 3, 2, 9]).2.db =
      (ChatService.AddMembers reliable ⟨db1, 0⟩ 1 [3, 3, 2, 9]).2.db :=
  have h := AddMembers_idempotent reliable ⟨db1, 0⟩ 1 [3, 3, 2, 9]
    (fun _ _ => rfl) (fun _ _ => rfl) (fun _ _ => rfl)
  ⟨h.1, rfl, h.2.2.2.2.2.1 3 (by decide) rfl rfl, h.2.2.2.2.2.2.2⟩

/-! ## The user service -/

theorem UpdateUser_save_cases (env : Env) (w : World) (id : Int)
    (displayName : Option String) (password : Option Hashed) :
    (env.fails w.tick (.userUpdate id) = true ∧
      UserService.UpdateUser.save env w id displayName password =
        (.error ⟨"failed to update user", some .storage⟩, w.next)) ∨
    (env.fails w.tick (.userUpdate id) = false ∧
      w.db.users.find? (fun u => u.id = id) = none ∧
      UserService.UpdateUser.save env w id displayName password =
        (.error ⟨"user not found", none⟩, w.next)) ∨
    (env.fails w.tick (.userUpdate id) = false ∧
      ∃ x, w.db.users.find? (fun u => u.id = id) = some x ∧
        UserService.UpdateUser.save env w id displayName password =
          (.ok { x with
              displayName := displayName.getD x.displayName
              password := password.getD x.password },
            w.put { w.db with
              users := w.db.users.map
                (fun x =>
                  if x.id = id then
                    { x with
                      displayName := displayName.getD x.displayName
                      password := password.getD x.password }
                  else x) })) := by
  cases hf : env.fails w.tick (.userUpdate id) with
  | true =>
    left
    refine ⟨rfl, ?_⟩
    simp [UserService.UpdateUser.save, Store.userUpdate, hf]
  | false =>
    right
    cases hx : w.db.users.find? (fun u => u.id = id) with
    | none =>
      left
      refine ⟨rfl, rfl, ?_⟩
      simp [UserService.UpdateUser.save, Store.userUpdate, hf, hx]
    | some x =>
      right
      refine ⟨rfl, x, rfl, ?_⟩
      simp [UserService.UpdateUser.save, Store.userUpdate, hf, hx]

theorem UpdateUser_eq_save (env : Env) (w : World) (auth : Service) (rand : Option Bytes)
    (id : Int) (displayName password : String)
    (h : password = "" ∨ ∃ hashed, auth.HashPassword rand password = .ok hashed) :
    UserService.UpdateUser env w auth rand id displayName password =
      UserService.UpdateUser.save env w id
        (if displayName ≠ "" then some displayName else none)
        (if password ≠ "" then (auth.HashPassword rand password).toOption else none) := by
  unfold UserService.UpdateUser
  by_cases hp : password = ""
  · simp [hp]
  · rcases h with h | ⟨hashed, h⟩
    · exact absurd h hp
    · simp [hp, h, Except.toOption]

theorem updatedUser_eq (auth : Service) (rand : Option Bytes) (displayName password : String)
    (h : password = "" ∨ ∃ hashed, auth.HashPassword rand password = .ok hashed) (x : User) :
    ({ x with
        displayName :=
          (if displayName ≠ "" then some displayName else none).getD x.displayName
        password :=
          (if password ≠ "" then (auth.HashPassword rand password).toOption
            else none).getD x.password } : User) =
      updatedUser auth rand displayName password x := by
  unfold updatedUser
  by_cases hd : displayName = "" <;> by_cases hp : password = ""
  · simp [hd, hp]
  · rcases h with h | ⟨hashed, h⟩
    · exact absurd h hp
    · simp [hd, hp, h, Except.toOption]
  · simp [hd, hp]
  · rcases h with h | ⟨hashed, h⟩
    · exact absurd h hp
    · simp [hd, hp, h, Except.toOption]

/-- C23, counterexample: user 1 exists and `UpdateUser` is called for it with the non-empty
password "newsecret", which `HashPassword` hashes without error; the update of the store
fails, `UpdateUser` returns an error and the stored hash of user 1 is the one before the
call, not the hash of the new password. -/
theorem UpdateUser_hash_kept_when_update_fails :
    "newsecret" ≠ "" ∧
    Service.HashPassword (NewAuthService goodKey 1 randomKey) (some [1, 2, 3]) "newsecret" =
      .ok (.bcrypt bcrypt.DefaultCost [1, 2, 3] (bytesOf "newsecret")) ∧
    UserService.UpdateUser noUserUpdate ⟨db1, 0⟩ (NewAuthService goodKey 1 randomKey)
        (some [1, 2, 3]) 1 "" "newsecret" =
      (.error ⟨"failed to update user", some .storage⟩, ⟨db1, 1⟩) ∧
    db1.users.find? (fun u => u.id = 1) = some ⟨1, "alice", "h1", "Alice"⟩ := by
  decide

/-- C23, amended.  `CreateUser`: when hashing fails no storage call is made and no user is
created; when hashing returns `hashed` and the insert succeeds, the one user added has
`hashed` as password (with the given username and display name); when the insert fails the
store is unchanged.  `UpdateUser`: when the password is non-empty and hashing fails, no
storage call is made; the call succeeds exactly when (the password is empty or hashing
succeeds and) the update of the store does not fail and the user exists; when it succeeds
the store differs only in the record of user `id`, whose hash is replaced by the result of
`HashPassword` if and only if the password is non-empty, whose display name is replaced if
and only if `displayName` is non-empty, and whose username is kept; when it returns an error
the store is unchanged. -/
theorem user_service_stores_hash (env : Env) (w : World) (auth : Service)
    (rand : Option Bytes) (id : Int) (username password displayName : String) :
    (∀ err, auth.HashPassword rand password = .error err →
      UserService.CreateUser env w auth rand username password displayName =
        (.error ⟨"failed to hash password", none⟩, w)) ∧
    (∀ hashed, auth.HashPassword rand password = .ok hashed →
      (env.fails w.tick .userCreate = false →
        UserService.CreateUser env w auth rand username password displayName =
          (.ok (Store.newUser w username hashed displayName),
            w.put { w.db with
              users := w.db.users ++ [Store.newUser w username hashed displayName] }) ∧
        (Store.newUser w username hashed displayName).password = hashed) ∧
      (env.fails w.tick .userCreate = true →
        UserService.CreateUser env w auth rand username password displayName =
          (.error ⟨"failed to create user", some .storage⟩, w.next))) ∧
    (password ≠ "" → ∀ err, auth.HashPassword rand password = .error err →
      UserService.UpdateUser env w auth rand id displayName password =
        (.error ⟨"failed to hash password", none⟩, w)) ∧
    (∀ x, (password = "" ∨ ∃ hashed, auth.HashPassword rand password = .ok hashed) →
      env.fails w.tick (.userUpdate id) = false →
      w.db.users.find? (fun u => u.id = id) = some x →
      UserService.UpdateUser env w auth rand id displayName password =
        (.ok (updatedUser auth rand displayName password x),
          w.put { w.db with
            users := w.db.users.map
              (fun x =>
                if x.id = id then updatedUser auth rand displayName password x else x) })) ∧
    (∀ u, (UserService.UpdateUser env w auth rand id displayName password).1 = .ok u →
      (password = "" ∨ ∃ hashed, auth.HashPassword rand password = .ok hashed) ∧
      env.fails w.tick (.userUpdate id) = false ∧
      w.db.users.find? (fun u => u.id = id) ≠ none) ∧
    (∀ e, (UserService.UpdateUser env w auth rand id displayName password).1 = .error e →
      (UserService.UpdateUser env w auth rand id displayName password).2.db = w.db) ∧
    (∀ x hashed, auth.HashPassword rand password = .ok hashed →
      updatedUser auth rand displayName password x =
        { id := x.id
          username := x.username
          password := if password ≠ "" then hashed else x.password
          displayName := if displayName ≠ "" then displayName else x.displayName }) ∧
    (∀ x, password = "" →
      updatedUser auth rand displayName password x =
        { id := x.id
          username := x.username
          password := x.password
          displayName := if displayName ≠ "" then displayName else x.displayName }) := by
  refine ⟨?_, ?_, ?_, ?_, ?_, ?_, ?_, ?_⟩
  · intro err h
    simp [UserService.CreateUser, h]
  · intro hashed h
    refine ⟨fun hf => ⟨?_, rfl⟩, fun hf => ?_⟩
    · simp [UserService.CreateUser, h, Store.userCreate, hf]
    · simp [UserService.CreateUser, h, Store.userCreate, hf]
  · intro hp err h
    simp [UserService.UpdateUser, hp, h]
  · intro x hh hf hx
    rw [UpdateUser_eq_save env w auth rand id displayName password hh]
    rcases UpdateUser_save_cases env w id
        (if displayName ≠ "" then some displayName else none)
        (if password ≠ "" then (auth.HashPassword rand password).toOption else none)
      with ⟨h1, _⟩ | ⟨_, h2, _⟩ | ⟨_, y, h2, h3⟩
    · rw [hf] at h1; cases h1
    · rw [hx] at h2; cases h2
    · rw [hx] at h2
      cases h2
      rw [h3]
      simp only [updatedUser_eq auth rand displayName password hh]
  · intro u hok
    have hh : password = "" ∨ ∃ hashed, auth.HashPassword rand password = .ok hashed := by
      by_cases hp : password = ""
      · exact Or.inl hp
      · right
        cases hhash : auth.HashPassword rand password with
        | ok hashed => exact ⟨hashed, rfl⟩
        | error err =>
          simp [UserService.UpdateUser, hp, hhash] at hok
    refine ⟨hh, ?_⟩
    rw [UpdateUser_eq_save env w auth rand id displayName password hh] at hok
    rcases UpdateUser_save_cases env w id
        (if displayName ≠ "" then some displayName else none)
        (if password ≠ "" then (auth.HashPassword rand password).toOption else none)
      with ⟨_, h3⟩ | ⟨_, _, h3⟩ | ⟨h1, y, h2, _⟩
    · rw [h3] at hok; cases hok
    · rw [h3] at hok; cases hok
    · exact ⟨h1, by rw [h2]; simp⟩
  · intro e herr
    by_cases hh : password = "" ∨ ∃ hashed, auth.HashPassword rand password = .ok hashed
    · rw [UpdateUser_eq_save env w auth rand id displayName password hh] at herr ⊢
      rcases UpdateUser_save_cases env w id
          (if displayName ≠ "" then some displayName else none)
          (if password ≠ "" then (auth.HashPassword rand password).toOption else none)
        with ⟨_, h3⟩ | ⟨_, _, h3⟩ | ⟨_, y, _, h3⟩
      · rw [h3]; rfl
      · rw [h3]; rfl
      · rw [h3] at herr; cases herr
    · have hp : password ≠ "" := fun h => hh (Or.inl h)
      cases hhash : auth.HashPassword rand password with
      | ok hashed => exact absurd (Or.inr ⟨hashed, hhash⟩) hh
      | error err => simp [UserService.UpdateUser, hp, hhash]
  · intro x hashed h
    simp [updatedUser, h]
  · intro x hp
    simp [updatedUser, hp]

/-- C23 on a store with users 1, 2 and 3 and no storage failure: `CreateUser` with the
password "newsecret" adds user 4 with the hash of that password; `UpdateUser` of user 1 with
an empty display name and the password "newsecret" replaces the hash of user 1 only, and
with the display name "Al" and an empty password replaces the display name of user 1
only. -/
theorem user_service_stores_hash_witness :
    (UserService.CreateUser reliable ⟨db1, 0⟩ (NewAuthService goodKey 1 randomKey)
        (some [1, 2, 3]) "dave" "newsecret" "").2.db.users =
      db1.users ++
        [⟨4, "dave", .bcrypt bcrypt.DefaultCost [1, 2, 3] (bytesOf "newsecret"), ""⟩] ∧
    (UserService.UpdateUser reliable ⟨db1, 0⟩ (NewAuthService goodKey 1 randomKey)
        (some [1, 2, 3]) 1 "" "newsecret").2.db.users =
      [⟨1, "alice", .bcrypt bcrypt.DefaultCost [1, 2, 3] (bytesOf "newsecret"), "Alice"⟩,
        ⟨2, "bob", "h2", "Bob"⟩, ⟨3, "carol", "h3", "Carol"⟩] ∧
    (UserService.UpdateUser reliable ⟨db1, 0⟩ (NewAuthService goodKey 1 randomKey)
        (some [1, 2, 3]) 1 "Al" "").2.db.users =
      [⟨1, "alice", "h1", "Al"⟩, ⟨2, "bob", "h2", "Bob"⟩, ⟨3, "carol", "h3", "Carol"⟩] := by
  obtain ⟨_, hc, _, hup, _⟩ :=
    user_service_stores_hash reliable ⟨db1, 0⟩ (NewAuthService goodKey 1 randomKey)
      (some [1, 2, 3]) 1 "dave" "newsecret" ""
  obtain ⟨_, _, _, hup2, _⟩ :=
    user_service_stores_hash reliable ⟨db1, 0⟩ (NewAuthService goodKey 1 randomKey)
      (some [1, 2, 3]) 1 "dave" "" "Al"
  refine ⟨?_, ?_, ?_⟩
  · rw [((hc (.bcrypt bcrypt.DefaultCost [1, 2, 3] (bytesOf "newsecret")) (by decide)).1
      (by decide)).1]
    decide
  · rw [hup ⟨1, "alice", "h1", "Alice"⟩
      (Or.inr ⟨.bcrypt bcrypt.DefaultCost [1, 2, 3] (bytesOf "newsecret"), by decide⟩)
      (by decide) (by decide)]
    decide
  · rw [hup2 ⟨1, "alice", "h1", "Alice"⟩ (Or.inl rfl) (by decide) (by decide)]
    decide

end ChatApp
